import Mathlib

/-!
A shallow embedding of porkbun-go: the client library and its command-line helper.

The development follows the repository file by file:

* `strings`, `ParseDomain` : `cmd/porkbun/dns.go` (the domain-name splitter);
* `json`                    : the parts of Go's `encoding/json` the client calls
                              (`Marshal`, `Unmarshal`, `Decoder.Decode`), as of Go 1.22;
* `porkbun`                 : `client.go`, `ping.go`, `dns.go`.

Modelling choices:

* Go strings and byte slices are Lean strings, so every text is valid UTF-8; a nil byte slice
  is the empty string.
* Go `int` is `Int`; where a number is decoded into an `int` its range is that of 64 bits.
* A Go function returning `(value, error)` returns `Except Error value`.
* The transport (`HttpClient`) is a function from the request to a response or an error, and an
  operation of the client returns, next to its Go result, the list of requests it handed to
  the transport.  The `context.Context` argument, which the source passes along but never
  reads, is left out.
* A response body is the text it yields up to EOF: reading it does not fail.
* The `*Record` arguments are records, not nil pointers.
* What the client needs of the environment and of `net/url` is taken as given (`Runtime`).
-/

set_option autoImplicit false

/-! ## `strings` : the two functions of Go's `strings` package used by `ParseDomain` -/

namespace strings

/-- The pieces of a character list between consecutive occurrences of `sep`
(there is always at least one piece). -/
def splitChars (sep : Char) : List Char → List (List Char)
  | [] => [[]]
  | c :: cs =>
    if c = sep then [] :: splitChars sep cs
    else
      match splitChars sep cs with
      | [] => [[c]]
      | p :: ps => (c :: p) :: ps

/-- Go `strings.Split(s, sep)` for a separator of one character, which is the only way the
repository calls it (`strings.Split(domain, ".")`). -/
def Split (s : String) (sep : Char) : List String :=
  (splitChars sep s.data).map String.mk

/-- Go `strings.Join(elems, sep)`. -/
def Join : List String → String → String
  | [], _ => ""
  | [e], _ => e
  | e :: f :: rest, sep => e ++ sep ++ Join (f :: rest) sep

/-- The character-level counterpart of `Join`. -/
def joinChars (sep : List Char) : List (List Char) → List Char
  | [] => []
  | [p] => p
  | p :: q :: rest => p ++ sep ++ joinChars sep (q :: rest)

end strings

/-! ## `cmd/porkbun/dns.go` : `ParseDomain` -/

/-- Go `ParseDomain(domain) (sub, dom string, err error)`; the error is its message. -/
def ParseDomain (domain : String) : Except String (String × String) :=
  -- Split on "."
  let parts := strings.Split domain '.'
  -- Handle error cases
  if parts.length < 2 then
    .error ("invalid domain " ++ domain)
  else
    -- The domain is the last two parts
    let dom := strings.Join (parts.drop (parts.length - 2)) "."
    -- The subdomain is everything before the last two parts
    let sub := if parts.length > 2 then strings.Join (parts.take (parts.length - 2)) "." else ""
    .ok (sub, dom)

/-- The reference definition of the splitter, written from the specification's words: with
`parts` the input split on `.`, an error when there are fewer than two parts; otherwise the
registrable domain is the last two parts joined by `.` and the subdomain is every part before
them joined by `.`. -/
def ParseDomainReference (s : String) : Except String (String × String) :=
  match (strings.Split s '.').reverse with
  | last :: beforeLast :: earlier =>
    .ok (strings.Join earlier.reverse ".", beforeLast ++ "." ++ last)
  | _ => .error ("invalid domain " ++ s)

/-! ## Go `error` values -/

/-- The error values that occur in the client: its two error types (`client.go`, `dns.go`),
an error wrapped by `fmt.Errorf(format, ..., err)` with a `%w` verb (the format is kept, its
other arguments are not), and any other error, given by its text. -/
inductive Error where
  | MissingAccessKeyError (Key : String)
  | ApiError (Code : Int) (Body : String)
  | wrap (format : String) (err : Error)
  | text (msg : String)
deriving DecidableEq

namespace errors

/-- Go `errors.As(err, &target)` for a target of type `MissingAccessKeyError`: the first such
error in the chain of wrapped errors. -/
def AsMissingAccessKeyError : Error → Option String
  | .MissingAccessKeyError key => some key
  | .ApiError _ _ => none
  | .wrap _ err => AsMissingAccessKeyError err
  | .text _ => none

/-- Go `errors.As(err, &target)` for a target of type `*ApiError`. -/
def AsApiError : Error → Option (Int × String)
  | .MissingAccessKeyError _ => none
  | .ApiError code body => some (code, body)
  | .wrap _ err => AsApiError err
  | .text _ => none

end errors

/-! ## `encoding/json` : the JSON text grammar

Go's decoder first scans a complete value (reporting any syntax error) and only then stores it
into the destination, so decoding is modelled as scanning the text into a syntax tree followed
by a conversion of the tree into the destination type. -/

namespace json

/-- A JSON number token `-? int frac? exp?`, kept exactly: the integer part (which has no
leading zero, so its value determines it), the digits of the fraction when there is a ".",
and the exponent when there is an "e". -/
structure Number where
  negative : Bool
  int : Nat
  frac : Option (List Nat)
  exp : Option Int
deriving DecidableEq

/-- A scanned JSON value; object members are kept in text order, repeated keys included. -/
inductive Value where
  | null
  | bool (b : Bool)
  | number (n : Number)
  | string (s : String)
  | array (elems : List Value)
  | object (members : List (String × Value))

/-- The nesting depth past which Go's scanner reports "exceeded max depth". -/
def maxNestingDepth : Nat := 10000

/-- The scanner's `isSpace`. -/
def isSpace (c : Char) : Bool :=
  c = ' ' || c = '\t' || c = '\r' || c = '\n'

/-- The text without its leading white space. -/
def skipSpace : List Char → List Char
  | [] => []
  | c :: cs => if isSpace c then skipSpace cs else c :: cs

/-- The value of a decimal digit. -/
def digitValue (c : Char) : Option Nat :=
  if '0' ≤ c ∧ c ≤ '9' then some (c.toNat - '0'.toNat) else none

/-- The value of a hexadecimal digit, in either case. -/
def hexValue (c : Char) : Option Nat :=
  if '0' ≤ c ∧ c ≤ '9' then some (c.toNat - '0'.toNat)
  else if 'a' ≤ c ∧ c ≤ 'f' then some (c.toNat - 'a'.toNat + 10)
  else if 'A' ≤ c ∧ c ≤ 'F' then some (c.toNat - 'A'.toNat + 10)
  else none

/-- Go `getu4` on the four characters after a backslash and "u". -/
def getu4 (a b c d : Char) : Option Nat :=
  match hexValue a, hexValue b, hexValue c, hexValue d with
  | some x, some y, some z, some w => some (((x * 16 + y) * 16 + z) * 16 + w)
  | _, _, _, _ => none

/-- The replacement character U+FFFD. -/
def replacementChar : Char := Char.ofNat 0xFFFD

/-- One decoded item of a string literal: a character, or a "\u" escape that names a
UTF-16 surrogate half and has still to be paired. -/
inductive StringItem where
  | char (c : Char)
  | surrogate (code : Nat)
deriving DecidableEq

/-- The item a "\u" escape of value `code` stands for. -/
def escapeItem (code : Nat) : StringItem :=
  if 0xD800 ≤ code ∧ code < 0xE000 then .surrogate code else .char (Char.ofNat code)

/-- The character a one-letter escape stands for (the letter after the backslash). -/
def simpleEscape (e : Char) : Option Char :=
  if e = '"' then some '"'
  else if e = '\\' then some '\\'
  else if e = '/' then some '/'
  else if e = 'b' then some (Char.ofNat 8)
  else if e = 'f' then some (Char.ofNat 12)
  else if e = 'n' then some '\n'
  else if e = 'r' then some '\r'
  else if e = 't' then some '\t'
  else none

/-- The body of a string literal, after its opening quote: its items and the text after the
closing quote.  Control characters and unknown escapes are syntax errors. -/
def scanItems : List Char → Option (List StringItem × List Char)
  | [] => none
  | c :: rest =>
    if c = '"' then some ([], rest)
    else if c = '\\' then
      match rest with
      | [] => none
      | e :: r =>
        if e = 'u' then
          match r with
          | h1 :: h2 :: h3 :: h4 :: r2 =>
            match getu4 h1 h2 h3 h4 with
            | none => none
            | some code => (scanItems r2).map fun p => (escapeItem code :: p.1, p.2)
          | _ => none
        else
          match simpleEscape e with
          | none => none
          | some ch => (scanItems r).map fun p => (.char ch :: p.1, p.2)
    else if c.toNat < 0x20 then none
    else (scanItems rest).map fun p => (.char c :: p.1, p.2)

/-- The characters of a list of items, as Go's `unquote` produces them: an escaped high
surrogate directly followed by an escaped low surrogate is the character they encode, and any
other escaped surrogate half is U+FFFD. -/
def combineSurrogates : List StringItem → List Char
  | [] => []
  | .char c :: rest => c :: combineSurrogates rest
  | [.surrogate _] => [replacementChar]
  | .surrogate _ :: .char c :: rest => replacementChar :: c :: combineSurrogates rest
  | .surrogate hi :: .surrogate lo :: rest =>
    if hi < 0xDC00 ∧ 0xDC00 ≤ lo then
      Char.ofNat ((hi - 0xD800) * 0x400 + (lo - 0xDC00) + 0x10000) :: combineSurrogates rest
    else replacementChar :: combineSurrogates (.surrogate lo :: rest)

/-- The body of a string literal, after its opening quote: the decoded characters and the text
after the closing quote. -/
def scanString (cs : List Char) : Option (List Char × List Char) :=
  (scanItems cs).map fun p => (combineSurrogates p.1, p.2)

/-- The longest run of decimal digits at the head of the text, as digit values. -/
def scanDigits : List Char → List Nat × List Char
  | [] => ([], [])
  | c :: cs =>
    match digitValue c with
    | some d => ((scanDigits cs).1.cons d, (scanDigits cs).2)
    | none => ([], c :: cs)

/-- The value of a list of decimal digits. -/
def digitsValue (ds : List Nat) : Nat :=
  ds.foldl (fun acc d => acc * 10 + d) 0

/-- The optional fraction of a number: a "." must be followed by at least one digit. -/
def scanFrac : List Char → Option (Option (List Nat) × List Char)
  | '.' :: cs =>
    match scanDigits cs with
    | ([], _) => none
    | (ds, rest) => some (some ds, rest)
  | cs => some (none, cs)

/-- The optional exponent of a number: "e" or "E", an optional sign, at least one digit. -/
def scanExp : List Char → Option (Option Int × List Char)
  | [] => some (none, [])
  | c :: cs =>
    if c = 'e' ∨ c = 'E' then
      match cs with
      | '-' :: cs2 =>
        match scanDigits cs2 with
        | ([], _) => none
        | (ds, rest) => some (some (-(digitsValue ds : Int)), rest)
      | '+' :: cs2 =>
        match scanDigits cs2 with
        | ([], _) => none
        | (ds, rest) => some (some (digitsValue ds : Int), rest)
      | cs2 =>
        match scanDigits cs2 with
        | ([], _) => none
        | (ds, rest) => some (some (digitsValue ds : Int), rest)
    else some (none, c :: cs)

/-- The unsigned part of a number: "0" or a digit run without leading zero, then the
optional fraction and exponent. -/
def scanUnsigned (negative : Bool) (cs : List Char) : Option (Number × List Char) :=
  match cs with
  | [] => none
  | c :: rest =>
    match digitValue c with
    | none => none
    | some d =>
      let intPart : Nat × List Char :=
        if d = 0 then (0, rest) else (digitsValue (d :: (scanDigits rest).1), (scanDigits rest).2)
      match scanFrac intPart.2 with
      | none => none
      | some (frac, r1) =>
        match scanExp r1 with
        | none => none
        | some (exp, r2) => some (⟨negative, intPart.1, frac, exp⟩, r2)

/-- A number token at the head of the text. -/
def scanNumber : List Char → Option (Number × List Char)
  | '-' :: cs => scanUnsigned true cs
  | cs => scanUnsigned false cs

/-- The text after the given characters, when the text starts with them. -/
def dropLiteral : List Char → List Char → Option (List Char)
  | [], cs => some cs
  | _ :: _, [] => none
  | l :: ls, c :: cs => if l = c then dropLiteral ls cs else none

mutual
/-- One value at the head of the text (leading white space skipped) and the text after it.
`fuel` bounds the recursion and `depth` counts the enclosing arrays and objects. -/
def scanValue : Nat → Nat → List Char → Option (Value × List Char)
  | 0, _, _ => none
  | fuel + 1, depth, cs =>
    match skipSpace cs with
    | [] => none
    | c :: rest =>
      if c = '{' then
        if maxNestingDepth < depth + 1 then none
        else
          match skipSpace rest with
          | [] => none
          | c2 :: rest2 =>
            if c2 = '}' then some (.object [], rest2)
            else (scanMembers fuel (depth + 1) (c2 :: rest2)).map fun p => (.object p.1, p.2)
      else if c = '[' then
        if maxNestingDepth < depth + 1 then none
        else
          match skipSpace rest with
          | [] => none
          | c2 :: rest2 =>
            if c2 = ']' then some (.array [], rest2)
            else (scanElements fuel (depth + 1) (c2 :: rest2)).map fun p => (.array p.1, p.2)
      else if c = '"' then (scanString rest).map fun p => (.string (String.mk p.1), p.2)
      else if c = 't' then (dropLiteral ['r', 'u', 'e'] rest).map fun r => (.bool true, r)
      else if c = 'f' then (dropLiteral ['a', 'l', 's', 'e'] rest).map fun r => (.bool false, r)
      else if c = 'n' then (dropLiteral ['u', 'l', 'l'] rest).map fun r => (.null, r)
      else (scanNumber (c :: rest)).map fun p => (.number p.1, p.2)
/-- The members of an object from its first key up to and including the closing brace. -/
def scanMembers : Nat → Nat → List Char → Option (List (String × Value) × List Char)
  | 0, _, _ => none
  | fuel + 1, depth, cs =>
    match skipSpace cs with
    | [] => none
    | c :: rest =>
      if c = '"' then
        match scanString rest with
        | none => none
        | some (key, r1) =>
          match skipSpace r1 with
          | [] => none
          | c2 :: r2 =>
            if c2 = ':' then
              match scanValue fuel depth r2 with
              | none => none
              | some (v, r3) =>
                match skipSpace r3 with
                | [] => none
                | c3 :: r4 =>
                  if c3 = ',' then
                    (scanMembers fuel depth r4).map fun p => ((String.mk key, v) :: p.1, p.2)
                  else if c3 = '}' then some ([(String.mk key, v)], r4)
                  else none
            else none
      else none
/-- The elements of an array from its first element up to and including the closing bracket. -/
def scanElements : Nat → Nat → List Char → Option (List Value × List Char)
  | 0, _, _ => none
  | fuel + 1, depth, cs =>
    match scanValue fuel depth cs with
    | none => none
    | some (v, r1) =>
      match skipSpace r1 with
      | [] => none
      | c :: r2 =>
        if c = ',' then (scanElements fuel depth r2).map fun p => (v :: p.1, p.2)
        else if c = ']' then some ([v], r2)
        else none
end

/-- Enough fuel for a text: every recursive call of the scanner consumes a character. -/
def fuelFor (cs : List Char) : Nat := cs.length + 1

/-! ### `float64` and `strconv`

A JSON number stored into an `interface{}` becomes a `float64` (`strconv.ParseFloat`) and is
written back by `strconv.AppendFloat`.  Finite floats are modelled exactly, as a sign, a
mantissa below `2 ^ 53` and a binary exponent of at least `-1074`. -/

/-- A finite `float64`: `± mantissa * 2 ^ exponent`, with `2 ^ 52 ≤ mantissa < 2 ^ 53` for a
normal number and `exponent = -1074` for a subnormal number or zero. -/
structure Float64 where
  negative : Bool
  mantissa : Nat
  exponent : Int
deriving DecidableEq

/-- The number of halvings that bring `n` below 2; `fuel` bounds their number. -/
def log2Aux : Nat → Nat → Nat
  | 0, _ => 0
  | fuel + 1, n => if n < 2 then 0 else log2Aux fuel (n / 2) + 1

/-- The largest `p` with `2 ^ p ≤ n`, for a positive `n`. -/
def log2 (n : Nat) : Nat := log2Aux n n

/-- The float nearest to `N / M` (ties to even) as mantissa and exponent, or `none` when the
rounded value is out of range. -/
def roundRatio (N M : Nat) : Option (Nat × Int) :=
  if N = 0 then some (0, -1074)
  else
    let quot : Int → Nat := fun e =>
      if 0 ≤ e then N / (M * 2 ^ e.toNat) else (N * 2 ^ (-e).toNat) / M
    let e0 : Int := (log2 N : Int) - (log2 M : Int) - 52
    let e1 : Int := if 2 ^ 53 ≤ quot e0 then e0 + 1 else if quot e0 < 2 ^ 52 then e0 - 1 else e0
    let e : Int := max e1 (-1074)
    let num : Nat := if 0 ≤ e then N else N * 2 ^ (-e).toNat
    let den : Nat := if 0 ≤ e then M * 2 ^ e.toNat else M
    let m0 : Nat := num / den
    let r : Nat := num % den
    let m : Nat := if den < 2 * r ∨ (2 * r = den ∧ m0 % 2 = 1) then m0 + 1 else m0
    let me : Nat × Int := if m = 2 ^ 53 then (2 ^ 52, e + 1) else (m, e)
    if 971 < me.2 then none else some me

/-- The float nearest to `d * 10 ^ e10`. -/
def roundDecimal (d : Nat) (e10 : Int) : Option (Nat × Int) :=
  if 0 ≤ e10 then roundRatio (d * 10 ^ e10.toNat) 1 else roundRatio d (10 ^ (-e10).toNat)

/-- Go `strconv.ParseFloat(s, 64)` on a JSON number token; `none` is its range error. -/
def parseFloat (n : Number) : Option Float64 :=
  let fd : List Nat := n.frac.getD []
  (roundDecimal (n.int * 10 ^ fd.length + digitsValue fd) (n.exp.getD 0 - fd.length)).map
    fun me => ⟨n.negative, me.1, me.2⟩

/-- The decimal digits of `n` in front of `acc`, most significant first; `fuel` bounds their
number. -/
def natDigitsAux : Nat → Nat → List Nat → List Nat
  | 0, _, acc => acc
  | fuel + 1, n, acc => if n = 0 then acc else natDigitsAux fuel (n / 10) ((n % 10) :: acc)

/-- The decimal digits of a number, most significant first (none for zero). -/
def natDigits (n : Nat) : List Nat := natDigitsAux n n []

/-- The largest `p` with `10 ^ p ≤ n`, for a positive `n`. -/
def log10 (n : Nat) : Nat := (natDigits n).length - 1

/-- The character of a decimal digit. -/
def digitChar (d : Nat) : Char := Char.ofNat ('0'.toNat + d)

/-- The largest `p` with `10 ^ p ≤ N / M`, for positive `N` and `M`. -/
def decimalExponent (N M : Nat) : Int :=
  if M ≤ N then (log10 (N / M) : Int)
  else
    let j := log10 (M / N)
    if M ≤ N * 10 ^ j then -(j : Int) else -(j : Int) - 1

/-- The decimal of `nd` significant digits nearest to the float `(m, e)` among those that
`ParseFloat` reads back as the same float, as digits and decimal exponent of the last digit. -/
def shortestWith (m : Nat) (e : Int) (nd : Nat) : Option (Nat × Int) :=
  let N : Nat := if 0 ≤ e then m * 2 ^ e.toNat else m
  let M : Nat := if 0 ≤ e then 1 else 2 ^ (-e).toNat
  let k : Int := decimalExponent N M - ((nd : Int) - 1)
  let N2 : Nat := if 0 ≤ k then N else N * 10 ^ (-k).toNat
  let M2 : Nat := if 0 ≤ k then M * 10 ^ k.toNat else M
  let lo : Nat := N2 / M2
  let hi : Nat := lo + 1
  let okLo : Bool := decide (0 < lo) && decide (roundDecimal lo k = some (m, e))
  let okHi : Bool := decide (roundDecimal hi k = some (m, e))
  let dLo : Nat := N2 - lo * M2
  let dHi : Nat := hi * M2 - N2
  if okLo && okHi then
    if dLo < dHi then some (lo, k)
    else if dHi < dLo then some (hi, k)
    else if lo % 2 = 0 then some (lo, k) else some (hi, k)
  else if okLo then some (lo, k)
  else if okHi then some (hi, k)
  else none

/-- The shortest decimal that reads back as the float `(m, e)`: the first success of
`shortestWith` for 1, 2, ... digits (17 digits always suffice). -/
def shortestFrom (m : Nat) (e : Int) : Nat → Nat → Nat × Int
  | 0, nd => ((shortestWith m e nd).getD (m, 0))
  | fuel + 1, nd =>
    match shortestWith m e nd with
    | some r => r
    | none => shortestFrom m e fuel (nd + 1)

/-- The digits without their trailing zeros. -/
def dropTrailingZeros (ds : List Nat) : List Nat :=
  (ds.reverse.dropWhile (fun d => d = 0)).reverse

/-- The number encoder of `encoding/json`: the shortest decimal, in "%e" form when the value
is below `1e-6` or at least `1e21` and in "%f" form otherwise, a one-digit exponent written
without its leading zero. -/
def formatFloat (f : Float64) : String :=
  let sign : String := if f.negative then "-" else ""
  if f.mantissa = 0 then sign ++ "0"
  else
    let r := shortestFrom f.mantissa f.exponent 16 1
    let all : List Nat := natDigits r.1
    let ds : List Nat := dropTrailingZeros all
    -- the value is `0.ds * 10 ^ dp`
    let dp : Int := (all.length : Int) + r.2
    let text : List Nat → String := fun l => String.mk (l.map digitChar)
    if dp ≤ -6 ∨ 22 ≤ dp then
      let x : Int := dp - 1
      let mant : String :=
        text (ds.take 1) ++ (if 1 < ds.length then "." ++ text (ds.drop 1) else "")
      sign ++ mant ++ "e" ++ (if x < 0 then "-" else "+") ++ text (natDigits x.natAbs)
    else if 0 < dp then
      let intDigits : List Nat := ds.take dp.toNat ++ List.replicate (dp.toNat - ds.length) 0
      let fracDigits : List Nat := ds.drop dp.toNat
      sign ++ text intDigits ++ (if fracDigits = [] then "" else "." ++ text fracDigits)
    else
      sign ++ "0." ++ text (List.replicate (-dp).toNat 0 ++ ds)

/-! ### Values of type `interface{}`, `Unmarshal` and `Marshal` -/

/-- What `Unmarshal` stores into an `interface{}`: `nil`, `bool`, `float64`, `string`,
`[]interface{}` or `map[string]interface{}`.  A map is a list of entries with distinct keys. -/
inductive Any where
  | nil
  | bool (b : Bool)
  | float64 (f : Float64)
  | string (s : String)
  | slice (elems : List Any)
  | map (entries : List (String × Any))

/-- Go `m[k]` (with the "comma ok" result as an option). -/
def mapLookup {α : Type} (m : List (String × α)) (k : String) : Option α :=
  match m with
  | [] => none
  | (k2, v) :: rest => if k2 = k then some v else mapLookup rest k

/-- Go `m[k] = v`. -/
def mapInsert {α : Type} (m : List (String × α)) (k : String) (v : α) : List (String × α) :=
  match m with
  | [] => [(k, v)]
  | (k2, v2) :: rest => if k2 = k then (k, v) :: rest else (k2, v2) :: mapInsert rest k v

/-- The keys of a map. -/
def mapKeys {α : Type} (m : List (String × α)) : List String := m.map Prod.fst

mutual
/-- The `interface{}` value of a scanned value; `none` when a number is out of range for
`float64` (Go records an `UnmarshalTypeError` and `Unmarshal` returns it). -/
def Value.toAny : Value → Option Any
  | .null => some .nil
  | .bool b => some (.bool b)
  | .number n => (parseFloat n).map Any.float64
  | .string s => some (.string s)
  | .array elems => (elemsToAny elems).map Any.slice
  | .object members => (membersToMap members).map Any.map
def elemsToAny : List Value → Option (List Any)
  | [] => some []
  | v :: vs =>
    match v.toAny, elemsToAny vs with
    | some a, some rest => some (a :: rest)
    | _, _ => none
/-- The map of an object's members: of the members with one key, the last one in the text
stays. -/
def membersToMap : List (String × Value) → Option (List (String × Any))
  | [] => some []
  | (k, v) :: ms =>
    match v.toAny, membersToMap ms with
    | some a, some rest => if (mapLookup rest k).isSome then some rest else some ((k, a) :: rest)
    | _, _ => none
end

/-- Go `json.Unmarshal(data, &orig)` for `orig` a nil `map[string]interface{}`: the resulting
map (the empty list for a map left nil), or the error.  The text must be one JSON value with
nothing but white space around it, and the value must be an object or `null`. -/
def Unmarshal (data : String) : Except Error (List (String × Any)) :=
  match scanValue (fuelFor data.data) 0 data.data with
  | none => .error (.text "json: syntax error")
  | some (v, rest) =>
    match skipSpace rest with
    | _ :: _ => .error (.text "json: invalid character after top-level value")
    | [] =>
      match v with
      | .null => .ok []
      | .object members =>
        match membersToMap members with
        | some m => .ok m
        | none => .error (.text "json: cannot unmarshal number into Go value of type float64")
      | _ => .error (.text "json: cannot unmarshal into Go value of type map[string]any")

/-- The lower-case hexadecimal digit of a value below 16. -/
def hexChar (n : Nat) : Char :=
  if n < 10 then Char.ofNat ('0'.toNat + n) else Char.ofNat ('a'.toNat + (n - 10))

/-- The text the encoder writes for one character of a string (`appendString` with HTML
escaping on, as `Marshal` has it). -/
def escapeChar (c : Char) : List Char :=
  if c = '"' then ['\\', '"']
  else if c = '\\' then ['\\', '\\']
  else if c.toNat = 8 then ['\\', 'b']
  else if c.toNat = 12 then ['\\', 'f']
  else if c = '\n' then ['\\', 'n']
  else if c = '\r' then ['\\', 'r']
  else if c = '\t' then ['\\', 't']
  else if c.toNat < 0x20 ∨ c = '<' ∨ c = '>' ∨ c = '&' then
    ['\\', 'u', '0', '0', hexChar (c.toNat / 16), hexChar (c.toNat % 16)]
  else if c.toNat = 0x2028 ∨ c.toNat = 0x2029 then
    ['\\', 'u', '2', '0', '2', hexChar (c.toNat % 16)]
  else [c]

/-- The JSON string literal the encoder writes for a Go string. -/
def quote (s : String) : String :=
  "\"" ++ String.mk (s.data.flatMap escapeChar) ++ "\""

/-- Byte-wise order of two strings (the order of their code points), as `strings.Compare`
gives `-1`. -/
def ltChars : List Char → List Char → Bool
  | _, [] => false
  | [], _ :: _ => true
  | a :: as, b :: bs =>
    if a.toNat < b.toNat then true
    else if b.toNat < a.toNat then false
    else ltChars as bs

/-- Insertion of an encoded entry into a list of entries sorted by key. -/
def insertByKey (e : String × String) : List (String × String) → List (String × String)
  | [] => [e]
  | f :: rest => if ltChars e.1.data f.1.data then e :: f :: rest else f :: insertByKey e rest

/-- The entries sorted by key, as the encoder orders the keys of a map. -/
def sortByKey : List (String × String) → List (String × String)
  | [] => []
  | e :: rest => insertByKey e (sortByKey rest)

/-- Go `strings.Join` on the encoded parts of an array or object. -/
def joinComma : List String → String
  | [] => ""
  | [a] => a
  | a :: b :: rest => a ++ "," ++ joinComma (b :: rest)

/-- The text of an object from its encoded entries. -/
def encodeObject (entries : List (String × String)) : String :=
  "\x7b" ++ joinComma ((sortByKey entries).map fun e => quote e.1 ++ ":" ++ e.2) ++ "\x7d"

mutual
/-- The text `Marshal` writes for an `interface{}` value. -/
def Any.encode : Any → String
  | .nil => "null"
  | .bool b => if b then "true" else "false"
  | .float64 f => formatFloat f
  | .string s => quote s
  | .slice elems => "[" ++ joinComma (encodeElems elems) ++ "]"
  | .map entries => encodeObject (encodeEntries entries)
def encodeElems : List Any → List String
  | [] => []
  | a :: rest => a.encode :: encodeElems rest
def encodeEntries : List (String × Any) → List (String × String)
  | [] => []
  | (k, a) :: rest => (k, a.encode) :: encodeEntries rest
end

/-- Go `json.Marshal(newMap)` for a non-nil `map[string]interface{}` built from decoded
values: it cannot fail, as every float in it is finite. -/
def Marshal (m : List (String × Any)) : Except Error String :=
  .ok (Any.map m).encode

/-! ### Decoding into the client's structs -/

/-- Go `foldName`, as far as it matters for field names in ASCII: ASCII letters are folded to
upper case and, of the other characters, only U+017F and U+212A fold to an ASCII letter
("S" and "K"). -/
def foldChar (c : Char) : Char :=
  if 'a' ≤ c ∧ c ≤ 'z' then Char.ofNat (c.toNat - 32)
  else if c.toNat = 0x17F then 'S'
  else if c.toNat = 0x212A then 'K'
  else c

/-- The folded form of a name. -/
def foldName (s : String) : String := String.mk (s.data.map foldChar)

/-- The field a JSON key is stored into: the field with exactly that name, or else the first
field with the same folded name. -/
def matchField (names : List String) (key : String) : Option String :=
  if key ∈ names then some key else names.find? fun n => foldName n = foldName key

/-- A JSON value stored into a `string` field holding `old`. -/
def storeString (v : Value) (old : String) : Except Error String :=
  match v with
  | .string s => .ok s
  | .null => .ok old
  | _ => .error (.text "json: cannot unmarshal into Go struct field of type string")

/-- A JSON value stored into an `int` field (64 bits) holding `old`: the number token must be
an integer literal (`strconv.ParseInt`) within range. -/
def storeInt (v : Value) (old : Int) : Except Error Int :=
  match v with
  | .number n =>
    let x : Int := if n.negative then -(n.int : Int) else (n.int : Int)
    if n.frac = none ∧ n.exp = none ∧ -2 ^ 63 ≤ x ∧ x < 2 ^ 63 then .ok x
    else .error (.text "json: cannot unmarshal number into Go struct field of type int")
  | .null => .ok old
  | _ => .error (.text "json: cannot unmarshal into Go struct field of type int")

/-- The members of an object stored one after the other, in text order, with `store`. -/
def storeMembers {α : Type} (store : α → String → Value → Except Error α) :
    α → List (String × Value) → Except Error α
  | a, [] => .ok a
  | a, (k, v) :: rest =>
    match store a k v with
    | .error e => .error e
    | .ok a2 => storeMembers store a2 rest

/-- A JSON value stored into a struct holding `old`: an object fills the fields its keys
name, `null` changes nothing, anything else is a type error. -/
def storeStruct {α : Type} (store : α → String → Value → Except Error α) (v : Value)
    (old : α) : Except Error α :=
  match v with
  | .object members => storeMembers store old members
  | .null => .ok old
  | _ => .error (.text "json: cannot unmarshal into Go value of struct type")

/-- Go `json.NewDecoder(r).Decode(&v)` on a reader that yields `body` and then EOF: the first
JSON value of the stream is scanned and stored with `store`; what follows the value is left
unread (a syntax error there would be reported by a second call of `Decode`, which the client
never makes). -/
def Decode {α : Type} (body : String) (store : Value → Except Error α) : Except Error α :=
  match scanValue (fuelFor body.data) 0 body.data with
  | none => .error (.text "json: syntax error or unexpected end of input")
  | some (v, _) => store v

end json

/-! ## `net/http`, `io/ioutil`, `os` : what the client sees of them -/

namespace http

/-- A request as `http.NewRequest(method, url, body)` builds it. -/
structure Request where
  Method : String
  URL : String
  Body : String
deriving DecidableEq

/-- A response: its status code and the content of its body.  The body is modelled by the
bytes it yields up to EOF, so reading it does not fail. -/
structure Response where
  StatusCode : Int
  Body : String
deriving DecidableEq

/-- Go `http.MethodPost`. -/
def MethodPost : String := "POST"

end http

/-- The behaviour of the standard library and of the process environment that the client
depends on and that is taken as given: `os.Getenv`, the error (if any) with which
`net/url.Parse`, called by `http.NewRequest`, rejects a URL, and the transport of the
default `&http.Client{}`. -/
structure Runtime where
  Getenv : String → String
  urlError : String → Option Error
  defaultDo : http.Request → Except Error http.Response

namespace http

/-- Go `http.NewRequest(method, url, bytes.NewReader(body))` for a valid method: it fails
exactly when the URL does not parse. -/
def NewRequest (rt : Runtime) (method url body : String) : Except Error Request :=
  match rt.urlError url with
  | some err => .error err
  | none => .ok ⟨method, url, body⟩

end http

namespace ioutil

/-- Go `ioutil.ReadAll(res.Body)`. -/
def ReadAll (body : String) : Except Error String := .ok body

end ioutil

/-! ## `client.go` -/

namespace porkbun

/-- The name of the environment variable of the API key, also the `Key` of the error. -/
def PORKBUN_API_KEY : String := "PORKBUN_API_KEY"

/-- The name of the environment variable of the secret key, also the `Key` of the error. -/
def PORKBUN_SECRET_KEY : String := "PORKBUN_SECRET_KEY"

/-- The interface `HttpClient`: its one method `Do`.  A transport is a function of the request;
every operation calls it at most once. -/
structure HttpClient where
  Do : http.Request → Except Error http.Response

/-- The struct `Client`. -/
structure Client where
  apiKey : String
  secretKey : String
  baseUrl : String
  client : HttpClient

/-- The type `Option` of `client.go` (`func(*Client) error`): the client after the option has
run, or the option's error. -/
abbrev ClientOption : Type := Client → Except Error Client

/-- The loop of `NewClient` over its options. -/
def applyOptions : Client → List ClientOption → Except Error Client
  | c, [] => .ok c
  | c, option :: rest =>
    match option c with
    | .error err => .error err
    | .ok c2 => applyOptions c2 rest

/-- Go `NewClient(options ...Option) (*Client, error)`. -/
def NewClient (rt : Runtime) (options : List ClientOption) : Except Error Client :=
  let c : Client :=
    { apiKey := rt.Getenv PORKBUN_API_KEY
      secretKey := rt.Getenv PORKBUN_SECRET_KEY
      baseUrl := "https://porkbun.com"
      client := ⟨rt.defaultDo⟩ }
  applyOptions c options

/-- Go `WithApiKey(key string) Option`. -/
def WithApiKey (key : String) : ClientOption :=
  fun c => .ok { c with apiKey := key }

/-- Go `WithSecretKey(key string) Option`. -/
def WithSecretKey (key : String) : ClientOption :=
  fun c => .ok { c with secretKey := key }

/-- Go `WithBaseUrl(url string) Option`. -/
def WithBaseUrl (url : String) : ClientOption :=
  fun c => .ok { c with baseUrl := url }

/-- Go `WithHttpClient(httpClient HttpClient) Option`. -/
def WithHttpClient (httpClient : HttpClient) : ClientOption :=
  fun c => .ok { c with client := httpClient }

/-- The loop `for k, v := range orig { newMap[k] = v }`. -/
def addOriginal (newMap orig : List (String × json.Any)) : List (String × json.Any) :=
  orig.foldl (fun m kv => json.mapInsert m kv.1 kv.2) newMap

/-- Go `(c *Client) withAuthentication(body []byte) ([]byte, error)`; a nil body is the empty
string. -/
def Client.withAuthentication (c : Client) (body : String) : Except Error String :=
  if c.apiKey = "" then
    .error (.MissingAccessKeyError PORKBUN_API_KEY)
  else if c.secretKey = "" then
    .error (.MissingAccessKeyError PORKBUN_SECRET_KEY)
  else
    let unmarshalled : Except Error (List (String × json.Any)) :=
      if body.length > 0 then json.Unmarshal body else .ok []
    match unmarshalled with
    | .error err => .error (.wrap "could not unmarshal body, %w" err)
    | .ok orig =>
      let newMap : List (String × json.Any) :=
        [("apikey", .string c.apiKey), ("secretapikey", .string c.secretKey)]
      -- Add original body
      let newMap := addOriginal newMap orig
      -- Marshal new body
      match json.Marshal newMap with
      | .error err => .error (.wrap "err marshaling json, %w" err)
      | .ok newBody => .ok newBody

/-- What an operation of the client does: the requests it handed to the transport's `Do`, in
order, and the value or error it returns. -/
structure Outcome (α : Type) where
  sent : List http.Request
  result : Except Error α

/-- Go `(c *Client) do(ctx, endpoint, body) (*http.Response, error)`.  The context is not
used by the source and is left out. -/
def Client.do (rt : Runtime) (c : Client) (endpoint : String) (body : String) :
    Outcome http.Response :=
  -- fmt.Sprintf("%s/%s", c.baseUrl, endpoint)
  match http.NewRequest rt http.MethodPost (c.baseUrl ++ "/" ++ endpoint) body with
  | .error err => ⟨[], .error (.wrap "err creating new request, %w" err)⟩
  | .ok req => ⟨[req], c.client.Do req⟩

/-! ## `ping.go` -/

/-- The struct `PingResponse`. -/
structure PingResponse where
  Status : String
  YourIP : String
deriving DecidableEq

/-- One member of a JSON object stored into a `PingResponse` (tags "status", "yourIp"). -/
def PingResponse.store (r : PingResponse) (key : String) (v : json.Value) :
    Except Error PingResponse :=
  match json.matchField ["status", "yourIp"] key with
  | some "status" => (json.storeString v r.Status).map fun s => { r with Status := s }
  | some "yourIp" => (json.storeString v r.YourIP).map fun s => { r with YourIP := s }
  | _ => .ok r

/-- Go `(c *Client) Ping(ctx) (*PingResponse, error)`. -/
def Client.Ping (rt : Runtime) (c : Client) : Outcome PingResponse :=
  match c.withAuthentication "" with
  | .error err => ⟨[], .error (.wrap "err adding authentication, %w" err)⟩
  | .ok body =>
    let called := c.do rt "/api/json/v3/ping" body
    match called.result with
    | .error err => ⟨called.sent, .error (.wrap "err calling ping, %w" err)⟩
    | .ok res =>
      match json.Decode res.Body (fun v => json.storeStruct PingResponse.store v ⟨"", ""⟩) with
      | .error err => ⟨called.sent, .error (.wrap "could not unmarshal response body, %w" err)⟩
      | .ok response => ⟨called.sent, .ok response⟩

/-! ## `dns.go` -/

/-- The struct `Record`. -/
structure Record where
  Id : String
  Notes : String
  Name : String
  /-- The field `Type` of the source (`Type` is reserved in Lean). -/
  Type_ : String
  Content : String
  TTL : String
  Priority : String
deriving DecidableEq

/-- The struct `CreateDnsRecordResponse`; the `Id` of a created record is a number. -/
structure CreateDnsRecordResponse where
  Status : String
  Id : Int
deriving DecidableEq

/-- The struct `DnsRecordsResponse`; a nil and an empty `Records` slice are both the empty
list. -/
structure DnsRecordsResponse where
  Status : String
  Records : List Record
deriving DecidableEq

/-- The struct `StatusResponse`. -/
structure StatusResponse where
  Status : String
deriving DecidableEq

/-- Go `json.Marshal(params)` for a `*Record` that is not nil: the fields in declaration order
under their tags.  It cannot fail. -/
def Record.Marshal (r : Record) : Except Error String :=
  .ok ("\x7b\"id\":" ++ json.quote r.Id ++ ",\"notes\":" ++ json.quote r.Notes
    ++ ",\"name\":" ++ json.quote r.Name ++ ",\"type\":" ++ json.quote r.Type_
    ++ ",\"content\":" ++ json.quote r.Content ++ ",\"ttl\":" ++ json.quote r.TTL
    ++ ",\"prio\":" ++ json.quote r.Priority ++ "\x7d")

/-- One member of a JSON object stored into a `Record`. -/
def Record.store (r : Record) (key : String) (v : json.Value) : Except Error Record :=
  match json.matchField ["id", "notes", "name", "type", "content", "ttl", "prio"] key with
  | some "id" => (json.storeString v r.Id).map fun s => { r with Id := s }
  | some "notes" => (json.storeString v r.Notes).map fun s => { r with Notes := s }
  | some "name" => (json.storeString v r.Name).map fun s => { r with Name := s }
  | some "type" => (json.storeString v r.Type_).map fun s => { r with Type_ := s }
  | some "content" => (json.storeString v r.Content).map fun s => { r with Content := s }
  | some "ttl" => (json.storeString v r.TTL).map fun s => { r with TTL := s }
  | some "prio" => (json.storeString v r.Priority).map fun s => { r with Priority := s }
  | _ => .ok r

/-- One member of a JSON object stored into a `CreateDnsRecordResponse`. -/
def CreateDnsRecordResponse.store (r : CreateDnsRecordResponse) (key : String) (v : json.Value) :
    Except Error CreateDnsRecordResponse :=
  match json.matchField ["status", "id"] key with
  | some "status" => (json.storeString v r.Status).map fun s => { r with Status := s }
  | some "id" => (json.storeInt v r.Id).map fun n => { r with Id := n }
  | _ => .ok r

/-- One member of a JSON object stored into a `StatusResponse`. -/
def StatusResponse.store (r : StatusResponse) (key : String) (v : json.Value) :
    Except Error StatusResponse :=
  match json.matchField ["status"] key with
  | some "status" => (json.storeString v r.Status).map fun s => { r with Status := s }
  | _ => .ok r

/-- A `DnsRecordsResponse` while it is decoded: the `Records` slice is its backing array (the
elements written so far; whatever lies beyond them is zero) and its length. -/
structure DnsRecordsState where
  Status : String
  backing : List Record
  len : Nat

/-- The elements of a JSON array stored into a slice of records with the given backing
array: element `i` is stored into the record already at index `i`, or into a zero record
past the end; the result is the new backing array. -/
def storeRecords : List json.Value → List Record → Except Error (List Record)
  | [], backing => .ok backing
  | v :: vs, backing =>
    match json.storeStruct Record.store v (backing.headD ⟨"", "", "", "", "", "", ""⟩) with
    | .error e => .error e
    | .ok r => (storeRecords vs backing.tail).map fun rest => r :: rest

/-- One member of a JSON object stored into a `DnsRecordsResponse`. -/
def DnsRecordsState.store (r : DnsRecordsState) (key : String) (v : json.Value) :
    Except Error DnsRecordsState :=
  match json.matchField ["status", "records"] key with
  | some "status" => (json.storeString v r.Status).map fun s => { r with Status := s }
  | some "records" =>
    match v with
    | .array [] => .ok { r with backing := [], len := 0 }
    | .array elems =>
      (storeRecords elems r.backing).map fun b => { r with backing := b, len := elems.length }
    | .null => .ok { r with backing := [], len := 0 }
    | _ => .error (.text "json: cannot unmarshal into Go struct field of type []porkbun.Record")
  | _ => .ok r

/-- A JSON value stored into a zero `DnsRecordsResponse`. -/
def decodeDnsRecordsResponse (v : json.Value) : Except Error DnsRecordsResponse :=
  (json.storeStruct DnsRecordsState.store v ⟨"", [], 0⟩).map fun st =>
    ⟨st.Status, st.backing.take st.len⟩

/-- The status check shared by the create, modify and delete operations, with the read of the
body of a response that fails it. -/
def apiErrorOf (res : http.Response) : Option Error :=
  if res.StatusCode < 200 ∨ res.StatusCode ≥ 300 then
    -- Read response body
    match ioutil.ReadAll res.Body with
    | .error err => some err
    -- Return custom error
    | .ok body => some (.ApiError res.StatusCode body)
  else none

/-- Go `(c *Client) CreateDnsRecord(ctx, domain, params) (*CreateDnsRecordResponse, error)`
for a `params` that is not nil. -/
def Client.CreateDnsRecord (rt : Runtime) (c : Client) (domain : String) (params : Record) :
    Outcome CreateDnsRecordResponse :=
  match params.Marshal with
  | .error err => ⟨[], .error (.wrap "could not marshal params, %w" err)⟩
  | .ok reqBody =>
    match c.withAuthentication reqBody with
    | .error err => ⟨[], .error (.wrap "err adding authentication, %w" err)⟩
    | .ok body =>
      let called := c.do rt ("/api/json/v3/dns/create/" ++ domain) body
      match called.result with
      | .error err => ⟨called.sent, .error (.wrap "err creating dns record %q %q %q, %w" err)⟩
      | .ok res =>
        match apiErrorOf res with
        | some err => ⟨called.sent, .error err⟩
        | none =>
          match json.Decode res.Body
              (fun v => json.storeStruct CreateDnsRecordResponse.store v ⟨"", 0⟩) with
          | .error err =>
            ⟨called.sent, .error (.wrap "could not unmarshal response body, %w" err)⟩
          | .ok response => ⟨called.sent, .ok response⟩

/-- Go `(c *Client) ListDnsRecords(ctx, domain, subdomain, recordType)`. -/
def Client.ListDnsRecords (rt : Runtime) (c : Client) (domain subdomain recordType : String) :
    Outcome DnsRecordsResponse :=
  match c.withAuthentication "" with
  | .error err => ⟨[], .error (.wrap "err adding authentication, %w" err)⟩
  | .ok body =>
    let url : String :=
      if recordType ≠ "" then
        "/api/json/v3/dns/retrieveByNameType/" ++ domain ++ "/" ++ recordType ++ "/" ++ subdomain
      else
        "/api/json/v3/dns/retrieve/" ++ domain
    let called := c.do rt url body
    match called.result with
    | .error err => ⟨called.sent, .error (.wrap "err retrieving dns records, %w" err)⟩
    | .ok res =>
      match json.Decode res.Body decodeDnsRecordsResponse with
      | .error err => ⟨called.sent, .error (.wrap "could not unmarshal response body, %w" err)⟩
      | .ok response => ⟨called.sent, .ok response⟩

/-- Go `(c *Client) GetDnsRecordById(ctx, domain, id int)`. -/
def Client.GetDnsRecordById (rt : Runtime) (c : Client) (domain : String) (id : Int) :
    Outcome DnsRecordsResponse :=
  match c.withAuthentication "" with
  | .error err => ⟨[], .error (.wrap "err adding authentication, %w" err)⟩
  | .ok body =>
    let called := c.do rt ("/api/json/v3/dns/retrieve/" ++ domain ++ "/" ++ toString id) body
    match called.result with
    | .error err => ⟨called.sent, .error (.wrap "err retrieving dns record, %w" err)⟩
    | .ok res =>
      match json.Decode res.Body decodeDnsRecordsResponse with
      | .error err => ⟨called.sent, .error (.wrap "could not unmarshal response body, %w" err)⟩
      | .ok response => ⟨called.sent, .ok response⟩

/-- The part of the status-checking operations after the request: the status check and the
decoding of a `StatusResponse`. -/
def statusResponseOf (called : Outcome http.Response) (format : String) :
    Outcome StatusResponse :=
  match called.result with
  | .error err => ⟨called.sent, .error (.wrap format err)⟩
  | .ok res =>
    match apiErrorOf res with
    | some err => ⟨called.sent, .error err⟩
    | none =>
      match json.Decode res.Body (fun v => json.storeStruct StatusResponse.store v ⟨""⟩) with
      | .error err => ⟨called.sent, .error (.wrap "could not unmarshal response body, %w" err)⟩
      | .ok response => ⟨called.sent, .ok response⟩

/-- Go `(c *Client) ModifyDnsRecord(ctx, domain, record) (*StatusResponse, error)` for a
`record` that is not nil. -/
def Client.ModifyDnsRecord (rt : Runtime) (c : Client) (domain : String) (record : Record) :
    Outcome StatusResponse :=
  match record.Marshal with
  | .error err => ⟨[], .error (.wrap "could not marshal record, %w" err)⟩
  | .ok reqBody =>
    match c.withAuthentication reqBody with
    | .error err => ⟨[], .error (.wrap "err adding authentication, %w" err)⟩
    | .ok body =>
      let url : Except Error String :=
        if record.Id ≠ "" then
          .ok ("/api/json/v3/dns/edit/" ++ domain ++ "/" ++ record.Id)
        else if record.Type_ = "" then
          .error (.text "record.Type must be set to modify this entry")
        else
          .ok ("/api/json/v3/dns/editByNameType/" ++ domain ++ "/" ++ record.Type_ ++ "/"
            ++ record.Name)
      match url with
      | .error err => ⟨[], .error err⟩
      | .ok url =>
        statusResponseOf (c.do rt url body) "err editing dns record %q %q %q %q, %w"

/-- Go `(c *Client) DeleteDnsRecordById(ctx, domain, id string) (*StatusResponse, error)`. -/
def Client.DeleteDnsRecordById (rt : Runtime) (c : Client) (domain id : String) :
    Outcome StatusResponse :=
  match c.withAuthentication "" with
  | .error err => ⟨[], .error (.wrap "err adding authentication, %w" err)⟩
  | .ok body =>
    statusResponseOf (c.do rt ("/api/json/v3/dns/delete/" ++ domain ++ "/" ++ id) body)
      "err deleting dns record %q, %w"

/-- Go `(c *Client) DeleteDnsRecordByLookup(ctx, domain, subdomain, recordType string)`. -/
def Client.DeleteDnsRecordByLookup (rt : Runtime) (c : Client)
    (domain subdomain recordType : String) : Outcome StatusResponse :=
  match c.withAuthentication "" with
  | .error err => ⟨[], .error (.wrap "err adding authentication, %w" err)⟩
  | .ok body =>
    statusResponseOf
      (c.do rt ("/api/json/v3/dns/deleteByNameType/" ++ domain ++ "/" ++ recordType ++ "/"
        ++ subdomain) body)
      "err deleting dns record %q, %q, %w"

/-! ## Test fixtures and predicates used in the statements -/

/-- A runtime as the tests have it: no credentials in the environment, every URL accepted,
and a default transport without network. -/
def testRuntime : Runtime :=
  ⟨fun _ => "", fun _ => none, fun _ => .error (.text "no network")⟩

/-- The transport of a client pointed at a stub server (`httptest.NewServer`) that answers
every request with the given status code and body. -/
def stubServer (code : Int) (body : String) : HttpClient :=
  ⟨fun _ => .ok ⟨code, body⟩⟩

/-- A client built like the tests build theirs, against a stub server. -/
def testClient (apiKey secretKey : String) (code : Int) (body : String) : Client :=
  ⟨apiKey, secretKey, "http://127.0.0.1:8080", stubServer code body⟩

/-- An operation failed before any request was sent, with a `MissingAccessKeyError` for
`key` in the chain of its error. -/
def failsMissingKey {α : Type} (o : Outcome α) (key : String) : Prop :=
  o.sent = [] ∧ ∃ err, o.result = .error err ∧ errors.AsMissingAccessKeyError err = some key

/-- The result of an operation agrees with the status check on the response `res` that the
transport returned: it is an `ApiError` exactly when the status code is below 200 or at least
300, that `ApiError` carries the status code and the body of the response unchanged, and for a
status code in 200-299 there is no `ApiError` in the chain of the error, if there is one. -/
def statusChecked {α : Type} (result : Except Error α) (res : http.Response) : Prop :=
  ((∃ code body, result = .error (.ApiError code body))
      ↔ (res.StatusCode < 200 ∨ res.StatusCode ≥ 300))
    ∧ (∀ code body, result = .error (.ApiError code body) →
        code = res.StatusCode ∧ body = res.Body)
    ∧ (200 ≤ res.StatusCode → res.StatusCode ≤ 299 →
        ∀ err, result = .error err → errors.AsApiError err = none)

/-- The status code of the response had no part in the outcome `o1` of an operation: when `o1`
sent the one request `req`, the outcome `o2` of the same operation against a transport that
answers with the same body sent the same request and has the same result, and that result is
`decoded`, what the decoder makes of the body, when that is a value, and the decoder's error
wrapped as the operation wraps it otherwise, with no `ApiError` in its chain. -/
def statusIgnored {α : Type} (o1 o2 : Outcome α) (req : http.Request)
    (decoded : Except Error α) : Prop :=
  o1.sent = [req] →
    o2.sent = [req] ∧ o2.result = o1.result
      ∧ (∀ r, decoded = .ok r → o1.result = .ok r)
      ∧ (∀ e, decoded = .error e →
          o1.result = .error (.wrap "could not unmarshal response body, %w" e))
      ∧ (∀ err, o1.result = .error err → errors.AsApiError err = none)

/-- The number token of an integer written in plain decimal. -/
def intToken (n : Int) : json.Number :=
  ⟨decide (n < 0), n.natAbs, none, none⟩

/-- The four built-in options, as data. -/
inductive BuiltinOption where
  | WithApiKey (key : String)
  | WithSecretKey (key : String)
  | WithBaseUrl (url : String)
  | WithHttpClient (httpClient : HttpClient)

/-- The option of `client.go` that a built-in option stands for. -/
def BuiltinOption.toOption : BuiltinOption → ClientOption
  | .WithApiKey key => porkbun.WithApiKey key
  | .WithSecretKey key => porkbun.WithSecretKey key
  | .WithBaseUrl url => porkbun.WithBaseUrl url
  | .WithHttpClient h => porkbun.WithHttpClient h

/-- The value given to a field by the last option of the list that targets it, `pick` telling
which options target the field and with what value, or `default` when none does. -/
def lastGiven {α : Type} (pick : BuiltinOption → Option α) (default : α)
    (options : List BuiltinOption) : α :=
  ((options.filterMap pick).getLast?).getD default

/-- The API key an option sets, if it sets one. -/
def BuiltinOption.apiKey? : BuiltinOption → Option String
  | .WithApiKey key => some key
  | _ => none

/-- The secret key an option sets, if it sets one. -/
def BuiltinOption.secretKey? : BuiltinOption → Option String
  | .WithSecretKey key => some key
  | _ => none

/-- The base URL an option sets, if it sets one. -/
def BuiltinOption.baseUrl? : BuiltinOption → Option String
  | .WithBaseUrl url => some url
  | _ => none

/-- The transport an option sets, if it sets one. -/
def BuiltinOption.client? : BuiltinOption → Option HttpClient
  | .WithHttpClient h => some h
  | _ => none

end porkbun

/-! # Theorems -/

/-! ### Lemmas on splitting and joining -/

namespace strings

theorem splitChars_ne_nil (sep : Char) (cs : List Char) : splitChars sep cs ≠ [] := by
  cases cs with
  | nil => simp [splitChars]
  | cons c cs =>
    simp only [splitChars]
    split
    · simp
    · split <;> simp

theorem joinChars_splitChars (sep : Char) (cs : List Char) :
    joinChars [sep] (splitChars sep cs) = cs := by
  induction cs with
  | nil => simp [splitChars, joinChars]
  | cons c cs ih =>
    simp only [splitChars]
    split
    · rename_i h
      have hne := splitChars_ne_nil sep cs
      cases hs : splitChars sep cs with
      | nil => exact absurd hs hne
      | cons p ps =>
        rw [hs] at ih
        simp [joinChars, ih, h]
    · cases hs : splitChars sep cs with
      | nil => exact absurd hs (splitChars_ne_nil sep cs)
      | cons p ps =>
        rw [hs] at ih
        cases ps with
        | nil => simpa [joinChars] using ih
        | cons q r =>
          simp only [joinChars] at ih ⊢
          simp [← ih]

theorem Join_map_mk (sep : List Char) (pss : List (List Char)) :
    Join (pss.map String.mk) (String.mk sep) = String.mk (joinChars sep pss) := by
  induction pss with
  | nil => rfl
  | cons p ps ih =>
    cases ps with
    | nil => rfl
    | cons q r =>
      simp only [List.map_cons, Join, joinChars] at ih ⊢
      rw [ih]
      apply String.ext
      simp [String.data_append]

theorem Join_Split (s : String) (sep : Char) : Join (Split s sep) (String.singleton sep) = s := by
  have h : String.singleton sep = String.mk [sep] := rfl
  rw [Split, h, Join_map_mk, joinChars_splitChars]

theorem Join_append (a b : List String) (sep : String) (ha : a ≠ []) (hb : b ≠ []) :
    Join (a ++ b) sep = Join a sep ++ sep ++ Join b sep := by
  induction a with
  | nil => exact absurd rfl ha
  | cons x xs ih =>
    cases xs with
    | nil =>
      cases b with
      | nil => exact absurd rfl hb
      | cons y ys => simp [Join]
    | cons x2 xs2 =>
      have h : Join (x2 :: (xs2 ++ b)) sep = Join (x2 :: xs2) sep ++ sep ++ Join b sep :=
        ih (by simp)
      show Join (x :: x2 :: (xs2 ++ b)) sep = Join (x :: x2 :: xs2) sep ++ sep ++ Join b sep
      simp only [Join] at h ⊢
      rw [h]
      simp [String.append_assoc]

theorem Split_length_lt_two_iff (s : String) (sep : Char) :
    (Split s sep).length < 2 ↔ sep ∉ s.data := by
  have key : ∀ cs : List Char, (splitChars sep cs).length < 2 ↔ sep ∉ cs := by
    intro cs
    induction cs with
    | nil => simp [splitChars]
    | cons c cs ih =>
      simp only [splitChars]
      split
      · rename_i h
        have hne := splitChars_ne_nil sep cs
        cases hs : splitChars sep cs with
        | nil => exact absurd hs hne
        | cons p ps => simp [h]
      · rename_i h
        cases hs : splitChars sep cs with
        | nil => exact absurd hs (splitChars_ne_nil sep cs)
        | cons p ps =>
          rw [hs] at ih
          simp only [List.length_cons] at ih ⊢
          rw [ih]
          simp [Ne.symm h]
  simpa [Split] using key s.data

end strings

/-! ### `ParseDomain` -/

theorem ParseDomain_of_reverse (s last beforeLast : String) (earlier : List String)
    (h : (strings.Split s '.').reverse = last :: beforeLast :: earlier) :
    ParseDomain s = .ok (strings.Join earlier.reverse ".", beforeLast ++ "." ++ last) := by
  have hp : strings.Split s '.' = earlier.reverse ++ [beforeLast, last] := by
    have := congrArg List.reverse h
    simpa using this
  have hlen : (strings.Split s '.').length = earlier.length + 2 := by simp [hp]
  unfold ParseDomain
  simp only [hlen]
  have hdrop : (strings.Split s '.').drop (earlier.length + 2 - 2) = [beforeLast, last] := by
    rw [hp]
    simp
  have htake : (strings.Split s '.').take (earlier.length + 2 - 2) = earlier.reverse := by
    rw [hp]
    simp
  rw [if_neg (by omega), hdrop, htake]
  cases earlier with
  | nil => simp [strings.Join]
  | cons e es => simp [strings.Join]

theorem ParseDomain_error_of_short (s : String) (h : (strings.Split s '.').length < 2) :
    ParseDomain s = .error ("invalid domain " ++ s) := by
  unfold ParseDomain
  simp [h]

/-- The shape of a list through its reverse: empty, one element, or some front followed by the
last two elements. -/
theorem list_last_two_cases {α : Type} (l : List α) :
    l = [] ∨ (∃ a, l = [a]) ∨ ∃ front a b, l = front ++ [a, b] := by
  rcases h : l.reverse with _ | ⟨b, _ | ⟨a, rest⟩⟩
  · left
    simpa using h
  · right; left
    refine ⟨b, ?_⟩
    have := congrArg List.reverse h
    simpa using this
  · right; right
    refine ⟨rest.reverse, a, b, ?_⟩
    have := congrArg List.reverse h
    simpa using this

/-- C5 (as amended): a string that splits on "." into at least two segments is parsed without
error into `(sub, dom)`, and rejoining reconstructs the input when the rejoin is keyed on the
number of segments: `s = dom` for exactly two segments and `s = sub ++ "." ++ dom` for more than
two.  In particular `s = sub ++ "." ++ dom` whenever `sub` is non-empty, and when `sub` is empty
the input is `dom` or `"." ++ dom`. -/
theorem ParseDomain_rejoin (s : String) (h : 2 ≤ (strings.Split s '.').length) :
    ∃ sub dom, ParseDomain s = .ok (sub, dom)
      ∧ ((strings.Split s '.').length = 2 → sub = "" ∧ s = dom)
      ∧ (2 < (strings.Split s '.').length → s = sub ++ "." ++ dom)
      ∧ (sub ≠ "" → s = sub ++ "." ++ dom)
      ∧ (sub = "" → s = dom ∨ s = "." ++ dom) := by
  have hjoin : strings.Join (strings.Split s '.') "." = s := strings.Join_Split s '.'
  rcases list_last_two_cases (strings.Split s '.') with h0 | ⟨a, h1⟩ | ⟨front, a, b, h2⟩
  · rw [h0] at h
    simp at h
  · rw [h1] at h
    simp at h
  · have hrev : (strings.Split s '.').reverse = b :: a :: front.reverse := by
      rw [h2]
      simp
    have hparse := ParseDomain_of_reverse s b a front.reverse hrev
    rw [List.reverse_reverse] at hparse
    refine ⟨strings.Join front ".", a ++ "." ++ b, hparse, ?_⟩
    have hlen : (strings.Split s '.').length = front.length + 2 := by simp [h2]
    have hlong : front ≠ [] → s = strings.Join front "." ++ "." ++ (a ++ "." ++ b) := by
      intro hne
      have := strings.Join_append front [a, b] "." hne (by simp)
      rw [← h2, hjoin] at this
      simpa [strings.Join] using this
    have hshort : front = [] → s = a ++ "." ++ b := by
      intro he
      rw [h2, he] at hjoin
      simpa [strings.Join] using hjoin.symm
    refine ⟨?_, ?_, ?_, ?_⟩
    · intro h2len
      have he : front = [] := by
        apply List.eq_nil_of_length_eq_zero
        omega
      exact ⟨by rw [he]; rfl, hshort he⟩
    · intro hgt
      apply hlong
      intro he
      rw [he] at hlen
      simp at hlen
      omega
    · intro hsub
      apply hlong
      intro he
      apply hsub
      rw [he]
      rfl
    · intro hsub
      by_cases he : front = []
      · exact Or.inl (hshort he)
      · right
        have := hlong he
        rw [hsub] at this
        simpa using this

/-- C5: a concrete input with more than two segments, at which the hypothesis of the theorem
holds and the rejoin of the output gives back the input. -/
theorem ParseDomain_rejoin_witness :
    ∃ sub dom, ParseDomain "foo.bar.example.com" = .ok (sub, dom)
      ∧ "foo.bar.example.com" = sub ++ "." ++ dom :=
  match ParseDomain_rejoin "foo.bar.example.com" (by decide) with
  | ⟨sub, dom, hparse, _, hlong, _, _⟩ => ⟨sub, dom, hparse, hlong (by decide)⟩

/-- C5 (counterexample to the claim as stated): ".example.com" splits into three segments, the
parse succeeds with an empty subdomain, and the rejoin prescribed for an empty subdomain,
the domain alone, is not the input. -/
theorem ParseDomain_rejoin_counterexample :
    2 ≤ (strings.Split ".example.com" '.').length
      ∧ ParseDomain ".example.com" = .ok ("", "example.com")
      ∧ ".example.com" ≠ "example.com" :=
  ⟨by decide, rfl, by decide⟩

/-- C6: `ParseDomain` equals its reference definition on every input; it fails exactly when the
input has fewer than two segments, that is when it contains no "."; with exactly two segments
the subdomain is empty; and the documented examples evaluate as stated. -/
theorem ParseDomain_eq_reference (s : String) :
    ParseDomain s = ParseDomainReference s
      ∧ ((∃ e, ParseDomain s = .error e) ↔ (strings.Split s '.').length < 2)
      ∧ ((strings.Split s '.').length < 2 ↔ '.' ∉ s.data)
      ∧ ((strings.Split s '.').length = 2 → ∃ dom, ParseDomain s = .ok ("", dom))
      ∧ ParseDomain "localhost" = .error "invalid domain localhost"
      ∧ ParseDomain "example.com" = .ok ("", "example.com")
      ∧ ParseDomain "foo.example.com" = .ok ("foo", "example.com")
      ∧ ParseDomain "*.example.com" = .ok ("*", "example.com")
      ∧ ParseDomain "foo.bar.example.com" = .ok ("foo.bar", "example.com") := by
  refine ⟨?_, ?_, strings.Split_length_lt_two_iff s '.', ?_, rfl, rfl, rfl, rfl, rfl⟩
  · unfold ParseDomainReference
    split
    · rename_i last beforeLast earlier hrev
      exact ParseDomain_of_reverse s last beforeLast earlier hrev
    · rename_i hnot
      apply ParseDomain_error_of_short
      rcases list_last_two_cases (strings.Split s '.') with h0 | ⟨a, h1⟩ | ⟨front, a, b, h2⟩
      · simp [h0]
      · simp [h1]
      · exfalso
        apply hnot b a front.reverse
        rw [h2]
        simp
  · constructor
    · rintro ⟨e, he⟩
      by_contra hlen
      unfold ParseDomain at he
      simp only [if_neg hlen] at he
      cases he
    · intro hlen
      exact ⟨_, ParseDomain_error_of_short s hlen⟩
  · intro h2
    unfold ParseDomain
    simp [h2]

/-! ### Maps -/

namespace json

theorem mapLookup_eq_none_iff {α : Type} (m : List (String × α)) (k : String) :
    mapLookup m k = none ↔ k ∉ mapKeys m := by
  induction m with
  | nil => simp [mapLookup, mapKeys]
  | cons e rest ih =>
    obtain ⟨k2, v⟩ := e
    by_cases h : k2 = k
    · simp [mapLookup, mapKeys, h]
    · have h2 : ¬ k = k2 := fun x => h x.symm
      simp only [mapKeys] at ih
      simp [mapLookup, mapKeys, h, h2, ih]

theorem mapLookup_mapInsert {α : Type} (m : List (String × α)) (k k2 : String) (v : α) :
    mapLookup (mapInsert m k v) k2 = if k = k2 then some v else mapLookup m k2 := by
  induction m with
  | nil => simp [mapLookup, mapInsert]
  | cons e rest ih =>
    obtain ⟨k3, v3⟩ := e
    by_cases h : k3 = k
    · subst h
      by_cases h2 : k3 = k2 <;> simp [mapLookup, mapInsert, h2]
    · by_cases h2 : k = k2
      · subst h2
        simp [mapLookup, mapInsert, h, ih]
      · by_cases h3 : k3 = k2
        · subst h3
          simp [mapLookup, mapInsert, h, h2]
        · simp [mapLookup, mapInsert, h, h2, h3, ih]

theorem mapKeys_mapInsert_nodup {α : Type} (m : List (String × α)) (k : String) (v : α)
    (h : (mapKeys m).Nodup) : (mapKeys (mapInsert m k v)).Nodup := by
  have hmem : ∀ (m : List (String × α)) (x : String),
      x ∈ mapKeys (mapInsert m k v) → x = k ∨ x ∈ mapKeys m := by
    intro m
    induction m with
    | nil => simp [mapInsert, mapKeys]
    | cons e rest ih =>
      obtain ⟨k3, v3⟩ := e
      intro x hx
      by_cases h3 : k3 = k
      · simp only [mapInsert, h3, if_true, mapKeys, List.map_cons, List.mem_cons] at hx ⊢
        rcases hx with hx | hx
        · exact Or.inl hx
        · exact Or.inr (Or.inr hx)
      · simp only [mapInsert, h3, if_false, mapKeys, List.map_cons, List.mem_cons] at hx ⊢
        rcases hx with hx | hx
        · exact Or.inr (Or.inl hx)
        · rcases ih x hx with h4 | h4
          · exact Or.inl h4
          · exact Or.inr (Or.inr h4)
  induction m with
  | nil => simp [mapInsert, mapKeys]
  | cons e rest ih =>
    obtain ⟨k3, v3⟩ := e
    simp only [mapKeys, List.map_cons, List.nodup_cons] at h
    by_cases h3 : k3 = k
    · subst h3
      simpa [mapInsert, mapKeys] using h
    · simp only [mapInsert, h3, if_false, mapKeys, List.map_cons, List.nodup_cons]
      refine ⟨?_, ih h.2⟩
      intro hx
      rcases hmem rest k3 hx with h4 | h4
      · exact h3 h4
      · exact h.1 h4

/-- The map `Unmarshal` builds from the members of an object has distinct keys. -/
theorem membersToMap_nodup (ms : List (String × Value)) (m : List (String × Any))
    (h : membersToMap ms = some m) : (mapKeys m).Nodup := by
  induction ms generalizing m with
  | nil =>
    simp only [membersToMap, Option.some.injEq] at h
    subst h
    simp [mapKeys]
  | cons e rest ih =>
    obtain ⟨k, v⟩ := e
    simp only [membersToMap] at h
    cases hv : v.toAny with
    | none => simp [hv] at h
    | some a =>
      cases hr : membersToMap rest with
      | none => simp [hv, hr] at h
      | some r =>
        simp only [hv, hr] at h
        have hnd := ih r hr
        split at h
        · simp only [Option.some.injEq] at h
          subst h
          exact hnd
        · rename_i hnone
          simp only [Option.some.injEq] at h
          subst h
          simp only [mapKeys, List.map_cons, List.nodup_cons]
          refine ⟨?_, hnd⟩
          have : mapLookup r k = none := by
            cases hl : mapLookup r k with
            | none => rfl
            | some x => simp [hl] at hnone
          exact (mapLookup_eq_none_iff r k).1 this

/-- The map `Unmarshal` returns has distinct keys. -/
theorem Unmarshal_nodup (data : String) (m : List (String × Any))
    (h : Unmarshal data = .ok m) : (mapKeys m).Nodup := by
  unfold Unmarshal at h
  split at h
  · cases h
  · split at h
    · cases h
    · split at h
      · cases h
        simp [mapKeys]
      · split at h
        · rename_i hm
          cases h
          exact membersToMap_nodup _ m hm
        · cases h
      · cases h

/-- The empty text is rejected by `Unmarshal`. -/
theorem Unmarshal_length_pos (data : String) (m : List (String × Any))
    (h : Unmarshal data = .ok m) : 0 < data.length := by
  by_contra hlen
  have hd : data.data = [] := by
    apply List.eq_nil_of_length_eq_zero
    have : data.length = data.data.length := rfl
    omega
  have he : data = "" := String.ext hd
  subst he
  cases h

end json

/-! ### The scanner on the text the encoder writes for strings -/

namespace json

theorem hexValue_hexChar (d : Nat) (h : d < 16) : hexValue (hexChar d) = some d := by
  interval_cases d <;> decide

theorem getu4_low (n : Nat) (h : n < 256) :
    getu4 '0' '0' (hexChar (n / 16)) (hexChar (n % 16)) = some n := by
  unfold getu4
  rw [hexValue_hexChar _ (by omega), hexValue_hexChar _ (by omega)]
  have h0 : hexValue '0' = some 0 := by decide
  simp only [h0]
  congr 1
  omega

theorem scanItems_simple (e ch : Char) (r : List Char) (he : simpleEscape e = some ch)
    (hu : e ≠ 'u') :
    scanItems ('\\' :: e :: r) = (scanItems r).map fun p => (.char ch :: p.1, p.2) := by
  rw [scanItems.eq_def]
  have h1 : ¬ '\\' = '"' := by decide
  simp only [h1, if_false, if_true, hu, he]

theorem scanItems_unicode (h1 h2 h3 h4 : Char) (code : Nat) (r : List Char)
    (hc : getu4 h1 h2 h3 h4 = some code) :
    scanItems ('\\' :: 'u' :: h1 :: h2 :: h3 :: h4 :: r)
      = (scanItems r).map fun p => (escapeItem code :: p.1, p.2) := by
  rw [scanItems.eq_def]
  have h1 : ¬ '\\' = '"' := by decide
  simp only [h1, if_false, if_true, hc]

theorem scanItems_plain (c : Char) (r : List Char) (h1 : c ≠ '"') (h2 : c ≠ '\\')
    (h3 : ¬ c.toNat < 0x20) :
    scanItems (c :: r) = (scanItems r).map fun p => (.char c :: p.1, p.2) := by
  rw [scanItems.eq_def]
  simp only [h1, h2, h3, if_false]

/-- The scanner reads the text the encoder writes for one character as that character. -/
theorem scanItems_escapeChar (c : Char) (tail : List Char) :
    scanItems (escapeChar c ++ tail) = (scanItems tail).map fun p => (.char c :: p.1, p.2) := by
  unfold escapeChar
  split_ifs with h1 h2 h3 h4 h5 h6 h7 h8 h9
  · subst h1
    exact scanItems_simple _ _ _ (by decide) (by decide)
  · subst h2
    exact scanItems_simple _ _ _ (by decide) (by decide)
  · have : c = Char.ofNat 8 := by rw [← h3]; simp
    subst this
    exact scanItems_simple _ _ _ (by decide) (by decide)
  · have : c = Char.ofNat 12 := by rw [← h4]; simp
    subst this
    exact scanItems_simple _ _ _ (by decide) (by decide)
  · subst h5
    exact scanItems_simple _ _ _ (by decide) (by decide)
  · subst h6
    exact scanItems_simple _ _ _ (by decide) (by decide)
  · subst h7
    exact scanItems_simple _ _ _ (by decide) (by decide)
  · have hn : c.toNat < 256 := by
      rcases h8 with h | h | h | h
      · omega
      · subst h; decide
      · subst h; decide
      · subst h; decide
    have hitem : escapeItem c.toNat = .char c := by
      unfold escapeItem
      rw [if_neg (by omega)]
      simp
    have := scanItems_unicode '0' '0' (hexChar (c.toNat / 16)) (hexChar (c.toNat % 16)) c.toNat
      tail (getu4_low c.toNat hn)
    rw [hitem] at this
    exact this
  · have hitem : escapeItem c.toNat = .char c := by
      unfold escapeItem
      rw [if_neg (by omega)]
      simp
    have hg : getu4 '2' '0' '2' (hexChar (c.toNat % 16)) = some c.toNat := by
      rcases h9 with h | h <;> rw [h] <;> decide
    have := scanItems_unicode '2' '0' '2' (hexChar (c.toNat % 16)) c.toNat tail hg
    rw [hitem] at this
    exact this
  · have h3 : ¬ c.toNat < 0x20 := by
      intro h
      exact h8 (Or.inl h)
    exact scanItems_plain c tail h1 h2 h3

theorem scanItems_flatMap (l rest : List Char) :
    scanItems (l.flatMap escapeChar ++ '"' :: rest) = some (l.map StringItem.char, rest) := by
  induction l with
  | nil =>
    rw [List.flatMap_nil, List.nil_append, scanItems.eq_def]
    simp
  | cons c l ih =>
    rw [List.flatMap_cons, List.append_assoc, scanItems_escapeChar, ih]
    rfl

theorem combineSurrogates_chars (l : List Char) :
    combineSurrogates (l.map StringItem.char) = l := by
  induction l with
  | nil => rfl
  | cons c l ih => simp [combineSurrogates, ih]

theorem quote_data (s : String) :
    (quote s).data = '"' :: (s.data.flatMap escapeChar ++ ['"']) := by
  unfold quote
  simp [String.data_append]

/-- Scanning the literal that the encoder writes for a string gives the string back. -/
theorem scanString_quote (s : String) (rest : List Char) :
    scanString (s.data.flatMap escapeChar ++ '"' :: rest) = some (s.data, rest) := by
  unfold scanString
  rw [scanItems_flatMap]
  simp [combineSurrogates_chars]

theorem skipSpace_cons (c : Char) (cs : List Char) (h : isSpace c = false) :
    skipSpace (c :: cs) = c :: cs := by
  simp [skipSpace, h]

/-- A value that is the literal the encoder writes for a string. -/
theorem scanValue_quote (fuel depth : Nat) (s : String) (rest : List Char) :
    scanValue (fuel + 1) depth ((quote s).data ++ rest) = some (.string s, rest) := by
  rw [quote_data, scanValue.eq_def]
  simp only [List.cons_append, List.append_assoc, List.nil_append]
  rw [skipSpace_cons _ _ (by decide)]
  have h1 : ¬ '"' = '{' := by decide
  have h2 : ¬ '"' = '[' := by decide
  simp only [h1, h2, if_false, if_true, scanString_quote]
  rfl

/-- A member `"key":"value"` followed by a comma. -/
theorem scanMembers_comma (fuel depth : Nat) (k s : String) (rest : List Char) :
    scanMembers (fuel + 2) depth ((quote k).data ++ ':' :: ((quote s).data ++ ',' :: rest))
      = (scanMembers (fuel + 1) depth rest).map fun p => ((k, .string s) :: p.1, p.2) := by
  rw [quote_data, scanMembers.eq_def]
  simp only [List.cons_append, List.append_assoc, List.nil_append]
  rw [skipSpace_cons _ _ (by decide)]
  simp only [if_true, scanString_quote]
  rw [skipSpace_cons _ _ (by decide)]
  simp only [if_true, scanValue_quote]
  rw [skipSpace_cons _ _ (by decide)]
  simp only [if_true]

/-- A member `"key":"value"` followed by the closing brace. -/
theorem scanMembers_last (fuel depth : Nat) (k s : String) (rest : List Char) :
    scanMembers (fuel + 2) depth ((quote k).data ++ ':' :: ((quote s).data ++ '}' :: rest))
      = some ([(k, .string s)], rest) := by
  rw [quote_data, scanMembers.eq_def]
  simp only [List.cons_append, List.append_assoc, List.nil_append]
  rw [skipSpace_cons _ _ (by decide)]
  simp only [if_true, scanString_quote]
  rw [skipSpace_cons _ _ (by decide)]
  simp only [if_true, scanValue_quote]
  rw [skipSpace_cons _ _ (by decide)]
  have h1 : ¬ '}' = ',' := by decide
  simp only [h1, if_false, if_true]

theorem scanMembers_comma_of_le (fuel depth : Nat) (k s : String) (rest : List Char)
    (h : 2 ≤ fuel) :
    scanMembers fuel depth ((quote k).data ++ ':' :: ((quote s).data ++ ',' :: rest))
      = (scanMembers (fuel - 1) depth rest).map fun p => ((k, .string s) :: p.1, p.2) := by
  obtain ⟨f, rfl⟩ : ∃ f, fuel = f + 2 := ⟨fuel - 2, by omega⟩
  exact scanMembers_comma f depth k s rest

theorem scanMembers_last_of_le (fuel depth : Nat) (k s : String) (rest : List Char)
    (h : 2 ≤ fuel) :
    scanMembers fuel depth ((quote k).data ++ ':' :: ((quote s).data ++ '}' :: rest))
      = some ([(k, .string s)], rest) := by
  obtain ⟨f, rfl⟩ : ∃ f, fuel = f + 2 := ⟨fuel - 2, by omega⟩
  exact scanMembers_last f depth k s rest

/-- An object whose first member starts with the literal of a key. -/
theorem scanValue_object_of_le (fuel depth : Nat) (k : String) (rest : List Char)
    (h : 1 ≤ fuel) (hd : depth < maxNestingDepth) :
    scanValue fuel depth ('{' :: ((quote k).data ++ rest))
      = (scanMembers (fuel - 1) (depth + 1) ((quote k).data ++ rest)).map
          fun p => (.object p.1, p.2) := by
  obtain ⟨f, rfl⟩ : ∃ f, fuel = f + 1 := ⟨fuel - 1, by omega⟩
  have h1 : ¬ maxNestingDepth < depth + 1 := by omega
  have h2 : ¬ '"' = '}' := by decide
  have hs : ∀ tl : List Char, skipSpace ('"' :: tl) = '"' :: tl :=
    fun tl => skipSpace_cons _ _ (by decide)
  have hb : ∀ tl : List Char, skipSpace ('{' :: tl) = '{' :: tl :=
    fun tl => skipSpace_cons _ _ (by decide)
  rw [quote_data, scanValue.eq_def]
  simp only [List.cons_append, List.append_assoc, List.nil_append, hs, hb, if_true, h1, h2,
    if_false, Nat.add_sub_cancel]

end json

/-! ### `withAuthentication` -/

namespace porkbun

open json in
/-- After the loop that adds the original body, a key of the original body has the original
value, and any other key has the value it had in the new map. -/
theorem mapLookup_addOriginal (orig newMap : List (String × Any)) (k : String)
    (h : (mapKeys orig).Nodup) :
    mapLookup (addOriginal newMap orig) k
      = match mapLookup orig k with
        | some v => some v
        | none => mapLookup newMap k := by
  induction orig generalizing newMap with
  | nil => simp [addOriginal, mapLookup]
  | cons e rest ih =>
    obtain ⟨k1, v1⟩ := e
    simp only [mapKeys, List.map_cons, List.nodup_cons] at h
    have hstep : addOriginal newMap ((k1, v1) :: rest)
        = addOriginal (mapInsert newMap k1 v1) rest := by
      simp [addOriginal]
    rw [hstep, ih _ h.2, mapLookup_mapInsert]
    by_cases hk : k1 = k
    · subst hk
      have : mapLookup rest k1 = none := (mapLookup_eq_none_iff rest k1).2 h.1
      simp [mapLookup, this]
    · simp [mapLookup, hk]

open json in
theorem mapKeys_addOriginal_nodup (orig newMap : List (String × Any))
    (h : (mapKeys newMap).Nodup) : (mapKeys (addOriginal newMap orig)).Nodup := by
  induction orig generalizing newMap with
  | nil => simpa [addOriginal] using h
  | cons e rest ih =>
    have hstep : addOriginal newMap (e :: rest)
        = addOriginal (mapInsert newMap e.1 e.2) rest := by
      simp [addOriginal]
    rw [hstep]
    exact ih _ (mapKeys_mapInsert_nodup newMap e.1 e.2 h)

/-- With both credentials set, `withAuthentication` returns the encoding of the map that holds
the two credentials and then receives the entries of the decoded body. -/
theorem withAuthentication_ok (c : Client) (body : String) (orig : List (String × json.Any))
    (hk : c.apiKey ≠ "") (hs : c.secretKey ≠ "")
    (hb : (body = "" ∧ orig = []) ∨ json.Unmarshal body = .ok orig) :
    c.withAuthentication body
      = .ok (json.Any.map (addOriginal
          [("apikey", .string c.apiKey), ("secretapikey", .string c.secretKey)] orig)).encode := by
  unfold Client.withAuthentication
  rw [if_neg hk, if_neg hs]
  rcases hb with ⟨hb, ho⟩ | hb
  · subst hb
    subst ho
    rfl
  · have hlen := json.Unmarshal_length_pos body orig hb
    simp only [gt_iff_lt, hlen, if_true, hb]
    rfl

/-- The key that is missing, by the two checks at the head of `withAuthentication`. -/
theorem withAuthentication_missing (c : Client) (body : String) :
    (c.apiKey = "" → c.withAuthentication body = .error (.MissingAccessKeyError PORKBUN_API_KEY))
    ∧ (c.apiKey ≠ "" → c.secretKey = "" →
        c.withAuthentication body = .error (.MissingAccessKeyError PORKBUN_SECRET_KEY)) := by
  constructor
  · intro h
    unfold Client.withAuthentication
    rw [if_pos h]
  · intro h1 h2
    unfold Client.withAuthentication
    rw [if_neg h1, if_pos h2]

section
open json

theorem Record.Marshal_data (r : Record) :
    ∃ text, r.Marshal = .ok text
      ∧ text.data = '{' :: ((quote "id").data ++ ':' :: ((quote r.Id).data ++ ',' ::
          ((quote "notes").data ++ ':' :: ((quote r.Notes).data ++ ',' ::
          ((quote "name").data ++ ':' :: ((quote r.Name).data ++ ',' ::
          ((quote "type").data ++ ':' :: ((quote r.Type_).data ++ ',' ::
          ((quote "content").data ++ ':' :: ((quote r.Content).data ++ ',' ::
          ((quote "ttl").data ++ ':' :: ((quote r.TTL).data ++ ',' ::
          ((quote "prio").data ++ ':' :: ((quote r.Priority).data ++ '}' :: [])))))))))))))) := by
  refine ⟨_, rfl, ?_⟩
  have h1 : (quote "id").data = "\"id\"".data := by decide
  have h2 : (quote "notes").data = "\"notes\"".data := by decide
  have h3 : (quote "name").data = "\"name\"".data := by decide
  have h4 : (quote "type").data = "\"type\"".data := by decide
  have h5 : (quote "content").data = "\"content\"".data := by decide
  have h6 : (quote "ttl").data = "\"ttl\"".data := by decide
  have h7 : (quote "prio").data = "\"prio\"".data := by decide
  rw [h1, h2, h3, h4, h5, h6, h7]
  simp [String.data_append]

/-- The marshalled record is read back by `Unmarshal` as the map of its seven fields. -/
theorem Unmarshal_Record (r : Record) :
    ∃ text, r.Marshal = .ok text
      ∧ Unmarshal text = .ok [("id", .string r.Id), ("notes", .string r.Notes),
          ("name", .string r.Name), ("type", .string r.Type_), ("content", .string r.Content),
          ("ttl", .string r.TTL), ("prio", .string r.Priority)] := by
  obtain ⟨text, hm, hd⟩ := Record.Marshal_data r
  refine ⟨text, hm, ?_⟩
  have hfuel : 16 ≤ fuelFor text.data := by
    rw [hd]
    simp only [fuelFor, List.length_cons, List.length_append, quote_data]
    omega
  have hscan : scanValue (fuelFor text.data) 0 text.data
      = some (.object [("id", .string r.Id), ("notes", .string r.Notes),
          ("name", .string r.Name), ("type", .string r.Type_), ("content", .string r.Content),
          ("ttl", .string r.TTL), ("prio", .string r.Priority)], []) := by
    generalize fuelFor text.data = fuel at hfuel
    rw [hd, scanValue_object_of_le _ _ _ _ (by omega) (by decide),
      scanMembers_comma_of_le _ _ _ _ _ (by omega),
      scanMembers_comma_of_le _ _ _ _ _ (by omega),
      scanMembers_comma_of_le _ _ _ _ _ (by omega),
      scanMembers_comma_of_le _ _ _ _ _ (by omega),
      scanMembers_comma_of_le _ _ _ _ _ (by omega),
      scanMembers_comma_of_le _ _ _ _ _ (by omega),
      scanMembers_last_of_le _ _ _ _ _ (by omega)]
    rfl
  unfold Unmarshal
  rw [hscan]
  simp [skipSpace, membersToMap, Value.toAny, mapLookup]

end

/-- With both credentials set, `withAuthentication` succeeds on every marshalled record. -/
theorem withAuthentication_Record (c : Client) (r : Record) (hk : c.apiKey ≠ "")
    (hs : c.secretKey ≠ "") :
    ∃ reqBody body, r.Marshal = .ok reqBody ∧ c.withAuthentication reqBody = .ok body := by
  obtain ⟨text, hm, hu⟩ := Unmarshal_Record r
  exact ⟨text, _, hm, withAuthentication_ok c text _ hk hs (Or.inr hu)⟩

/-- Numbers of a payload pass through `float64`: they are written back in the encoder's
shortest form. -/
theorem withAuthentication_numbers :
    (testClient "k" "s" 200 "").withAuthentication "\x7b\"n\": 1.50, \"l\": [1e2, null]\x7d"
      = .ok "\x7b\"apikey\":\"k\",\"l\":[100,null],\"n\":1.5,\"secretapikey\":\"s\"\x7d" := by
  rfl

/-- C1 (as amended): with both credentials set and a payload that `Unmarshal` decodes to the
object `orig`, the body produced is the encoding of an object whose `apikey` is the configured
API key when the payload has no field named `apikey`, and whose `secretapikey` is the
configured secret key when the payload has no field named `secretapikey`; the credential
fields do not overwrite same-named payload fields: a payload field named `apikey` or
`secretapikey`, like every other payload field, has in that object the value that the payload
gives it. -/
theorem withAuthentication_credentials (c : Client) (body : String)
    (orig : List (String × json.Any)) (hk : c.apiKey ≠ "") (hs : c.secretKey ≠ "")
    (hb : json.Unmarshal body = .ok orig) :
    ∃ newMap, c.withAuthentication body = .ok (json.Any.map newMap).encode
      ∧ (json.mapLookup orig "apikey" = none →
          json.mapLookup newMap "apikey" = some (.string c.apiKey))
      ∧ (json.mapLookup orig "secretapikey" = none →
          json.mapLookup newMap "secretapikey" = some (.string c.secretKey))
      ∧ (∀ v, json.mapLookup orig "apikey" = some v →
          json.mapLookup newMap "apikey" = some v)
      ∧ (∀ v, json.mapLookup orig "secretapikey" = some v →
          json.mapLookup newMap "secretapikey" = some v)
      ∧ (∀ k v, json.mapLookup orig k = some v → json.mapLookup newMap k = some v) := by
  have hlook := fun k => mapLookup_addOriginal orig
    [("apikey", .string c.apiKey), ("secretapikey", .string c.secretKey)] k
    (json.Unmarshal_nodup body orig hb)
  refine ⟨_, withAuthentication_ok c body orig hk hs (Or.inr hb), ?_, ?_, ?_, ?_, ?_⟩
  · intro hn
    rw [hlook, hn]
    simp [json.mapLookup]
  · intro hn
    rw [hlook, hn]
    simp [json.mapLookup]
  · intro v hv
    rw [hlook, hv]
  · intro v hv
    rw [hlook, hv]
  · intro k v hv
    rw [hlook, hv]

/-- C1: a client with both credentials set and two payloads, at which the hypotheses of the
theorem hold.  For the payload `{"name":"www"}`, which has no credential field, the body
carries the configured keys and is `{"apikey":"apikey","name":"www","secretapikey":"secretapikey"}`;
for the payload `{"apikey":"evil","name":"www"}` the field `apikey` of the body keeps the
payload's value and the body is
`{"apikey":"evil","name":"www","secretapikey":"secretapikey"}`. -/
theorem withAuthentication_credentials_witness :
    (∃ newMap, (testClient "apikey" "secretapikey" 200 "").withAuthentication
          "\x7b\"name\":\"www\"\x7d"
        = .ok (json.Any.map newMap).encode
      ∧ json.mapLookup newMap "apikey" = some (.string "apikey")
      ∧ json.mapLookup newMap "secretapikey" = some (.string "secretapikey")
      ∧ json.mapLookup newMap "name" = some (.string "www")
      ∧ (json.Any.map newMap).encode
        = "\x7b\"apikey\":\"apikey\",\"name\":\"www\",\"secretapikey\":\"secretapikey\"\x7d")
      ∧ (∃ newMap, (testClient "apikey" "secretapikey" 200 "").withAuthentication
          "\x7b\"apikey\":\"evil\",\"name\":\"www\"\x7d"
        = .ok (json.Any.map newMap).encode
      ∧ json.mapLookup newMap "apikey" = some (.string "evil")
      ∧ json.mapLookup newMap "secretapikey" = some (.string "secretapikey")
      ∧ (json.Any.map newMap).encode
        = "\x7b\"apikey\":\"evil\",\"name\":\"www\",\"secretapikey\":\"secretapikey\"\x7d") :=
  ⟨match withAuthentication_credentials (testClient "apikey" "secretapikey" 200 "")
      "\x7b\"name\":\"www\"\x7d" [("name", .string "www")] (by decide) (by decide) rfl with
    | ⟨newMap, hbody, hapi, hsecret, _, _, hkeep⟩ =>
      ⟨newMap, hbody, hapi rfl, hsecret rfl, hkeep "name" _ rfl,
        Except.ok.inj (hbody.symm.trans rfl)⟩,
   match withAuthentication_credentials (testClient "apikey" "secretapikey" 200 "")
      "\x7b\"apikey\":\"evil\",\"name\":\"www\"\x7d"
      [("apikey", .string "evil"), ("name", .string "www")] (by decide) (by decide) rfl with
    | ⟨newMap, hbody, _, hsecret, hapi, _, _⟩ =>
      ⟨newMap, hbody, hapi _ rfl, hsecret rfl, Except.ok.inj (hbody.symm.trans rfl)⟩⟩

/-- C1 (counterexample to the claim as stated): with the credentials "apikey" and
"secretapikey" and the payload `{"apikey":"evil"}`, the body produced carries the payload's
value "evil" under `apikey`, not the configured key. -/
theorem withAuthentication_shadowed_apikey :
    (testClient "apikey" "secretapikey" 200 "").withAuthentication "\x7b\"apikey\":\"evil\"\x7d"
        = .ok "\x7b\"apikey\":\"evil\",\"secretapikey\":\"secretapikey\"\x7d"
      ∧ json.Unmarshal "\x7b\"apikey\":\"evil\",\"secretapikey\":\"secretapikey\"\x7d"
        = .ok [("apikey", .string "evil"), ("secretapikey", .string "secretapikey")]
      ∧ (testClient "apikey" "secretapikey" 200 "").apiKey ≠ "evil" :=
  ⟨rfl, rfl, by decide⟩

section
open json

/-- A string none of whose characters needs an escape is written between quotes as it is. -/
theorem quote_plain (s : String) (h : ∀ ch ∈ s.data, escapeChar ch = [ch]) :
    quote s = "\"" ++ s ++ "\"" := by
  have : s.data.flatMap escapeChar = s.data := by
    generalize s.data = l at h
    induction l with
    | nil => rfl
    | cons a l ih =>
      simp only [List.flatMap_cons]
      rw [h a (by simp), ih (fun ch hch => h ch (by simp [hch]))]
      rfl
  unfold quote
  rw [this]

/-- The encoding of the map that holds just the two credentials. -/
theorem encode_credentials (a s : String) :
    (Any.map [("apikey", .string a), ("secretapikey", .string s)]).encode
      = "\x7b\"apikey\":" ++ quote a ++ ",\"secretapikey\":" ++ quote s ++ "\x7d" := by
  have h1 : sortByKey [("apikey", quote a), ("secretapikey", quote s)]
      = [("apikey", quote a), ("secretapikey", quote s)] := by
    have : ltChars "apikey".data "secretapikey".data = true := by decide
    simp [sortByKey, insertByKey, this]
  have q1 : quote "apikey" = "\"apikey\"" := by decide
  have q2 : quote "secretapikey" = "\"secretapikey\"" := by decide
  simp only [Any.encode, encodeEntries, encodeObject, h1, List.map_cons, List.map_nil,
    joinComma, q1, q2]
  apply String.ext
  simp [String.data_append]

end

/-- C3 (as amended): with both credentials set and a payload that is empty or decodes to the
object `orig`, `withAuthentication` succeeds with the encoding of an object `newMap` whose keys
are exactly the payload's keys plus `apikey` and `secretapikey`, in which every payload field
keeps its decoded value and each credential field holds the configured key unless the payload
has a field of that name; for the empty payload the output is exactly
`{"apikey":A,"secretapikey":S}` with `A` and `S` the JSON string literals of the two keys,
which are the keys between quotes when none of their characters needs an escape. -/
theorem withAuthentication_body (c : Client) (body : String) (orig : List (String × json.Any))
    (hk : c.apiKey ≠ "") (hs : c.secretKey ≠ "")
    (hb : (body = "" ∧ orig = []) ∨ json.Unmarshal body = .ok orig) :
    ∃ newMap, c.withAuthentication body = .ok (json.Any.map newMap).encode
      ∧ (json.mapKeys newMap).Nodup
      ∧ (∀ k, k ∈ json.mapKeys newMap ↔
          (k ∈ json.mapKeys orig ∨ k = "apikey" ∨ k = "secretapikey"))
      ∧ (∀ k v, json.mapLookup orig k = some v → json.mapLookup newMap k = some v)
      ∧ (json.mapLookup orig "apikey" = none →
          json.mapLookup newMap "apikey" = some (.string c.apiKey))
      ∧ (json.mapLookup orig "secretapikey" = none →
          json.mapLookup newMap "secretapikey" = some (.string c.secretKey))
      ∧ (orig = [] →
          c.withAuthentication body
            = .ok ("\x7b\"apikey\":" ++ json.quote c.apiKey ++ ",\"secretapikey\":"
                ++ json.quote c.secretKey ++ "\x7d"))
      ∧ (orig = [] → (∀ ch ∈ c.apiKey.data ++ c.secretKey.data, json.escapeChar ch = [ch]) →
          c.withAuthentication body
            = .ok ("\x7b\"apikey\":\"" ++ c.apiKey ++ "\",\"secretapikey\":\""
                ++ c.secretKey ++ "\"\x7d")) := by
  have hnd : (json.mapKeys orig).Nodup := by
    rcases hb with ⟨_, ho⟩ | hb
    · subst ho
      simp [json.mapKeys]
    · exact json.Unmarshal_nodup body orig hb
  have hok := withAuthentication_ok c body orig hk hs hb
  have hlook := fun k => mapLookup_addOriginal orig
    [("apikey", .string c.apiKey), ("secretapikey", .string c.secretKey)] k hnd
  have hempty : orig = [] → c.withAuthentication body
      = .ok ("\x7b\"apikey\":" ++ json.quote c.apiKey ++ ",\"secretapikey\":"
          ++ json.quote c.secretKey ++ "\x7d") := by
    intro ho
    rw [hok, ho]
    simp only [addOriginal, List.foldl_nil]
    rw [encode_credentials]
  refine ⟨_, hok, ?_, ?_, ?_, ?_, ?_, hempty, ?_⟩
  · apply mapKeys_addOriginal_nodup
    simp [json.mapKeys]
  · intro k
    have h1 := json.mapLookup_eq_none_iff (addOriginal
      [("apikey", .string c.apiKey), ("secretapikey", .string c.secretKey)] orig) k
    have h2 := json.mapLookup_eq_none_iff orig k
    rw [hlook k] at h1
    by_cases hmem : k ∈ json.mapKeys orig
    · cases hl : json.mapLookup orig k with
      | none => exact absurd hmem (h2.1 hl)
      | some v =>
        rw [hl] at h1
        simp only [reduceCtorEq, false_iff, not_not] at h1
        simp [h1, hmem]
    · have hl : json.mapLookup orig k = none := h2.2 hmem
      rw [hl] at h1
      simp only [hmem, false_or]
      by_cases ha : k = "apikey"
      · subst ha
        simp only [json.mapLookup, if_true, reduceCtorEq, false_iff, not_not] at h1
        simp [h1]
      · by_cases hsk : k = "secretapikey"
        · subst hsk
          have hne : ¬ "apikey" = "secretapikey" := by decide
          simp only [json.mapLookup, hne, if_false, if_true, reduceCtorEq, false_iff,
            not_not] at h1
          simp [h1]
        · have ha2 : ¬ "apikey" = k := fun x => ha x.symm
          have hs2 : ¬ "secretapikey" = k := fun x => hsk x.symm
          simp only [json.mapLookup, ha2, hs2, if_false, true_iff] at h1
          simp [h1, ha, hsk]
  · intro k v hv
    rw [hlook k, hv]
  · intro hn
    rw [hlook, hn]
    simp [json.mapLookup]
  · intro hn
    rw [hlook, hn]
    simp [json.mapLookup]
  · intro ho hplain
    rw [hempty ho, quote_plain c.apiKey (fun ch hch => hplain ch (by simp [hch])),
      quote_plain c.secretKey (fun ch hch => hplain ch (by simp [hch]))]
    congr 1
    apply String.ext
    simp [String.data_append]

/-- C3: the client and the empty payload of the access-key test, at which the hypotheses of
the theorem hold and the output is the body that the test expects. -/
theorem withAuthentication_body_witness :
    ∃ newMap, (testClient "apikey" "secretapikey" 200 "").withAuthentication ""
        = .ok (json.Any.map newMap).encode
      ∧ (∀ k, k ∈ json.mapKeys newMap ↔
          (k ∈ json.mapKeys ([] : List (String × json.Any)) ∨ k = "apikey"
            ∨ k = "secretapikey"))
      ∧ json.mapLookup newMap "apikey" = some (.string "apikey")
      ∧ json.mapLookup newMap "secretapikey" = some (.string "secretapikey")
      ∧ (testClient "apikey" "secretapikey" 200 "").withAuthentication ""
          = .ok ("\x7b\"apikey\":\"" ++ "apikey" ++ "\",\"secretapikey\":\""
              ++ "secretapikey" ++ "\"\x7d") :=
  match withAuthentication_body (testClient "apikey" "secretapikey" 200 "") "" []
      (by decide) (by decide) (Or.inl ⟨rfl, rfl⟩) with
  | ⟨newMap, hbody, _, hkeys, _, hapi, hsecret, _, hplain⟩ =>
    ⟨newMap, hbody, hkeys, hapi rfl, hsecret rfl, hplain rfl (by decide)⟩

/-- C3 (counterexample to the claim as stated): with the credentials "apikey" and
"secretapikey" and the payload `{"secretapikey":"x","name":"www"}`, the payload field keeps
its value, so the credential field `secretapikey` of the output does not hold the configured
secret key. -/
theorem withAuthentication_shadowed_secret :
    (testClient "apikey" "secretapikey" 200 "").withAuthentication
        "\x7b\"secretapikey\":\"x\",\"name\":\"www\"\x7d"
        = .ok "\x7b\"apikey\":\"apikey\",\"name\":\"www\",\"secretapikey\":\"x\"\x7d"
      ∧ json.Unmarshal "\x7b\"apikey\":\"apikey\",\"name\":\"www\",\"secretapikey\":\"x\"\x7d"
        = .ok [("apikey", .string "apikey"), ("name", .string "www"),
            ("secretapikey", .string "x")]
      ∧ (testClient "apikey" "secretapikey" 200 "").secretKey ≠ "x" :=
  ⟨rfl, rfl, by decide⟩

/-! ### Operations without credentials -/

/-- Every operation stops, without a request, at an error of `withAuthentication`, whatever
payload it passes. -/
theorem operations_stop_at_authentication (rt : Runtime) (c : Client)
    (domain subdomain recordType id : String) (n : Int) (record : Record) (key : String)
    (h : ∀ body, c.withAuthentication body = .error (.MissingAccessKeyError key)) :
    failsMissingKey (c.Ping rt) key
      ∧ failsMissingKey (c.CreateDnsRecord rt domain record) key
      ∧ failsMissingKey (c.ListDnsRecords rt domain subdomain recordType) key
      ∧ failsMissingKey (c.GetDnsRecordById rt domain n) key
      ∧ failsMissingKey (c.ModifyDnsRecord rt domain record) key
      ∧ failsMissingKey (c.DeleteDnsRecordById rt domain id) key
      ∧ failsMissingKey (c.DeleteDnsRecordByLookup rt domain subdomain recordType) key := by
  refine ⟨?_, ?_, ?_, ?_, ?_, ?_, ?_⟩
  · unfold Client.Ping
    rw [h]
    exact ⟨rfl, _, rfl, rfl⟩
  · unfold Client.CreateDnsRecord Record.Marshal
    simp only [h]
    exact ⟨rfl, _, rfl, rfl⟩
  · unfold Client.ListDnsRecords
    rw [h]
    exact ⟨rfl, _, rfl, rfl⟩
  · unfold Client.GetDnsRecordById
    rw [h]
    exact ⟨rfl, _, rfl, rfl⟩
  · unfold Client.ModifyDnsRecord Record.Marshal
    simp only [h]
    exact ⟨rfl, _, rfl, rfl⟩
  · unfold Client.DeleteDnsRecordById
    rw [h]
    exact ⟨rfl, _, rfl, rfl⟩
  · unfold Client.DeleteDnsRecordByLookup
    rw [h]
    exact ⟨rfl, _, rfl, rfl⟩

/-- C2: with an empty API key (whatever the secret key is) every authenticated operation fails
with a `MissingAccessKeyError` whose `Key` is `PORKBUN_API_KEY`, and with a non-empty API key
and an empty secret key with one whose `Key` is `PORKBUN_SECRET_KEY`; in both cases no request
reaches the transport. -/
theorem operations_fail_on_missing_key (rt : Runtime) (c : Client)
    (domain subdomain recordType id : String) (n : Int) (record : Record) (key : String)
    (h : (c.apiKey = "" ∧ key = PORKBUN_API_KEY)
      ∨ (c.apiKey ≠ "" ∧ c.secretKey = "" ∧ key = PORKBUN_SECRET_KEY)) :
    failsMissingKey (c.Ping rt) key
      ∧ failsMissingKey (c.CreateDnsRecord rt domain record) key
      ∧ failsMissingKey (c.ListDnsRecords rt domain subdomain recordType) key
      ∧ failsMissingKey (c.GetDnsRecordById rt domain n) key
      ∧ failsMissingKey (c.ModifyDnsRecord rt domain record) key
      ∧ failsMissingKey (c.DeleteDnsRecordById rt domain id) key
      ∧ failsMissingKey (c.DeleteDnsRecordByLookup rt domain subdomain recordType) key := by
  apply operations_stop_at_authentication
  intro body
  rcases h with ⟨h1, hkey⟩ | ⟨h1, h2, hkey⟩
  · rw [hkey]
    exact (withAuthentication_missing c body).1 h1
  · rw [hkey]
    exact (withAuthentication_missing c body).2 h1 h2

/-- C2: the two failing cases of the access-key test (no key at all; API key set and secret
key empty) and the case of an empty API key with a secret key set, at which the hypothesis of
the theorem holds. -/
theorem operations_fail_on_missing_key_witness :
    (failsMissingKey ((testClient "apikey" "" 200 "").Ping testRuntime) PORKBUN_SECRET_KEY
      ∧ failsMissingKey ((testClient "apikey" "" 200 "").CreateDnsRecord testRuntime
          "example.com" ⟨"", "", "www", "A", "10.0.0.1", "600", ""⟩) PORKBUN_SECRET_KEY
      ∧ failsMissingKey ((testClient "apikey" "" 200 "").ListDnsRecords testRuntime
          "example.com" "www" "A") PORKBUN_SECRET_KEY
      ∧ failsMissingKey ((testClient "apikey" "" 200 "").GetDnsRecordById testRuntime
          "example.com" 1234) PORKBUN_SECRET_KEY
      ∧ failsMissingKey ((testClient "apikey" "" 200 "").ModifyDnsRecord testRuntime
          "example.com" ⟨"", "", "www", "A", "10.0.0.1", "600", ""⟩) PORKBUN_SECRET_KEY
      ∧ failsMissingKey ((testClient "apikey" "" 200 "").DeleteDnsRecordById testRuntime
          "example.com" "1234") PORKBUN_SECRET_KEY
      ∧ failsMissingKey ((testClient "apikey" "" 200 "").DeleteDnsRecordByLookup testRuntime
          "example.com" "www" "A") PORKBUN_SECRET_KEY)
    ∧ failsMissingKey ((testClient "" "" 200 "").Ping testRuntime) PORKBUN_API_KEY
    ∧ failsMissingKey ((testClient "" "secretapikey" 200 "").Ping testRuntime) PORKBUN_API_KEY :=
  ⟨operations_fail_on_missing_key testRuntime (testClient "apikey" "" 200 "")
      "example.com" "www" "A" "1234" 1234 ⟨"", "", "www", "A", "10.0.0.1", "600", ""⟩
      PORKBUN_SECRET_KEY (Or.inr ⟨by decide, rfl, rfl⟩),
   (operations_fail_on_missing_key testRuntime (testClient "" "" 200 "")
      "example.com" "www" "A" "1234" 1234 ⟨"", "", "www", "A", "10.0.0.1", "600", ""⟩
      PORKBUN_API_KEY (Or.inl ⟨rfl, rfl⟩)).1,
   (operations_fail_on_missing_key testRuntime (testClient "" "secretapikey" 200 "")
      "example.com" "www" "A" "1234" 1234 ⟨"", "", "www", "A", "10.0.0.1", "600", ""⟩
      PORKBUN_API_KEY (Or.inl ⟨rfl, rfl⟩)).1⟩

/-! ### Responses outside 200-299 -/

/-- C4 (the code at the failing input): against a stub server that answers 400 with the body
"bad request", `Ping`, `ListDnsRecords` and `GetDnsRecordById` send their request and then
fail with the decoder's error, in whose chain there is no `ApiError`; the four operations
that check the status fail with `ApiError{400, "bad request"}`. -/
theorem bad_request_outcomes :
    ((testClient "apikey" "secretkey" 400 "bad request").Ping testRuntime).result
        = .error (.wrap "could not unmarshal response body, %w"
            (.text "json: syntax error or unexpected end of input"))
      ∧ ((testClient "apikey" "secretkey" 400 "bad request").ListDnsRecords testRuntime
          "example.com" "" "").result
        = .error (.wrap "could not unmarshal response body, %w"
            (.text "json: syntax error or unexpected end of input"))
      ∧ ((testClient "apikey" "secretkey" 400 "bad request").GetDnsRecordById testRuntime
          "example.com" 1234).result
        = .error (.wrap "could not unmarshal response body, %w"
            (.text "json: syntax error or unexpected end of input"))
      ∧ errors.AsApiError (.wrap "could not unmarshal response body, %w"
            (.text "json: syntax error or unexpected end of input")) = none
      ∧ ((testClient "apikey" "secretkey" 400 "bad request").Ping testRuntime).sent.length = 1
      ∧ ((testClient "apikey" "secretkey" 400 "bad request").CreateDnsRecord testRuntime
          "example.com" ⟨"", "", "www", "A", "10.0.0.1", "600", ""⟩).result
        = .error (.ApiError 400 "bad request")
      ∧ ((testClient "apikey" "secretkey" 400 "bad request").ModifyDnsRecord testRuntime
          "example.com" ⟨"", "", "www", "A", "10.0.0.1", "600", ""⟩).result
        = .error (.ApiError 400 "bad request")
      ∧ ((testClient "apikey" "secretkey" 400 "bad request").DeleteDnsRecordById testRuntime
          "example.com" "1234").result
        = .error (.ApiError 400 "bad request")
      ∧ ((testClient "apikey" "secretkey" 400 "bad request").DeleteDnsRecordByLookup testRuntime
          "example.com" "www" "A").result
        = .error (.ApiError 400 "bad request") :=
  ⟨rfl, rfl, rfl, rfl, rfl, rfl, rfl, rfl, rfl⟩

/-! ### `ModifyDnsRecord` without id and type -/

/-- C7: for a record whose `Id` and `Type` are both empty, `ModifyDnsRecord` returns an error
and hands no request to the transport, whatever the client and the domain. -/
theorem ModifyDnsRecord_fails_locally (rt : Runtime) (c : Client) (domain : String)
    (record : Record) (hid : record.Id = "") (htype : record.Type_ = "") :
    (c.ModifyDnsRecord rt domain record).sent = []
      ∧ ∃ err, (c.ModifyDnsRecord rt domain record).result = .error err := by
  unfold Client.ModifyDnsRecord Record.Marshal
  simp only [hid, htype]
  split
  · exact ⟨rfl, _, rfl⟩
  · exact ⟨rfl, _, rfl⟩

/-- C7: a client with valid credentials and a record without id and type, at which the
hypotheses of the theorem hold. -/
theorem ModifyDnsRecord_fails_locally_witness :
    ((testClient "apikey" "secretkey" 200 "ok").ModifyDnsRecord testRuntime "example.com"
        ⟨"", "", "www", "", "10.0.0.1", "600", ""⟩).sent = []
      ∧ ∃ err, ((testClient "apikey" "secretkey" 200 "ok").ModifyDnsRecord testRuntime
          "example.com" ⟨"", "", "www", "", "10.0.0.1", "600", ""⟩).result = .error err :=
  ModifyDnsRecord_fails_locally testRuntime (testClient "apikey" "secretkey" 200 "ok")
    "example.com" ⟨"", "", "www", "", "10.0.0.1", "600", ""⟩ rfl rfl

/-! ### `NewClient` -/

theorem applyOptions_append (c : Client) (a b : List ClientOption) :
    applyOptions c (a ++ b)
      = match applyOptions c a with
        | .error err => .error err
        | .ok c2 => applyOptions c2 b := by
  induction a generalizing c with
  | nil => rfl
  | cons o rest ih =>
    simp only [List.cons_append, applyOptions]
    cases o c with
    | error err => rfl
    | ok c2 => exact ih c2

theorem lastGiven_cons {α : Type} (pick : BuiltinOption → Option α) (default : α)
    (o : BuiltinOption) (rest : List BuiltinOption) :
    lastGiven pick default (o :: rest) = lastGiven pick ((pick o).getD default) rest := by
  unfold lastGiven
  cases h : pick o with
  | none => simp [List.filterMap_cons, h]
  | some a =>
    simp only [List.filterMap_cons, h, List.getLast?_cons, Option.getD_some]

/-- The built-in options never fail, and each field of the resulting client is the value given
by the last option that targets it, or the value the field had before. -/
theorem applyOptions_builtin (c : Client) (options : List BuiltinOption) :
    ∃ c2, applyOptions c (options.map BuiltinOption.toOption) = .ok c2
      ∧ c2.apiKey = lastGiven BuiltinOption.apiKey? c.apiKey options
      ∧ c2.secretKey = lastGiven BuiltinOption.secretKey? c.secretKey options
      ∧ c2.baseUrl = lastGiven BuiltinOption.baseUrl? c.baseUrl options
      ∧ c2.client = lastGiven BuiltinOption.client? c.client options := by
  induction options generalizing c with
  | nil => exact ⟨c, rfl, rfl, rfl, rfl, rfl⟩
  | cons o rest ih =>
    simp only [lastGiven_cons, List.map_cons, applyOptions]
    cases o with
    | WithApiKey key => exact ih _
    | WithSecretKey key => exact ih _
    | WithBaseUrl url => exact ih _
    | WithHttpClient h => exact ih _

/-- The loop over the options fails exactly when some option fails on the client that the
options before it produced, and then with that option's error. -/
theorem applyOptions_error_iff (c : Client) (options : List ClientOption) (err : Error) :
    applyOptions c options = .error err
      ↔ ∃ before o after c2, options = before ++ o :: after
          ∧ applyOptions c before = .ok c2 ∧ o c2 = .error err := by
  constructor
  · intro h
    induction options generalizing c with
    | nil => cases h
    | cons o rest ih =>
      simp only [applyOptions] at h
      cases ho : o c with
      | error e =>
        rw [ho] at h
        cases h
        exact ⟨[], o, rest, c, rfl, rfl, ho⟩
      | ok c1 =>
        rw [ho] at h
        obtain ⟨before, o2, after, c2, hsplit, hbefore, hfail⟩ := ih c1 h
        refine ⟨o :: before, o2, after, c2, by simp [hsplit], ?_, hfail⟩
        simp only [applyOptions, ho]
        exact hbefore
  · rintro ⟨before, o, after, c2, hsplit, hbefore, hfail⟩
    rw [hsplit, applyOptions_append, hbefore]
    simp only [applyOptions, hfail]

/-- C8: for every list of built-in options `NewClient` succeeds and each field of the client
is the value given by the last option of the list that targets it, or its default (the
environment's value for the two keys, "https://porkbun.com" for the base URL, the default
transport); for arbitrary options `NewClient` fails exactly when some option returns an
error on the client built by the options before it, and it then returns that error (the result
of `NewClient` being either a client or an error, never both). -/
theorem NewClient_options (rt : Runtime) :
    (∀ options : List BuiltinOption,
      ∃ c, NewClient rt (options.map BuiltinOption.toOption) = .ok c
        ∧ c.apiKey = lastGiven BuiltinOption.apiKey? (rt.Getenv PORKBUN_API_KEY) options
        ∧ c.secretKey = lastGiven BuiltinOption.secretKey? (rt.Getenv PORKBUN_SECRET_KEY) options
        ∧ c.baseUrl = lastGiven BuiltinOption.baseUrl? "https://porkbun.com" options
        ∧ c.client = lastGiven BuiltinOption.client? ⟨rt.defaultDo⟩ options)
    ∧ (∀ (options : List ClientOption) (err : Error),
        NewClient rt options = .error err
          ↔ ∃ before o after c, options = before ++ o :: after
              ∧ NewClient rt before = .ok c ∧ o c = .error err) := by
  constructor
  · intro options
    exact applyOptions_builtin _ options
  · intro options err
    exact applyOptions_error_iff _ options err

/-! ### Decoded responses -/

/-- The decoder on a body whose first value is an object stores that object. -/
theorem Decode_object {α : Type} (body : String) (store : json.Value → Except Error α)
    (members : List (String × json.Value)) (rest : List Char)
    (h : json.scanValue (json.fuelFor body.data) 0 body.data = some (.object members, rest)) :
    json.Decode body store = store (.object members) := by
  unfold json.Decode
  simp only [h]

theorem intToken_value (n : Int) :
    (if (intToken n).negative then -((intToken n).int : Int) else ((intToken n).int : Int))
      = n := by
  unfold intToken
  by_cases h : n < 0
  · simp only [h, decide_True, if_true]
    omega
  · simp only [h, decide_False]
    simp only [Bool.false_eq_true, if_false]
    omega

/-- The object `{"status": s, "id": n}` stored into a zero `CreateDnsRecordResponse`. -/
theorem store_create_response (s : String) (n : Int) (hlo : -2 ^ 63 ≤ n) (hhi : n < 2 ^ 63) :
    json.storeStruct CreateDnsRecordResponse.store
        (.object [("status", .string s), ("id", .number (intToken n))]) ⟨"", 0⟩
      = .ok ⟨s, n⟩ := by
  have h1 : json.matchField ["status", "id"] "status" = some "status" := by decide
  have h2 : json.matchField ["status", "id"] "id" = some "id" := by decide
  have h3 : json.storeInt (.number (intToken n)) 0 = .ok n := by
    unfold json.storeInt
    simp only [intToken_value]
    rw [if_pos ⟨rfl, rfl, hlo, hhi⟩]
  simp only [json.storeStruct, json.storeMembers, CreateDnsRecordResponse.store, h1, h2,
    json.storeString, Except.map, h3]

/-- The object `{"status": s, "yourIp": ip}` stored into a zero `PingResponse`. -/
theorem store_ping_response (s ip : String) :
    json.storeStruct PingResponse.store
        (.object [("status", .string s), ("yourIp", .string ip)]) ⟨"", ""⟩
      = .ok ⟨s, ip⟩ := by
  have h1 : json.matchField ["status", "yourIp"] "status" = some "status" := by decide
  have h2 : json.matchField ["status", "yourIp"] "yourIp" = some "yourIp" := by decide
  simp only [json.storeStruct, json.storeMembers, PingResponse.store, h1, h2, json.storeString,
    Except.map]

/-- What `do` sends and returns: nothing was sent and the URL was rejected, or the one request
`POST baseUrl/endpoint` was sent and the result is the transport's. -/
theorem do_cases (rt : Runtime) (c : Client) (endpoint body : String) :
    ((c.do rt endpoint body).sent = [] ∧ ∃ err, (c.do rt endpoint body).result = .error err)
      ∨ ((c.do rt endpoint body).sent
            = [⟨http.MethodPost, c.baseUrl ++ "/" ++ endpoint, body⟩]
          ∧ (c.do rt endpoint body).result
            = c.client.Do ⟨http.MethodPost, c.baseUrl ++ "/" ++ endpoint, body⟩) := by
  unfold Client.do http.NewRequest
  cases rt.urlError (c.baseUrl ++ "/" ++ endpoint) with
  | some err => exact Or.inl ⟨rfl, _, rfl⟩
  | none => exact Or.inr ⟨rfl, rfl⟩

/-- The requests of `do` when the URL parses: the one POST to the base URL, a "/", and the
endpoint, answered by the transport. -/
theorem do_accepted (rt : Runtime) (c : Client) (endpoint body : String)
    (h : rt.urlError (c.baseUrl ++ "/" ++ endpoint) = none) :
    (c.do rt endpoint body).sent = [⟨http.MethodPost, c.baseUrl ++ "/" ++ endpoint, body⟩]
      ∧ (c.do rt endpoint body).result
        = c.client.Do ⟨http.MethodPost, c.baseUrl ++ "/" ++ endpoint, body⟩ := by
  unfold Client.do http.NewRequest
  rw [h]
  exact ⟨rfl, rfl⟩

/-- The status-checking tail of an operation sends nothing of its own. -/
theorem statusResponseOf_sent (called : Outcome http.Response) (format : String) :
    (statusResponseOf called format).sent = called.sent := by
  unfold statusResponseOf
  split
  · rfl
  · split
    · rfl
    · split <;> rfl

/-- The result of the status-checking tail of an operation once the transport has answered:
the `ApiError` of a status outside 200-299, or else the decoded body. -/
theorem statusResponseOf_result (called : Outcome http.Response) (format : String)
    (res : http.Response) (h : called.result = .ok res) :
    (statusResponseOf called format).result
      = match apiErrorOf res with
        | some err => .error err
        | none =>
          match json.Decode res.Body (fun v => json.storeStruct StatusResponse.store v ⟨""⟩) with
          | .error err => .error (.wrap "could not unmarshal response body, %w" err)
          | .ok response => .ok response := by
  unfold statusResponseOf
  rw [h]
  simp only
  split
  · rfl
  · split <;> rfl

/-- The operation `Ping` sends a request only once `withAuthentication` has produced a body,
and then sends what `do` sends; when the transport answers, the result is the decoded body of
the answer. -/
theorem Ping_sent (rt : Runtime) (c : Client) (req : http.Request)
    (h : (c.Ping rt).sent = [req]) :
    ∃ body, c.withAuthentication "" = .ok body
      ∧ req = ⟨http.MethodPost, c.baseUrl ++ "/" ++ "/api/json/v3/ping", body⟩
      ∧ ∀ res, c.client.Do req = .ok res →
          (c.Ping rt).result
            = match json.Decode res.Body
                (fun v => json.storeStruct PingResponse.store v ⟨"", ""⟩) with
              | .error err => .error (.wrap "could not unmarshal response body, %w" err)
              | .ok response => .ok response := by
  unfold Client.Ping at h ⊢
  cases hauth : c.withAuthentication "" with
  | error e =>
    rw [hauth] at h
    cases h
  | ok body =>
    rw [hauth] at h
    refine ⟨body, rfl, ?_⟩
    simp only at h ⊢
    rcases do_cases rt c "/api/json/v3/ping" body with ⟨h1, e, h2⟩ | ⟨h1, h2⟩
    · rw [h2] at h
      simp only [h1] at h
      cases h
    · have hreq : req = ⟨http.MethodPost, c.baseUrl ++ "/" ++ "/api/json/v3/ping", body⟩ := by
        cases hd : c.client.Do ⟨http.MethodPost, c.baseUrl ++ "/" ++ "/api/json/v3/ping", body⟩ with
        | error e =>
          rw [h2, hd] at h
          simp only [h1] at h
          cases h
          rfl
        | ok res =>
          rw [h2, hd] at h
          simp only at h
          split at h <;>
          · simp only [h1] at h
            cases h
            rfl
      refine ⟨hreq, ?_⟩
      intro res hres
      rw [hreq] at hres
      rw [h2, hres]
      simp only
      split <;> rfl

/-- The operation `CreateDnsRecord` sends a request only once `withAuthentication` has
produced a body from the marshalled record, and then sends what `do` sends; when the transport
answers, the result is the `ApiError` of a status outside 200-299 or else the decoded body of
the answer. -/
theorem CreateDnsRecord_sent (rt : Runtime) (c : Client) (domain : String) (params : Record)
    (req : http.Request) (h : (c.CreateDnsRecord rt domain params).sent = [req]) :
    ∃ reqBody body, params.Marshal = .ok reqBody ∧ c.withAuthentication reqBody = .ok body
      ∧ req = ⟨http.MethodPost, c.baseUrl ++ "/" ++ ("/api/json/v3/dns/create/" ++ domain), body⟩
      ∧ ∀ res, c.client.Do req = .ok res →
          (c.CreateDnsRecord rt domain params).result
            = match apiErrorOf res with
              | some err => .error err
              | none =>
                match json.Decode res.Body
                  (fun v => json.storeStruct CreateDnsRecordResponse.store v ⟨"", 0⟩) with
                | .error err => .error (.wrap "could not unmarshal response body, %w" err)
                | .ok response => .ok response := by
  unfold Client.CreateDnsRecord at h ⊢
  cases hm : params.Marshal with
  | error e =>
    rw [hm] at h
    cases h
  | ok reqBody =>
    rw [hm] at h
    simp only at h ⊢
    cases hauth : c.withAuthentication reqBody with
    | error e =>
      rw [hauth] at h
      cases h
    | ok body =>
      rw [hauth] at h
      refine ⟨reqBody, body, rfl, hauth, ?_⟩
      simp only at h ⊢
      rcases do_cases rt c ("/api/json/v3/dns/create/" ++ domain) body with
        ⟨h1, e, h2⟩ | ⟨h1, h2⟩
      · rw [h2] at h
        simp only [h1] at h
        cases h
      · have hreq : req = ⟨http.MethodPost,
            c.baseUrl ++ "/" ++ ("/api/json/v3/dns/create/" ++ domain), body⟩ := by
          cases hd : c.client.Do ⟨http.MethodPost,
              c.baseUrl ++ "/" ++ ("/api/json/v3/dns/create/" ++ domain), body⟩ with
          | error e =>
            rw [h2, hd] at h
            simp only [h1] at h
            cases h
            rfl
          | ok res =>
            rw [h2, hd] at h
            simp only at h
            split at h
            · simp only [h1] at h
              cases h
              rfl
            · split at h <;>
              · simp only [h1] at h
                cases h
                rfl
        refine ⟨hreq, ?_⟩
        intro res hres
        rw [hreq] at hres
        rw [h2, hres]
        simp only
        split
        · rfl
        · split <;> rfl

theorem apiErrorOf_success (res : http.Response) (hlo : 200 ≤ res.StatusCode)
    (hhi : res.StatusCode < 300) : apiErrorOf res = none := by
  unfold apiErrorOf
  rw [if_neg]
  omega

/-- C9 (as amended): when `CreateDnsRecord` has handed its request to the transport and the
transport answers with a status in 200-299 and a body that is the JSON object
`{"status": s, "id": n}` (`n` an integer in the range of Go's `int`), the operation returns,
without error, the response with `Status = s` and the number `Id = n`; and when `Ping` has
handed its request to the transport and the transport answers with the JSON object
`{"status": s, "yourIp": ip}`, it returns, without error, the response with `Status = s` and
`YourIP = ip`. -/
theorem decoded_responses (rt : Runtime) (c : Client) :
    (∀ (domain : String) (params : Record) (req : http.Request) (res : http.Response)
        (s : String) (n : Int) (rest : List Char),
        (c.CreateDnsRecord rt domain params).sent = [req] →
        c.client.Do req = .ok res →
        200 ≤ res.StatusCode → res.StatusCode < 300 →
        json.scanValue (json.fuelFor res.Body.data) 0 res.Body.data
          = some (.object [("status", .string s), ("id", .number (intToken n))], rest) →
        -2 ^ 63 ≤ n → n < 2 ^ 63 →
        (c.CreateDnsRecord rt domain params).result = .ok ⟨s, n⟩)
    ∧ (∀ (req : http.Request) (res : http.Response) (s ip : String) (rest : List Char),
        (c.Ping rt).sent = [req] →
        c.client.Do req = .ok res →
        json.scanValue (json.fuelFor res.Body.data) 0 res.Body.data
          = some (.object [("status", .string s), ("yourIp", .string ip)], rest) →
        (c.Ping rt).result = .ok ⟨s, ip⟩) := by
  constructor
  · intro domain params req res s n rest hsent hdo hlo hhi hbody hnlo hnhi
    obtain ⟨reqBody, body, _, _, _, hres⟩ := CreateDnsRecord_sent rt c domain params req hsent
    rw [hres res hdo, apiErrorOf_success res hlo hhi]
    simp only
    rw [Decode_object _ _ _ _ hbody, store_create_response s n hnlo hnhi]
  · intro req res s ip rest hsent hdo hbody
    obtain ⟨body, _, _, hres⟩ := Ping_sent rt c req hsent
    rw [hres res hdo, Decode_object _ _ _ _ hbody, store_ping_response s ip]

/-- C9: the two stub servers of the tests, with the bodies written as the tests write them,
at which the hypotheses of the theorem hold and the responses are the expected ones. -/
theorem decoded_responses_witness :
    ((testClient "apikey" "secretkey" 200 "\x7b\"status\": \"SUCCESS\", \"id\": 1234\x7d").CreateDnsRecord
        testRuntime "example.com" ⟨"", "", "www", "A", "10.0.0.1", "", ""⟩).result
      = .ok ⟨"SUCCESS", 1234⟩
    ∧ ((testClient "apikey" "secretkey" 200
        "\x7b\"status\": \"SUCCESS\", \"yourIp\": \"127.0.0.1\"\x7d").Ping testRuntime).result
      = .ok ⟨"SUCCESS", "127.0.0.1"⟩ :=
  ⟨(decoded_responses testRuntime
      (testClient "apikey" "secretkey" 200 "\x7b\"status\": \"SUCCESS\", \"id\": 1234\x7d")).1
      "example.com" ⟨"", "", "www", "A", "10.0.0.1", "", ""⟩
      ⟨"POST", "http://127.0.0.1:8080//api/json/v3/dns/create/example.com",
        "\x7b\"apikey\":\"apikey\",\"content\":\"10.0.0.1\",\"id\":\"\",\"name\":\"www\",\"notes\":\"\",\"prio\":\"\",\"secretapikey\":\"secretkey\",\"ttl\":\"\",\"type\":\"A\"\x7d"⟩
      ⟨200, "\x7b\"status\": \"SUCCESS\", \"id\": 1234\x7d"⟩ "SUCCESS" 1234 []
      rfl rfl (by decide) (by decide) rfl (by decide) (by decide),
   (decoded_responses testRuntime
      (testClient "apikey" "secretkey" 200
        "\x7b\"status\": \"SUCCESS\", \"yourIp\": \"127.0.0.1\"\x7d")).2
      ⟨"POST", "http://127.0.0.1:8080//api/json/v3/ping",
        "\x7b\"apikey\":\"apikey\",\"secretapikey\":\"secretkey\"\x7d"⟩
      ⟨200, "\x7b\"status\": \"SUCCESS\", \"yourIp\": \"127.0.0.1\"\x7d"⟩ "SUCCESS" "127.0.0.1" []
      rfl rfl rfl⟩

/-- C9 (counterexample to the claim as stated): the integer `9223372036854775808` is not in
the range of the field `Id int`; against a stub server that answers 200 with the JSON object
`{"status":"SUCCESS","id":9223372036854775808}` the request is sent and `CreateDnsRecord`
returns the decoder's error instead of a response with that `Id`. -/
theorem CreateDnsRecord_id_out_of_range :
    json.scanValue
        (json.fuelFor "\x7b\"status\":\"SUCCESS\",\"id\":9223372036854775808\x7d".data) 0
        "\x7b\"status\":\"SUCCESS\",\"id\":9223372036854775808\x7d".data
      = some (.object [("status", .string "SUCCESS"),
          ("id", .number (intToken 9223372036854775808))], [])
    ∧ ((testClient "apikey" "secretkey" 200
          "\x7b\"status\":\"SUCCESS\",\"id\":9223372036854775808\x7d").CreateDnsRecord
        testRuntime "example.com" ⟨"", "", "www", "A", "10.0.0.1", "", ""⟩).sent.length = 1
    ∧ ((testClient "apikey" "secretkey" 200
          "\x7b\"status\":\"SUCCESS\",\"id\":9223372036854775808\x7d").CreateDnsRecord
        testRuntime "example.com" ⟨"", "", "www", "A", "10.0.0.1", "", ""⟩).result
      = .error (.wrap "could not unmarshal response body, %w"
          (.text "json: cannot unmarshal number into Go struct field of type int")) :=
  ⟨rfl, rfl, rfl⟩

/-! ### The URL of a request -/

/-- Every request `do` hands to the transport is a POST to the base URL, a "/", and the
endpoint as the operation passed it. -/
theorem do_request (rt : Runtime) (c : Client) (endpoint body : String) (req : http.Request)
    (h : req ∈ (c.do rt endpoint body).sent) :
    req = ⟨"POST", c.baseUrl ++ "/" ++ endpoint, body⟩ := by
  rcases do_cases rt c endpoint body with ⟨h1, _⟩ | ⟨h1, _⟩
  · rw [h1] at h
    cases h
  · rw [h1] at h
    simpa [http.MethodPost] using h

/-- C10 (the code at the failing input): `Ping` on a client with the default base URL
"https://porkbun.com" sends one request, a POST with the credentials as its body, whose URL is
"https://porkbun.com//api/json/v3/ping": the "/" that `do` puts after the base URL is followed
by the "/" that starts the endpoint, so the URL is not the base URL followed directly by
"/api/json/v3/ping". -/
theorem Ping_request_url :
    ((⟨"apikey", "secretapikey", "https://porkbun.com", stubServer 200 "\x7b\x7d"⟩ : Client).Ping
        testRuntime).sent
      = [⟨"POST", "https://porkbun.com//api/json/v3/ping",
          "\x7b\"apikey\":\"apikey\",\"secretapikey\":\"secretapikey\"\x7d"⟩]
    ∧ "https://porkbun.com//api/json/v3/ping" ≠ "https://porkbun.com" ++ "/api/json/v3/ping" :=
  ⟨rfl, by decide⟩

end porkbun

/-! ### The operations after authentication -/

namespace porkbun

/-- With both credentials set, `withAuthentication` succeeds on the empty payload. -/
theorem withAuthentication_nil (c : Client) (hk : c.apiKey ≠ "") (hs : c.secretKey ≠ "") :
    ∃ body, c.withAuthentication "" = .ok body :=
  ⟨_, withAuthentication_ok c "" [] hk hs (Or.inl ⟨rfl, rfl⟩)⟩

/-- A request sent by `do` shows that the URL was accepted, and which request it is. -/
theorem do_sent_inv (rt : Runtime) (c : Client) (endpoint body : String) (req : http.Request)
    (h : (c.do rt endpoint body).sent = [req]) :
    rt.urlError (c.baseUrl ++ "/" ++ endpoint) = none
      ∧ req = ⟨http.MethodPost, c.baseUrl ++ "/" ++ endpoint, body⟩
      ∧ (c.do rt endpoint body).result = c.client.Do req := by
  unfold Client.do http.NewRequest at h ⊢
  cases hu : rt.urlError (c.baseUrl ++ "/" ++ endpoint) with
  | some err =>
    rw [hu] at h
    cases h
  | none =>
    rw [hu] at h
    simp only [List.cons.injEq, and_true] at h
    subst h
    exact ⟨rfl, rfl, rfl⟩

/-- The operation `Ping` once `withAuthentication` has produced a body: what `do` sends for the
ping path, and the decoded body of the answer whatever its status. -/
theorem Ping_of_auth (rt : Runtime) (c : Client) (body : String)
    (h : c.withAuthentication "" = .ok body) :
    (c.Ping rt).sent = (c.do rt "/api/json/v3/ping" body).sent
      ∧ (c.Ping rt).result
        = match (c.do rt "/api/json/v3/ping" body).result with
          | .error err => .error (.wrap "err calling ping, %w" err)
          | .ok res =>
            match json.Decode res.Body
              (fun v => json.storeStruct PingResponse.store v ⟨"", ""⟩) with
            | .error err => .error (.wrap "could not unmarshal response body, %w" err)
            | .ok response => .ok response := by
  unfold Client.Ping
  rw [h]
  simp only
  split
  · exact ⟨rfl, rfl⟩
  · split <;> exact ⟨rfl, rfl⟩

/-- The operation `ListDnsRecords` once `withAuthentication` has produced a body: what `do`
sends for the selected path, and the decoded body of the answer whatever its status. -/
theorem ListDnsRecords_of_auth (rt : Runtime) (c : Client) (domain subdomain recordType : String)
    (body : String) (h : c.withAuthentication "" = .ok body) :
    (c.ListDnsRecords rt domain subdomain recordType).sent
        = (c.do rt (if recordType ≠ "" then
            "/api/json/v3/dns/retrieveByNameType/" ++ domain ++ "/" ++ recordType ++ "/"
              ++ subdomain
          else "/api/json/v3/dns/retrieve/" ++ domain) body).sent
      ∧ (c.ListDnsRecords rt domain subdomain recordType).result
        = match (c.do rt (if recordType ≠ "" then
            "/api/json/v3/dns/retrieveByNameType/" ++ domain ++ "/" ++ recordType ++ "/"
              ++ subdomain
          else "/api/json/v3/dns/retrieve/" ++ domain) body).result with
          | .error err => .error (.wrap "err retrieving dns records, %w" err)
          | .ok res =>
            match json.Decode res.Body decodeDnsRecordsResponse with
            | .error err => .error (.wrap "could not unmarshal response body, %w" err)
            | .ok response => .ok response := by
  unfold Client.ListDnsRecords
  rw [h]
  simp only
  split
  · exact ⟨rfl, rfl⟩
  · split <;> exact ⟨rfl, rfl⟩

/-- The operation `GetDnsRecordById` once `withAuthentication` has produced a body. -/
theorem GetDnsRecordById_of_auth (rt : Runtime) (c : Client) (domain : String) (id : Int)
    (body : String) (h : c.withAuthentication "" = .ok body) :
    (c.GetDnsRecordById rt domain id).sent
        = (c.do rt ("/api/json/v3/dns/retrieve/" ++ domain ++ "/" ++ toString id) body).sent
      ∧ (c.GetDnsRecordById rt domain id).result
        = match (c.do rt ("/api/json/v3/dns/retrieve/" ++ domain ++ "/" ++ toString id)
            body).result with
          | .error err => .error (.wrap "err retrieving dns record, %w" err)
          | .ok res =>
            match json.Decode res.Body decodeDnsRecordsResponse with
            | .error err => .error (.wrap "could not unmarshal response body, %w" err)
            | .ok response => .ok response := by
  unfold Client.GetDnsRecordById
  rw [h]
  simp only
  split
  · exact ⟨rfl, rfl⟩
  · split <;> exact ⟨rfl, rfl⟩

/-- The operation `ModifyDnsRecord` once `withAuthentication` has produced a body: the local
error for a record without id and type, or else the status-checked dispatch to the path that
the id, or the type and name, select. -/
theorem ModifyDnsRecord_of_auth (rt : Runtime) (c : Client) (domain : String) (record : Record)
    (reqBody body : String) (hm : record.Marshal = .ok reqBody)
    (h : c.withAuthentication reqBody = .ok body) :
    (record.Id ≠ "" →
        c.ModifyDnsRecord rt domain record
          = statusResponseOf
              (c.do rt ("/api/json/v3/dns/edit/" ++ domain ++ "/" ++ record.Id) body)
              "err editing dns record %q %q %q %q, %w")
      ∧ (record.Id = "" → record.Type_ ≠ "" →
        c.ModifyDnsRecord rt domain record
          = statusResponseOf
              (c.do rt ("/api/json/v3/dns/editByNameType/" ++ domain ++ "/" ++ record.Type_
                ++ "/" ++ record.Name) body)
              "err editing dns record %q %q %q %q, %w")
      ∧ (record.Id = "" → record.Type_ = "" →
        c.ModifyDnsRecord rt domain record
          = ⟨[], .error (.text "record.Type must be set to modify this entry")⟩) := by
  unfold Client.ModifyDnsRecord
  rw [hm]
  simp only [h]
  refine ⟨?_, ?_, ?_⟩
  · intro hid
    simp only [hid, ne_eq, not_false_eq_true, if_true]
  · intro hid ht
    simp only [hid, ht, ne_eq, not_true_eq_false, if_false]
  · intro hid ht
    simp only [hid, ht, ne_eq, not_true_eq_false, if_false, if_true]

/-- The operation `DeleteDnsRecordById` once `withAuthentication` has produced a body. -/
theorem DeleteDnsRecordById_of_auth (rt : Runtime) (c : Client) (domain id body : String)
    (h : c.withAuthentication "" = .ok body) :
    c.DeleteDnsRecordById rt domain id
      = statusResponseOf (c.do rt ("/api/json/v3/dns/delete/" ++ domain ++ "/" ++ id) body)
          "err deleting dns record %q, %w" := by
  unfold Client.DeleteDnsRecordById
  rw [h]

/-- The operation `DeleteDnsRecordByLookup` once `withAuthentication` has produced a body. -/
theorem DeleteDnsRecordByLookup_of_auth (rt : Runtime) (c : Client)
    (domain subdomain recordType body : String) (h : c.withAuthentication "" = .ok body) :
    c.DeleteDnsRecordByLookup rt domain subdomain recordType
      = statusResponseOf
          (c.do rt ("/api/json/v3/dns/deleteByNameType/" ++ domain ++ "/" ++ recordType ++ "/"
            ++ subdomain) body)
          "err deleting dns record %q, %q, %w" := by
  unfold Client.DeleteDnsRecordByLookup
  rw [h]

end porkbun

/-! ### Errors of the decoder -/

namespace json

/-- An error of `Except.map` is the error of its argument. -/
theorem Except_map_error {α β : Type} (f : α → β) (x : Except Error α) (e : Error)
    (h : Except.map f x = .error e) : x = .error e := by
  cases x with
  | error e2 =>
    simp only [Except.map] at h
    cases h
    rfl
  | ok a => simp [Except.map] at h

/-- The error of storing into a `string` field holds no `ApiError`. -/
theorem storeString_error (v : Value) (old : String) (e : Error)
    (h : storeString v old = .error e) : errors.AsApiError e = none := by
  unfold storeString at h
  split at h <;> cases h
  rfl

/-- The error of storing into an `int` field holds no `ApiError`. -/
theorem storeInt_error (v : Value) (old : Int) (e : Error)
    (h : storeInt v old = .error e) : errors.AsApiError e = none := by
  cases v with
  | number n =>
    simp only [storeInt] at h
    split_ifs at h
    all_goals
      cases h
      rfl
  | null => cases h
  | bool b =>
    cases h
    rfl
  | string s =>
    cases h
    rfl
  | array elems =>
    cases h
    rfl
  | object members =>
    cases h
    rfl

/-- Storing the members of an object fails only with the error of a field, so with an error
that holds no `ApiError` when the errors of the fields hold none. -/
theorem storeMembers_error {α : Type} (store : α → String → Value → Except Error α)
    (hstore : ∀ a k v e, store a k v = .error e → errors.AsApiError e = none)
    (a : α) (ms : List (String × Value)) (e : Error)
    (h : storeMembers store a ms = .error e) : errors.AsApiError e = none := by
  induction ms generalizing a with
  | nil => cases h
  | cons m rest ih =>
    obtain ⟨k, v⟩ := m
    simp only [storeMembers] at h
    cases hs : store a k v with
    | error e2 =>
      rw [hs] at h
      cases h
      exact hstore a k v e hs
    | ok a2 =>
      rw [hs] at h
      exact ih a2 h

/-- Storing a value into a struct fails only with an error that holds no `ApiError`, when
the errors of the fields hold none. -/
theorem storeStruct_error {α : Type} (store : α → String → Value → Except Error α)
    (hstore : ∀ a k v e, store a k v = .error e → errors.AsApiError e = none)
    (v : Value) (old : α) (e : Error)
    (h : storeStruct store v old = .error e) : errors.AsApiError e = none := by
  unfold storeStruct at h
  split at h
  · exact storeMembers_error store hstore _ _ e h
  · cases h
  · cases h
    rfl

/-- An error of the decoder carries no `ApiError` when the errors of `store` carry none. -/
theorem Decode_error {α : Type} (body : String) (store : Value → Except Error α)
    (hstore : ∀ v e, store v = .error e → errors.AsApiError e = none) (e : Error)
    (h : Decode body store = .error e) : errors.AsApiError e = none := by
  unfold Decode at h
  split at h
  · cases h
    rfl
  · exact hstore _ e h

end json

namespace porkbun

/-- The errors of the fields of `StatusResponse` hold no `ApiError`. -/
theorem StatusResponse_store_error (r : StatusResponse) (k : String) (v : json.Value)
    (e : Error) (h : StatusResponse.store r k v = .error e) : errors.AsApiError e = none := by
  unfold StatusResponse.store at h
  split at h
  · exact json.storeString_error _ _ e (json.Except_map_error _ _ e h)
  · cases h

/-- The errors of the fields of `CreateDnsRecordResponse` hold no `ApiError`. -/
theorem CreateDnsRecordResponse_store_error (r : CreateDnsRecordResponse) (k : String)
    (v : json.Value) (e : Error) (h : CreateDnsRecordResponse.store r k v = .error e) :
    errors.AsApiError e = none := by
  unfold CreateDnsRecordResponse.store at h
  split at h
  · exact json.storeString_error _ _ e (json.Except_map_error _ _ e h)
  · exact json.storeInt_error _ _ e (json.Except_map_error _ _ e h)
  · cases h

/-- The errors of the fields of `PingResponse` hold no `ApiError`. -/
theorem PingResponse_store_error (r : PingResponse) (k : String) (v : json.Value)
    (e : Error) (h : PingResponse.store r k v = .error e) : errors.AsApiError e = none := by
  unfold PingResponse.store at h
  split at h
  · exact json.storeString_error _ _ e (json.Except_map_error _ _ e h)
  · exact json.storeString_error _ _ e (json.Except_map_error _ _ e h)
  · cases h

/-- The errors of the fields of `Record` hold no `ApiError`. -/
theorem Record_store_error (r : Record) (k : String) (v : json.Value)
    (e : Error) (h : Record.store r k v = .error e) : errors.AsApiError e = none := by
  unfold Record.store at h
  split at h
  · exact json.storeString_error _ _ e (json.Except_map_error _ _ e h)
  · exact json.storeString_error _ _ e (json.Except_map_error _ _ e h)
  · exact json.storeString_error _ _ e (json.Except_map_error _ _ e h)
  · exact json.storeString_error _ _ e (json.Except_map_error _ _ e h)
  · exact json.storeString_error _ _ e (json.Except_map_error _ _ e h)
  · exact json.storeString_error _ _ e (json.Except_map_error _ _ e h)
  · exact json.storeString_error _ _ e (json.Except_map_error _ _ e h)
  · cases h

/-- The error of storing an array into the `records` slice holds no `ApiError`. -/
theorem storeRecords_error (elems : List json.Value) (backing : List Record) (e : Error)
    (h : storeRecords elems backing = .error e) : errors.AsApiError e = none := by
  induction elems generalizing backing with
  | nil => cases h
  | cons v vs ih =>
    simp only [storeRecords] at h
    split at h
    · rename_i e2 hs
      cases h
      exact json.storeStruct_error Record.store Record_store_error _ _ e hs
    · exact ih _ (json.Except_map_error _ _ e h)

/-- The errors of the fields of `DnsRecordsResponse` hold no `ApiError`. -/
theorem DnsRecordsState_store_error (r : DnsRecordsState) (k : String) (v : json.Value)
    (e : Error) (h : DnsRecordsState.store r k v = .error e) : errors.AsApiError e = none := by
  unfold DnsRecordsState.store at h
  split at h
  · exact json.storeString_error _ _ e (json.Except_map_error _ _ e h)
  · split at h
    · cases h
    · exact storeRecords_error _ _ e (json.Except_map_error _ _ e h)
    · cases h
    · cases h
      rfl
  · cases h

/-- The error of decoding a `DnsRecordsResponse` holds no `ApiError`. -/
theorem decodeDnsRecordsResponse_error (v : json.Value) (e : Error)
    (h : decodeDnsRecordsResponse v = .error e) : errors.AsApiError e = none := by
  unfold decodeDnsRecordsResponse at h
  exact json.storeStruct_error DnsRecordsState.store DnsRecordsState_store_error _ _ e
    (json.Except_map_error _ _ e h)

/-- The status check on a status outside 200-299: the `ApiError` with the code and the body of
the response. -/
theorem apiErrorOf_outside (res : http.Response)
    (h : res.StatusCode < 200 ∨ res.StatusCode ≥ 300) :
    apiErrorOf res = some (.ApiError res.StatusCode res.Body) := by
  unfold apiErrorOf ioutil.ReadAll
  rw [if_pos h]

/-- The status check, as `statusChecked` states it, for a result that is the `ApiError` of
the response outside 200-299 and inside is a value or a wrapped error without `ApiError`. -/
theorem statusChecked_of_cases {α : Type} (result : Except Error α) (res : http.Response)
    (hout : res.StatusCode < 200 ∨ res.StatusCode ≥ 300 →
      result = .error (.ApiError res.StatusCode res.Body))
    (hin : 200 ≤ res.StatusCode → res.StatusCode < 300 →
      (∃ r, result = .ok r)
        ∨ ∃ format e, result = .error (.wrap format e) ∧ errors.AsApiError e = none) :
    statusChecked result res := by
  by_cases ho : res.StatusCode < 200 ∨ res.StatusCode ≥ 300
  · have h := hout ho
    refine ⟨⟨fun _ => ho, fun _ => ⟨_, _, h⟩⟩, ?_, ?_⟩
    · intro code body hc
      rw [h] at hc
      cases hc
      exact ⟨rfl, rfl⟩
    · intro hlo hhi
      omega
  · have hlo : 200 ≤ res.StatusCode := by omega
    have hhi : res.StatusCode < 300 := by omega
    have hno : ∀ code body, result ≠ .error (.ApiError code body) := by
      intro code body hc
      rcases hin hlo hhi with ⟨r, hr⟩ | ⟨format, e, hr, _⟩
      · rw [hr] at hc
        cases hc
      · rw [hr] at hc
        cases hc
    refine ⟨⟨fun ⟨code, body, hc⟩ => absurd hc (hno code body), fun h => absurd h ho⟩,
      fun code body hc => absurd hc (hno code body), ?_⟩
    intro _ _ err herr
    rcases hin hlo hhi with ⟨r, hr⟩ | ⟨format, e, hr, he⟩
    · rw [hr] at herr
      cases herr
    · rw [hr] at herr
      cases herr
      exact he

end porkbun

/-! ### The status check of the create, modify and delete operations -/

namespace porkbun

/-- The status check holds of the status-checking tail of an operation whose request the
transport answered. -/
theorem statusResponseOf_checked (rt : Runtime) (c : Client) (endpoint body format : String)
    (req : http.Request) (res : http.Response)
    (hsent : (statusResponseOf (c.do rt endpoint body) format).sent = [req])
    (hdo : c.client.Do req = .ok res) :
    statusChecked (statusResponseOf (c.do rt endpoint body) format).result res := by
  rw [statusResponseOf_sent] at hsent
  obtain ⟨_, _, hres⟩ := do_sent_inv rt c endpoint body req hsent
  rw [hdo] at hres
  have hr := statusResponseOf_result _ format res hres
  apply statusChecked_of_cases
  · intro ho
    rw [hr, apiErrorOf_outside res ho]
  · intro hlo hhi
    rw [hr, apiErrorOf_success res hlo hhi]
    simp only
    cases hd : json.Decode res.Body (fun v => json.storeStruct StatusResponse.store v ⟨""⟩) with
    | ok r => exact Or.inl ⟨r, rfl⟩
    | error e =>
      exact Or.inr ⟨_, e, rfl, json.Decode_error _ _
        (fun v e2 h2 => json.storeStruct_error _ StatusResponse_store_error v _ e2 h2) e hd⟩

/-- The status check holds of `CreateDnsRecord` once its request has been answered. -/
theorem CreateDnsRecord_checked (rt : Runtime) (c : Client) (domain : String) (params : Record)
    (req : http.Request) (res : http.Response)
    (hsent : (c.CreateDnsRecord rt domain params).sent = [req])
    (hdo : c.client.Do req = .ok res) :
    statusChecked (c.CreateDnsRecord rt domain params).result res := by
  obtain ⟨_, _, _, _, _, hres⟩ := CreateDnsRecord_sent rt c domain params req hsent
  have hr := hres res hdo
  apply statusChecked_of_cases
  · intro ho
    rw [hr, apiErrorOf_outside res ho]
  · intro hlo hhi
    rw [hr, apiErrorOf_success res hlo hhi]
    simp only
    cases hd : json.Decode res.Body
        (fun v => json.storeStruct CreateDnsRecordResponse.store v ⟨"", 0⟩) with
    | ok r => exact Or.inl ⟨r, rfl⟩
    | error e =>
      exact Or.inr ⟨_, e, rfl, json.Decode_error _ _
        (fun v e2 h2 => json.storeStruct_error _ CreateDnsRecordResponse_store_error v _ e2 h2)
        e hd⟩

/-- The status check holds of `ModifyDnsRecord` once its request has been answered. -/
theorem ModifyDnsRecord_checked (rt : Runtime) (c : Client) (domain : String) (record : Record)
    (req : http.Request) (res : http.Response)
    (hsent : (c.ModifyDnsRecord rt domain record).sent = [req])
    (hdo : c.client.Do req = .ok res) :
    statusChecked (c.ModifyDnsRecord rt domain record).result res := by
  obtain ⟨reqBody, hm⟩ : ∃ reqBody, record.Marshal = .ok reqBody := ⟨_, rfl⟩
  cases hauth : c.withAuthentication reqBody with
  | error e =>
    unfold Client.ModifyDnsRecord at hsent
    rw [hm] at hsent
    simp only [hauth] at hsent
    cases hsent
  | ok body =>
    obtain ⟨hid, hname, hlocal⟩ := ModifyDnsRecord_of_auth rt c domain record reqBody body hm hauth
    by_cases h1 : record.Id = ""
    · by_cases h2 : record.Type_ = ""
      · rw [hlocal h1 h2] at hsent
        cases hsent
      · rw [hname h1 h2] at hsent ⊢
        exact statusResponseOf_checked rt c _ body _ req res hsent hdo
    · rw [hid h1] at hsent ⊢
      exact statusResponseOf_checked rt c _ body _ req res hsent hdo

/-- The status check holds of `DeleteDnsRecordById` once its request has been answered. -/
theorem DeleteDnsRecordById_checked (rt : Runtime) (c : Client) (domain id : String)
    (req : http.Request) (res : http.Response)
    (hsent : (c.DeleteDnsRecordById rt domain id).sent = [req])
    (hdo : c.client.Do req = .ok res) :
    statusChecked (c.DeleteDnsRecordById rt domain id).result res := by
  cases hauth : c.withAuthentication "" with
  | error e =>
    unfold Client.DeleteDnsRecordById at hsent
    rw [hauth] at hsent
    cases hsent
  | ok body =>
    rw [DeleteDnsRecordById_of_auth rt c domain id body hauth] at hsent ⊢
    exact statusResponseOf_checked rt c _ body _ req res hsent hdo

/-- The status check holds of `DeleteDnsRecordByLookup` once its request has been answered. -/
theorem DeleteDnsRecordByLookup_checked (rt : Runtime) (c : Client)
    (domain subdomain recordType : String) (req : http.Request) (res : http.Response)
    (hsent : (c.DeleteDnsRecordByLookup rt domain subdomain recordType).sent = [req])
    (hdo : c.client.Do req = .ok res) :
    statusChecked (c.DeleteDnsRecordByLookup rt domain subdomain recordType).result res := by
  cases hauth : c.withAuthentication "" with
  | error e =>
    unfold Client.DeleteDnsRecordByLookup at hsent
    rw [hauth] at hsent
    cases hsent
  | ok body =>
    rw [DeleteDnsRecordByLookup_of_auth rt c domain subdomain recordType body hauth] at hsent ⊢
    exact statusResponseOf_checked rt c _ body _ req res hsent hdo

/-- C11: for `CreateDnsRecord`, `ModifyDnsRecord`, `DeleteDnsRecordById` and
`DeleteDnsRecordByLookup`, once the operation has handed its request to the transport and the
transport has returned a response with status code `c` and body `b`, the operation returns an
`ApiError` if and only if `c < 200` or `c >= 300`, that `ApiError` has `Code = c` and
`Body = b`, and for every code in 200-299, the boundaries included, the error of the
operation, if any, has no `ApiError` in its chain. -/
theorem ApiError_iff_status_outside (rt : Runtime) (c : Client)
    (domain subdomain recordType id : String) (params record : Record)
    (req : http.Request) (res : http.Response) (hdo : c.client.Do req = .ok res) :
    ((c.CreateDnsRecord rt domain params).sent = [req] →
        statusChecked (c.CreateDnsRecord rt domain params).result res)
      ∧ ((c.ModifyDnsRecord rt domain record).sent = [req] →
        statusChecked (c.ModifyDnsRecord rt domain record).result res)
      ∧ ((c.DeleteDnsRecordById rt domain id).sent = [req] →
        statusChecked (c.DeleteDnsRecordById rt domain id).result res)
      ∧ ((c.DeleteDnsRecordByLookup rt domain subdomain recordType).sent = [req] →
        statusChecked (c.DeleteDnsRecordByLookup rt domain subdomain recordType).result res) :=
  ⟨fun h => CreateDnsRecord_checked rt c domain params req res h hdo,
   fun h => ModifyDnsRecord_checked rt c domain record req res h hdo,
   fun h => DeleteDnsRecordById_checked rt c domain id req res h hdo,
   fun h => DeleteDnsRecordByLookup_checked rt c domain subdomain recordType req res h hdo⟩

end porkbun
namespace porkbun

/-- C11: stub servers that answer 199, 200, 299 and 300, at which the hypothesis of the theorem
holds: each operation has sent its request and the status check holds of its result. -/
theorem ApiError_iff_status_outside_witness :
    statusChecked ((testClient "apikey" "secretkey" 199 "early").DeleteDnsRecordById testRuntime
        "example.com" "1234").result ⟨199, "early"⟩
      ∧ statusChecked ((testClient "apikey" "secretkey" 200 "ok").DeleteDnsRecordByLookup
        testRuntime "example.com" "www" "A").result ⟨200, "ok"⟩
      ∧ statusChecked ((testClient "apikey" "secretkey" 299 "ok").ModifyDnsRecord testRuntime
        "example.com" ⟨"1234", "", "www", "A", "10.0.0.1", "600", ""⟩).result ⟨299, "ok"⟩
      ∧ statusChecked ((testClient "apikey" "secretkey" 300 "moved").CreateDnsRecord testRuntime
        "example.com" ⟨"", "", "www", "A", "10.0.0.1", "600", ""⟩).result ⟨300, "moved"⟩ :=
  ⟨(ApiError_iff_status_outside testRuntime (testClient "apikey" "secretkey" 199 "early")
      "example.com" "www" "A" "1234" ⟨"", "", "www", "A", "10.0.0.1", "600", ""⟩
      ⟨"1234", "", "www", "A", "10.0.0.1", "600", ""⟩
      ⟨"POST", "http://127.0.0.1:8080//api/json/v3/dns/delete/example.com/1234",
        "\x7b\"apikey\":\"apikey\",\"secretapikey\":\"secretkey\"\x7d"⟩
      ⟨199, "early"⟩ rfl).2.2.1 rfl,
   (ApiError_iff_status_outside testRuntime (testClient "apikey" "secretkey" 200 "ok")
      "example.com" "www" "A" "1234" ⟨"", "", "www", "A", "10.0.0.1", "600", ""⟩
      ⟨"1234", "", "www", "A", "10.0.0.1", "600", ""⟩
      ⟨"POST", "http://127.0.0.1:8080//api/json/v3/dns/deleteByNameType/example.com/A/www",
        "\x7b\"apikey\":\"apikey\",\"secretapikey\":\"secretkey\"\x7d"⟩
      ⟨200, "ok"⟩ rfl).2.2.2 rfl,
   (ApiError_iff_status_outside testRuntime (testClient "apikey" "secretkey" 299 "ok")
      "example.com" "www" "A" "1234" ⟨"", "", "www", "A", "10.0.0.1", "600", ""⟩
      ⟨"1234", "", "www", "A", "10.0.0.1", "600", ""⟩
      ⟨"POST", "http://127.0.0.1:8080//api/json/v3/dns/edit/example.com/1234",
        "\x7b\"apikey\":\"apikey\",\"content\":\"10.0.0.1\",\"id\":\"1234\",\"name\":\"www\",\"notes\":\"\",\"prio\":\"\",\"secretapikey\":\"secretkey\",\"ttl\":\"600\",\"type\":\"A\"\x7d"⟩
      ⟨299, "ok"⟩ rfl).2.1 rfl,
   (ApiError_iff_status_outside testRuntime (testClient "apikey" "secretkey" 300 "moved")
      "example.com" "www" "A" "1234" ⟨"", "", "www", "A", "10.0.0.1", "600", ""⟩
      ⟨"1234", "", "www", "A", "10.0.0.1", "600", ""⟩
      ⟨"POST", "http://127.0.0.1:8080//api/json/v3/dns/create/example.com",
        "\x7b\"apikey\":\"apikey\",\"content\":\"10.0.0.1\",\"id\":\"\",\"name\":\"www\",\"notes\":\"\",\"prio\":\"\",\"secretapikey\":\"secretkey\",\"ttl\":\"600\",\"type\":\"A\"\x7d"⟩
      ⟨300, "moved"⟩ rfl).1 rfl⟩

/-- The boundaries of the status check evaluated: 199 and 300 give the `ApiError` with the
code and the body of the response, 200 and 299 do not. -/
theorem status_boundaries :
    ((testClient "apikey" "secretkey" 199 "early").DeleteDnsRecordById testRuntime
        "example.com" "1234").result = .error (.ApiError 199 "early")
      ∧ ((testClient "apikey" "secretkey" 200 "\x7b\"status\":\"SUCCESS\"\x7d").DeleteDnsRecordByLookup
        testRuntime "example.com" "www" "A").result = .ok ⟨"SUCCESS"⟩
      ∧ ((testClient "apikey" "secretkey" 299 "\x7b\"status\":\"SUCCESS\"\x7d").ModifyDnsRecord
        testRuntime "example.com" ⟨"1234", "", "www", "A", "10.0.0.1", "600", ""⟩).result
          = .ok ⟨"SUCCESS"⟩
      ∧ ((testClient "apikey" "secretkey" 300 "moved").CreateDnsRecord testRuntime
        "example.com" ⟨"", "", "www", "A", "10.0.0.1", "600", ""⟩).result
          = .error (.ApiError 300 "moved") :=
  ⟨rfl, rfl, rfl, rfl⟩

end porkbun

/-! ### C12: the path of `ModifyDnsRecord` -/

namespace porkbun

/-- C12: for a client with both credentials set, a domain `d` and a record `r`, the record
marshals, `withAuthentication` gives a body, and the endpoint that `ModifyDnsRecord` hands to `do`
(with that body) is selected by the id: for a non-empty `r.Id`, whatever `r.Type` is, it is
"/api/json/v3/dns/edit/" + d + "/" + r.Id; for an empty `r.Id` and a non-empty `r.Type` it is
"/api/json/v3/dns/editByNameType/" + d + "/" + r.Type + "/" + r.Name, `r.Name` empty or not.  In
both cases every request sent is the POST of `do` for that endpoint, and it is sent when the URL
parses. -/
theorem ModifyDnsRecord_path (rt : Runtime) (c : Client) (d : String) (r : Record)
    (hk : c.apiKey ≠ "") (hs : c.secretKey ≠ "") :
    ∃ reqBody body, r.Marshal = .ok reqBody ∧ c.withAuthentication reqBody = .ok body
      ∧ (r.Id ≠ "" →
          c.ModifyDnsRecord rt d r
              = statusResponseOf (c.do rt ("/api/json/v3/dns/edit/" ++ d ++ "/" ++ r.Id) body)
                  "err editing dns record %q %q %q %q, %w"
            ∧ (∀ req ∈ (c.ModifyDnsRecord rt d r).sent,
                req = ⟨"POST", c.baseUrl ++ "/" ++ ("/api/json/v3/dns/edit/" ++ d ++ "/" ++ r.Id),
                  body⟩)
            ∧ (rt.urlError (c.baseUrl ++ "/" ++ ("/api/json/v3/dns/edit/" ++ d ++ "/" ++ r.Id))
                = none →
              (c.ModifyDnsRecord rt d r).sent
                = [⟨"POST", c.baseUrl ++ "/" ++ ("/api/json/v3/dns/edit/" ++ d ++ "/" ++ r.Id),
                    body⟩]))
      ∧ (r.Id = "" → r.Type_ ≠ "" →
          c.ModifyDnsRecord rt d r
              = statusResponseOf
                  (c.do rt ("/api/json/v3/dns/editByNameType/" ++ d ++ "/" ++ r.Type_ ++ "/"
                    ++ r.Name) body)
                  "err editing dns record %q %q %q %q, %w"
            ∧ (∀ req ∈ (c.ModifyDnsRecord rt d r).sent,
                req = ⟨"POST", c.baseUrl ++ "/" ++ ("/api/json/v3/dns/editByNameType/" ++ d ++ "/"
                  ++ r.Type_ ++ "/" ++ r.Name), body⟩)
            ∧ (rt.urlError (c.baseUrl ++ "/" ++ ("/api/json/v3/dns/editByNameType/" ++ d ++ "/"
                  ++ r.Type_ ++ "/" ++ r.Name)) = none →
              (c.ModifyDnsRecord rt d r).sent
                = [⟨"POST", c.baseUrl ++ "/" ++ ("/api/json/v3/dns/editByNameType/" ++ d ++ "/"
                    ++ r.Type_ ++ "/" ++ r.Name), body⟩])) := by
  obtain ⟨reqBody, body, hm, ha⟩ := withAuthentication_Record c r hk hs
  obtain ⟨hid, hlookup, _⟩ := ModifyDnsRecord_of_auth rt c d r reqBody body hm ha
  refine ⟨reqBody, body, hm, ha, ?_, ?_⟩
  · intro h
    refine ⟨hid h, ?_, ?_⟩
    · intro req hreq
      rw [hid h, statusResponseOf_sent] at hreq
      exact do_request rt c _ body req hreq
    · intro hu
      rw [hid h, statusResponseOf_sent]
      exact (do_accepted rt c _ body hu).1
  · intro h ht
    refine ⟨hlookup h ht, ?_, ?_⟩
    · intro req hreq
      rw [hlookup h ht, statusResponseOf_sent] at hreq
      exact do_request rt c _ body req hreq
    · intro hu
      rw [hlookup h ht, statusResponseOf_sent]
      exact (do_accepted rt c _ body hu).1

/-- C12: a client with both credentials set, at which the theorem gives the two paths: one
record with an id and no type, one with a type and neither id nor name. -/
theorem ModifyDnsRecord_path_witness :
    ((testClient "apikey" "secretkey" 200 "").ModifyDnsRecord testRuntime "example.com"
        ⟨"1234", "", "www", "", "10.0.0.1", "600", ""⟩).sent.map (fun req => req.URL)
        = ["http://127.0.0.1:8080//api/json/v3/dns/edit/example.com/1234"]
      ∧ ((testClient "apikey" "secretkey" 200 "").ModifyDnsRecord testRuntime "example.com"
        ⟨"", "", "", "A", "10.0.0.1", "600", ""⟩).sent.map (fun req => req.URL)
        = ["http://127.0.0.1:8080//api/json/v3/dns/editByNameType/example.com/A/"] := by
  obtain ⟨_, _, _, _, h1, _⟩ := ModifyDnsRecord_path testRuntime
    (testClient "apikey" "secretkey" 200 "") "example.com"
    ⟨"1234", "", "www", "", "10.0.0.1", "600", ""⟩ (by decide) (by decide)
  obtain ⟨_, _, _, _, _, h2⟩ := ModifyDnsRecord_path testRuntime
    (testClient "apikey" "secretkey" 200 "") "example.com"
    ⟨"", "", "", "A", "10.0.0.1", "600", ""⟩ (by decide) (by decide)
  constructor
  · rw [(h1 (by decide)).2.2 rfl]
    rfl
  · rw [(h2 rfl (by decide)).2.2 rfl]
    rfl

end porkbun

/-! ### C13: the path of `ListDnsRecords` -/

namespace porkbun

/-- Appending to the same string on the left is injective. -/
theorem String_append_left_cancel (a b c : String) (h : a ++ b = a ++ c) : b = c := by
  have h2 := congrArg String.data h
  simp only [String.data_append, List.append_cancel_left_eq] at h2
  exact String.ext h2

/-- The path that lists by name and type is never the path that lists all records: after the
common "/api/json/v3/dns/retrieve" the one goes on with "B", the other with "/". -/
theorem retrieve_paths_ne (d t sub d2 : String) :
    "/api/json/v3/dns/retrieveByNameType/" ++ d ++ "/" ++ t ++ "/" ++ sub
      ≠ "/api/json/v3/dns/retrieve/" ++ d2 := by
  intro h
  have h2 := congrArg String.data h
  simp only [String.data_append, List.append_assoc, List.cons_append, List.nil_append,
    List.cons.injEq, true_and] at h2
  exact absurd h2.1 (by decide)

/-- C13: for a client with both credentials set, a domain `d`, a subdomain `sub` and a record
type `t`, `withAuthentication` gives a body and `ListDnsRecords` hands to `do` (with that body)
the endpoint "/api/json/v3/dns/retrieveByNameType/" + d + "/" + t + "/" + sub when `t` is not
empty and "/api/json/v3/dns/retrieve/" + d when it is: every request sent is the POST of `do` for
that endpoint, sent when the URL parses, so a request goes to the first path exactly when `t` is
not empty and to the second exactly when `t` is empty; and with an empty `t` the outcome
(request and result) is the same for every subdomain. -/
theorem ListDnsRecords_path (rt : Runtime) (c : Client) (d sub t : String)
    (hk : c.apiKey ≠ "") (hs : c.secretKey ≠ "") :
    ∃ body, c.withAuthentication "" = .ok body
      ∧ (t ≠ "" →
          (c.ListDnsRecords rt d sub t).sent
            = (c.do rt ("/api/json/v3/dns/retrieveByNameType/" ++ d ++ "/" ++ t ++ "/" ++ sub)
                body).sent)
      ∧ (t = "" →
          (c.ListDnsRecords rt d sub t).sent
            = (c.do rt ("/api/json/v3/dns/retrieve/" ++ d) body).sent)
      ∧ (rt.urlError (c.baseUrl ++ "/" ++ (if t ≠ "" then
            "/api/json/v3/dns/retrieveByNameType/" ++ d ++ "/" ++ t ++ "/" ++ sub
          else "/api/json/v3/dns/retrieve/" ++ d)) = none →
          ∃ req, (c.ListDnsRecords rt d sub t).sent = [req])
      ∧ (∀ req ∈ (c.ListDnsRecords rt d sub t).sent,
          req.Method = "POST" ∧ req.Body = body
            ∧ (req.URL = c.baseUrl ++ "/" ++ ("/api/json/v3/dns/retrieveByNameType/" ++ d ++ "/"
                ++ t ++ "/" ++ sub) ↔ t ≠ "")
            ∧ (req.URL = c.baseUrl ++ "/" ++ ("/api/json/v3/dns/retrieve/" ++ d) ↔ t = ""))
      ∧ (t = "" → ∀ sub2, c.ListDnsRecords rt d sub2 t = c.ListDnsRecords rt d sub t) := by
  obtain ⟨body, ha⟩ := withAuthentication_nil c hk hs
  have hsent := (ListDnsRecords_of_auth rt c d sub t body ha).1
  refine ⟨body, ha, ?_, ?_, ?_, ?_, ?_⟩
  · intro ht
    rw [hsent, if_pos ht]
  · intro ht
    rw [hsent, if_neg (not_not.mpr ht)]
  · intro hu
    rw [hsent]
    exact ⟨_, (do_accepted rt c _ body hu).1⟩
  · intro req hreq
    rw [hsent] at hreq
    have hr := do_request rt c _ body req hreq
    by_cases ht : t = ""
    · rw [if_neg (not_not.mpr ht)] at hr
      subst hr
      refine ⟨rfl, rfl, ?_, ?_⟩
      · constructor
        · intro h
          exact absurd (String_append_left_cancel _ _ _ h).symm (retrieve_paths_ne d t sub d)
        · intro h
          exact absurd ht h
      · exact ⟨fun _ => ht, fun _ => rfl⟩
    · rw [if_pos ht] at hr
      subst hr
      refine ⟨rfl, rfl, ?_, ?_⟩
      · exact ⟨fun _ => ht, fun _ => rfl⟩
      · constructor
        · intro h
          exact absurd (String_append_left_cancel _ _ _ h) (retrieve_paths_ne d t sub d)
        · intro h
          exact absurd h ht
  · intro ht sub2
    unfold Client.ListDnsRecords
    rw [ha]
    simp only [ht, ne_eq, not_true_eq_false, if_false]

/-- C13: a client with both credentials set, at which the theorem gives the two paths: a list
by name and type, and two lists with an empty type, which go to the same URL whatever the
subdomain. -/
theorem ListDnsRecords_path_witness :
    ((testClient "apikey" "secretkey" 200 "").ListDnsRecords testRuntime "example.com" "www"
        "A").sent
        = [⟨"POST", "http://127.0.0.1:8080//api/json/v3/dns/retrieveByNameType/example.com/A/www",
            "\x7b\"apikey\":\"apikey\",\"secretapikey\":\"secretkey\"\x7d"⟩]
      ∧ ((testClient "apikey" "secretkey" 200 "").ListDnsRecords testRuntime "example.com" "www"
        "").sent
        = [⟨"POST", "http://127.0.0.1:8080//api/json/v3/dns/retrieve/example.com",
            "\x7b\"apikey\":\"apikey\",\"secretapikey\":\"secretkey\"\x7d"⟩]
      ∧ (testClient "apikey" "secretkey" 200 "").ListDnsRecords testRuntime "example.com" "www" ""
        = (testClient "apikey" "secretkey" 200 "").ListDnsRecords testRuntime "example.com" "" ""
      := by
  obtain ⟨body, ha, h1, _, _, _, _⟩ := ListDnsRecords_path testRuntime
    (testClient "apikey" "secretkey" 200 "") "example.com" "www" "A" (by decide) (by decide)
  obtain ⟨body2, ha2, _, h2, _, _, _⟩ := ListDnsRecords_path testRuntime
    (testClient "apikey" "secretkey" 200 "") "example.com" "www" "" (by decide) (by decide)
  obtain ⟨_, _, _, _, _, _, h3⟩ := ListDnsRecords_path testRuntime
    (testClient "apikey" "secretkey" 200 "") "example.com" "" "" (by decide) (by decide)
  cases ha
  cases ha2
  exact ⟨(h1 (by decide)).trans rfl, (h2 rfl).trans rfl, h3 rfl "www"⟩

end porkbun

/-! ### C14: the operations that do not look at the status -/

namespace porkbun

/-- The requests and the result of `Ping` once `withAuthentication` has produced a body, the
result for each of the two outcomes of the decoder. -/
theorem Ping_decoded (rt : Runtime) (c : Client) (body : String)
    (h : c.withAuthentication "" = .ok body) :
    (c.Ping rt).sent = (c.do rt "/api/json/v3/ping" body).sent
      ∧ (∀ res r, (c.do rt "/api/json/v3/ping" body).result = .ok res →
          json.Decode res.Body (fun v => json.storeStruct PingResponse.store v ⟨"", ""⟩) = .ok r →
          (c.Ping rt).result = .ok r)
      ∧ (∀ res e, (c.do rt "/api/json/v3/ping" body).result = .ok res →
          json.Decode res.Body (fun v => json.storeStruct PingResponse.store v ⟨"", ""⟩)
            = .error e →
          (c.Ping rt).result = .error (.wrap "could not unmarshal response body, %w" e))
      ∧ (∀ code text, (c.Ping rt).result ≠ .error (.ApiError code text)) := by
  obtain ⟨hs, hr⟩ := Ping_of_auth rt c body h
  refine ⟨hs, ?_, ?_, ?_⟩
  · intro res r hres hd
    rw [hr, hres]
    simp only
    rw [hd]
  · intro res e hres hd
    rw [hr, hres]
    simp only
    rw [hd]
  · intro code text
    rw [hr]
    split
    · intro h2
      cases h2
    · split
      · intro h2
        cases h2
      · intro h2
        cases h2

/-- The requests and the result of `ListDnsRecords` once `withAuthentication` has produced a
body, the result for each of the two outcomes of the decoder. -/
theorem ListDnsRecords_decoded (rt : Runtime) (c : Client) (domain subdomain recordType : String)
    (body : String) (h : c.withAuthentication "" = .ok body) :
      (c.ListDnsRecords rt domain subdomain recordType).sent = (c.do rt (if recordType ≠ "" then
        "/api/json/v3/dns/retrieveByNameType/" ++ domain ++ "/" ++ recordType ++ "/" ++ subdomain
      else "/api/json/v3/dns/retrieve/" ++ domain) body).sent
      ∧ (∀ res r, (c.do rt (if recordType ≠ "" then
        "/api/json/v3/dns/retrieveByNameType/" ++ domain ++ "/" ++ recordType ++ "/" ++ subdomain
      else "/api/json/v3/dns/retrieve/" ++ domain) body).result = .ok res →
          json.Decode res.Body decodeDnsRecordsResponse = .ok r →
          (c.ListDnsRecords rt domain subdomain recordType).result = .ok r)
      ∧ (∀ res e, (c.do rt (if recordType ≠ "" then
        "/api/json/v3/dns/retrieveByNameType/" ++ domain ++ "/" ++ recordType ++ "/" ++ subdomain
      else "/api/json/v3/dns/retrieve/" ++ domain) body).result = .ok res →
          json.Decode res.Body decodeDnsRecordsResponse = .error e →
          (c.ListDnsRecords rt domain subdomain recordType).result
            = .error (.wrap "could not unmarshal response body, %w" e))
      ∧ (∀ code text, (c.ListDnsRecords rt domain subdomain recordType).result
          ≠ .error (.ApiError code text)) := by
  obtain ⟨hs, hr⟩ := ListDnsRecords_of_auth rt c domain subdomain recordType body h
  refine ⟨hs, ?_, ?_, ?_⟩
  · intro res r hres hd
    rw [hr, hres]
    simp only
    rw [hd]
  · intro res e hres hd
    rw [hr, hres]
    simp only
    rw [hd]
  · intro code text
    rw [hr]
    split
    · intro h2
      cases h2
    · split
      · intro h2
        cases h2
      · intro h2
        cases h2

/-- The requests and the result of `GetDnsRecordById` once `withAuthentication` has produced a
body, the result for each of the two outcomes of the decoder. -/
theorem GetDnsRecordById_decoded (rt : Runtime) (c : Client) (domain : String) (id : Int)
    (body : String) (h : c.withAuthentication "" = .ok body) :
      (c.GetDnsRecordById rt domain id).sent = (c.do rt ("/api/json/v3/dns/retrieve/" ++ domain ++ "/" ++ toString id) body).sent
      ∧ (∀ res r, (c.do rt ("/api/json/v3/dns/retrieve/" ++ domain ++ "/" ++ toString id) body).result = .ok res →
          json.Decode res.Body decodeDnsRecordsResponse = .ok r →
          (c.GetDnsRecordById rt domain id).result = .ok r)
      ∧ (∀ res e, (c.do rt ("/api/json/v3/dns/retrieve/" ++ domain ++ "/" ++ toString id) body).result = .ok res →
          json.Decode res.Body decodeDnsRecordsResponse = .error e →
          (c.GetDnsRecordById rt domain id).result
            = .error (.wrap "could not unmarshal response body, %w" e))
      ∧ (∀ code text, (c.GetDnsRecordById rt domain id).result
          ≠ .error (.ApiError code text)) := by
  obtain ⟨hs, hr⟩ := GetDnsRecordById_of_auth rt c domain id body h
  refine ⟨hs, ?_, ?_, ?_⟩
  · intro res r hres hd
    rw [hr, hres]
    simp only
    rw [hd]
  · intro res e hres hd
    rw [hr, hres]
    simp only
    rw [hd]
  · intro code text
    rw [hr]
    split
    · intro h2
      cases h2
    · split
      · intro h2
        cases h2
      · intro h2
        cases h2

/-- The output of `withAuthentication` depends on the two keys of the client only. -/
theorem withAuthentication_transport (apiKey secretKey baseUrl : String) (t1 t2 : HttpClient)
    (body : String) :
    (Client.mk apiKey secretKey baseUrl t1).withAuthentication body
      = (Client.mk apiKey secretKey baseUrl t2).withAuthentication body := by
  rfl

/-- An operation that sends what `do` sends and returns what the decoder makes of the body of
the response ignores the status: against two transports that answer the request with the same
body it sends the same request and returns the same result. -/
theorem statusIgnored_of_decoded {α : Type} (rt : Runtime) (c1 c2 : Client)
    (hbase : c1.baseUrl = c2.baseUrl) (endpoint body : String) (o1 o2 : Outcome α)
    (store : json.Value → Except Error α) (req : http.Request) (res1 res2 : http.Response)
    (hdo1 : c1.client.Do req = .ok res1) (hdo2 : c2.client.Do req = .ok res2)
    (hbody : res1.Body = res2.Body)
    (hstore : ∀ v e, store v = .error e → errors.AsApiError e = none)
    (hs1 : o1.sent = (c1.do rt endpoint body).sent)
    (hok1 : ∀ res r, (c1.do rt endpoint body).result = .ok res →
      json.Decode res.Body store = .ok r → o1.result = .ok r)
    (herr1 : ∀ res e, (c1.do rt endpoint body).result = .ok res →
      json.Decode res.Body store = .error e →
      o1.result = .error (.wrap "could not unmarshal response body, %w" e))
    (hs2 : o2.sent = (c2.do rt endpoint body).sent)
    (hok2 : ∀ res r, (c2.do rt endpoint body).result = .ok res →
      json.Decode res.Body store = .ok r → o2.result = .ok r)
    (herr2 : ∀ res e, (c2.do rt endpoint body).result = .ok res →
      json.Decode res.Body store = .error e →
      o2.result = .error (.wrap "could not unmarshal response body, %w" e)) :
    statusIgnored o1 o2 req (json.Decode res1.Body store) := by
  intro hsent
  rw [hs1] at hsent
  obtain ⟨hu, hreq, hres1⟩ := do_sent_inv rt c1 endpoint body req hsent
  rw [hdo1] at hres1
  rw [hbase] at hu hreq
  obtain ⟨hsent2, hres2⟩ := do_accepted rt c2 endpoint body hu
  rw [← hreq] at hsent2 hres2
  rw [hdo2] at hres2
  refine ⟨hs2.trans hsent2, ?_, ?_, ?_, ?_⟩
  · cases hd : json.Decode res1.Body store with
    | ok r =>
      rw [hok1 res1 r hres1 hd, hok2 res2 r hres2 (hbody ▸ hd)]
    | error e =>
      rw [herr1 res1 e hres1 hd, herr2 res2 e hres2 (hbody ▸ hd)]
  · intro r hd
    exact hok1 res1 r hres1 hd
  · intro e hd
    exact herr1 res1 e hres1 hd
  · intro err herr
    cases hd : json.Decode res1.Body store with
    | ok r =>
      rw [hok1 res1 r hres1 hd] at herr
      cases herr
    | error e =>
      rw [herr1 res1 e hres1 hd] at herr
      cases herr
      exact json.Decode_error _ _ hstore e hd

/-- An error of `withAuthentication` on the empty payload is a `MissingAccessKeyError`, which
holds no `ApiError`. -/
theorem withAuthentication_nil_error (c : Client) (e : Error)
    (h : c.withAuthentication "" = .error e) : errors.AsApiError e = none := by
  by_cases hk : c.apiKey = ""
  · rw [(withAuthentication_missing c "").1 hk] at h
    cases h
    rfl
  · by_cases hs : c.secretKey = ""
    · rw [(withAuthentication_missing c "").2 hk hs] at h
      cases h
      rfl
    · obtain ⟨body, hb⟩ := withAuthentication_nil c hk hs
      rw [hb] at h
      cases h

/-- An `ApiError` in the chain of an error of `do` is in the chain of the error with which the
URL was rejected or of the error that the transport returned. -/
theorem do_error_chain (rt : Runtime) (c : Client) (endpoint body : String) (err : Error)
    (x : Int × String) (h : (c.do rt endpoint body).result = .error err)
    (hx : errors.AsApiError err = some x) :
    ∃ e, errors.AsApiError e = some x
      ∧ ((∃ url, rt.urlError url = some e) ∨ (∃ r, c.client.Do r = .error e)) := by
  unfold Client.do http.NewRequest at h
  cases hu : rt.urlError (c.baseUrl ++ "/" ++ endpoint) with
  | some e =>
    rw [hu] at h
    have h2 : Except.error (Error.wrap "err creating new request, %w" e)
        = (Except.error err : Except Error http.Response) := h
    cases h2
    exact ⟨e, hx, Or.inl ⟨_, hu⟩⟩
  | none =>
    rw [hu] at h
    exact ⟨err, hx, Or.inr ⟨_, h⟩⟩

/-- The result of `Ping` when `do` fails: the error of `do`, wrapped. -/
theorem Ping_do_error (rt : Runtime) (c : Client) (body : String)
    (h : c.withAuthentication "" = .ok body) (e : Error)
    (hd : (c.do rt "/api/json/v3/ping" body).result = .error e) :
    ∃ format, (c.Ping rt).result = .error (.wrap format e) := by
  rw [(Ping_of_auth rt c body h).2, hd]
  exact ⟨_, rfl⟩

/-- The result of `ListDnsRecords` when `do` fails: the error of `do`, wrapped. -/
theorem ListDnsRecords_do_error (rt : Runtime) (c : Client)
    (domain subdomain recordType : String) (body : String)
    (h : c.withAuthentication "" = .ok body) (e : Error)
    (hd : (c.do rt (if recordType ≠ "" then
        "/api/json/v3/dns/retrieveByNameType/" ++ domain ++ "/" ++ recordType ++ "/" ++ subdomain
      else "/api/json/v3/dns/retrieve/" ++ domain) body).result = .error e) :
    ∃ format, (c.ListDnsRecords rt domain subdomain recordType).result
      = .error (.wrap format e) := by
  rw [(ListDnsRecords_of_auth rt c domain subdomain recordType body h).2, hd]
  exact ⟨_, rfl⟩

/-- The result of `GetDnsRecordById` when `do` fails: the error of `do`, wrapped. -/
theorem GetDnsRecordById_do_error (rt : Runtime) (c : Client) (domain : String) (id : Int)
    (body : String) (h : c.withAuthentication "" = .ok body) (e : Error)
    (hd : (c.do rt ("/api/json/v3/dns/retrieve/" ++ domain ++ "/" ++ toString id) body).result = .error e) :
    ∃ format, (c.GetDnsRecordById rt domain id).result = .error (.wrap format e) := by
  rw [(GetDnsRecordById_of_auth rt c domain id body h).2, hd]
  exact ⟨_, rfl⟩

/-- An `ApiError` in the chain of the error of an operation that wraps the error of `do` and
otherwise returns what the decoder makes of the body is one that the URL parser or the
transport returned. -/
theorem error_chain_of_decoded {α : Type} (rt : Runtime) (c : Client) (endpoint body : String)
    (o : Outcome α) (store : json.Value → Except Error α)
    (hstore : ∀ v e, store v = .error e → errors.AsApiError e = none)
    (hok : ∀ res r, (c.do rt endpoint body).result = .ok res →
      json.Decode res.Body store = .ok r → o.result = .ok r)
    (herr : ∀ res e, (c.do rt endpoint body).result = .ok res →
      json.Decode res.Body store = .error e →
      o.result = .error (.wrap "could not unmarshal response body, %w" e))
    (hdo : ∀ e, (c.do rt endpoint body).result = .error e →
      ∃ format, o.result = .error (.wrap format e))
    (err : Error) (x : Int × String) (h : o.result = .error err)
    (hx : errors.AsApiError err = some x) :
    ∃ e, errors.AsApiError e = some x
      ∧ ((∃ url, rt.urlError url = some e) ∨ (∃ r, c.client.Do r = .error e)) := by
  cases hd : (c.do rt endpoint body).result with
  | error e =>
    obtain ⟨format, hr⟩ := hdo e hd
    rw [hr] at h
    cases h
    exact do_error_chain rt c endpoint body e x hd hx
  | ok res =>
    cases hdec : json.Decode res.Body store with
    | ok r =>
      rw [hok res r hd hdec] at h
      cases h
    | error e =>
      rw [herr res e hd hdec] at h
      cases h
      have hnone : errors.AsApiError e = none := json.Decode_error _ _ hstore e hdec
      have hx2 : errors.AsApiError e = some x := hx
      rw [hnone] at hx2
      cases hx2

/-- An error of an operation that stopped at `withAuthentication` holds no `ApiError`. -/
theorem authentication_error_chain (c : Client) (e err : Error) (x : Int × String)
    (ha : c.withAuthentication "" = .error e)
    (h : err = .wrap "err adding authentication, %w" e)
    (hx : errors.AsApiError err = some x) : False := by
  subst h
  have hnone : errors.AsApiError e = none := withAuthentication_nil_error c e ha
  have hx2 : errors.AsApiError e = some x := hx
  rw [hnone] at hx2
  cases hx2

/-- C14: the result of `Ping`, `ListDnsRecords` and `GetDnsRecordById` does not depend on the
status code of the response.  With both credentials set and a URL that parses, each of the
three sends its one request, the POST of the body of `withAuthentication` to its path.  For two
transports that answer the request of the operation with responses of the same body, whatever
their status codes, the operation sends the same request and returns the same result: the
typed response that the decoder makes of the body when it makes one, and otherwise the
decoder's error wrapped as "could not unmarshal response body", with no `ApiError` in its
chain.  And whatever the client and the transport do, none of the three returns an
`ApiError`: the error returned is never one, and an `ApiError` in its chain is in the chain of
an error that the URL parser or the transport itself returned. -/
theorem read_operations_ignore_status (rt : Runtime) (apiKey secretKey baseUrl : String)
    (t1 t2 : HttpClient) (domain subdomain recordType : String) (id : Int)
    (req : http.Request) (res1 res2 : http.Response)
    (h1 : t1.Do req = .ok res1) (h2 : t2.Do req = .ok res2) (hbody : res1.Body = res2.Body) :
    statusIgnored ((Client.mk apiKey secretKey baseUrl t1).Ping rt)
        ((Client.mk apiKey secretKey baseUrl t2).Ping rt) req
        (json.Decode res1.Body (fun v => json.storeStruct PingResponse.store v ⟨"", ""⟩))
      ∧ statusIgnored
        ((Client.mk apiKey secretKey baseUrl t1).ListDnsRecords rt domain subdomain recordType)
        ((Client.mk apiKey secretKey baseUrl t2).ListDnsRecords rt domain subdomain recordType)
        req (json.Decode res1.Body decodeDnsRecordsResponse)
      ∧ statusIgnored ((Client.mk apiKey secretKey baseUrl t1).GetDnsRecordById rt domain id)
        ((Client.mk apiKey secretKey baseUrl t2).GetDnsRecordById rt domain id) req
        (json.Decode res1.Body decodeDnsRecordsResponse)
      ∧ (∀ (c : Client) (code : Int) (text : String),
          (c.Ping rt).result ≠ .error (.ApiError code text)
            ∧ (c.ListDnsRecords rt domain subdomain recordType).result
              ≠ .error (.ApiError code text)
            ∧ (c.GetDnsRecordById rt domain id).result ≠ .error (.ApiError code text))
      ∧ (apiKey ≠ "" → secretKey ≠ "" →
          ∃ body, (Client.mk apiKey secretKey baseUrl t1).withAuthentication "" = .ok body
            ∧ (rt.urlError (baseUrl ++ "/" ++ "/api/json/v3/ping") = none →
              ((Client.mk apiKey secretKey baseUrl t1).Ping rt).sent
                = [⟨"POST", baseUrl ++ "/" ++ "/api/json/v3/ping", body⟩])
            ∧ (rt.urlError (baseUrl ++ "/" ++ (if recordType ≠ "" then
              "/api/json/v3/dns/retrieveByNameType/" ++ domain ++ "/" ++ recordType ++ "/"
                ++ subdomain
            else "/api/json/v3/dns/retrieve/" ++ domain)) = none →
              ((Client.mk apiKey secretKey baseUrl t1).ListDnsRecords rt domain subdomain
                  recordType).sent
                = [⟨"POST", baseUrl ++ "/" ++ (if recordType ≠ "" then
              "/api/json/v3/dns/retrieveByNameType/" ++ domain ++ "/" ++ recordType ++ "/"
                ++ subdomain
            else "/api/json/v3/dns/retrieve/" ++ domain), body⟩])
            ∧ (rt.urlError (baseUrl ++ "/" ++ ("/api/json/v3/dns/retrieve/" ++ domain ++ "/" ++ toString id)) = none →
              ((Client.mk apiKey secretKey baseUrl t1).GetDnsRecordById rt domain id).sent
                = [⟨"POST", baseUrl ++ "/" ++ ("/api/json/v3/dns/retrieve/" ++ domain ++ "/" ++ toString id), body⟩]))
      ∧ (∀ (c : Client) (err : Error) (x : Int × String),
          ((c.Ping rt).result = .error err
            ∨ (c.ListDnsRecords rt domain subdomain recordType).result = .error err
            ∨ (c.GetDnsRecordById rt domain id).result = .error err) →
          errors.AsApiError err = some x →
          ∃ e, errors.AsApiError e = some x
            ∧ ((∃ url, rt.urlError url = some e) ∨ (∃ r, c.client.Do r = .error e))) := by
  have hauth := withAuthentication_transport apiKey secretKey baseUrl t1 t2 ""
  refine ⟨?_, ?_, ?_, ?_, ?_, ?_⟩
  · cases ha : (Client.mk apiKey secretKey baseUrl t1).withAuthentication "" with
    | error e =>
      intro hsent
      unfold Client.Ping at hsent
      rw [ha] at hsent
      cases hsent
    | ok body =>
      obtain ⟨hs1, hok1, herr1, _⟩ := Ping_decoded rt _ body ha
      obtain ⟨hs2, hok2, herr2, _⟩ := Ping_decoded rt _ body (hauth ▸ ha)
      exact statusIgnored_of_decoded rt (Client.mk apiKey secretKey baseUrl t1)
        (Client.mk apiKey secretKey baseUrl t2) rfl _ body _ _ _ req res1 res2 h1 h2 hbody
        (fun v e hv => json.storeStruct_error _ PingResponse_store_error v _ e hv)
        hs1 hok1 herr1 hs2 hok2 herr2
  · cases ha : (Client.mk apiKey secretKey baseUrl t1).withAuthentication "" with
    | error e =>
      intro hsent
      unfold Client.ListDnsRecords at hsent
      rw [ha] at hsent
      cases hsent
    | ok body =>
      obtain ⟨hs1, hok1, herr1, _⟩ :=
        ListDnsRecords_decoded rt _ domain subdomain recordType body ha
      obtain ⟨hs2, hok2, herr2, _⟩ :=
        ListDnsRecords_decoded rt _ domain subdomain recordType body (hauth ▸ ha)
      exact statusIgnored_of_decoded rt (Client.mk apiKey secretKey baseUrl t1)
        (Client.mk apiKey secretKey baseUrl t2) rfl _ body _ _ _ req res1 res2 h1 h2 hbody
        decodeDnsRecordsResponse_error hs1 hok1 herr1 hs2 hok2 herr2
  · cases ha : (Client.mk apiKey secretKey baseUrl t1).withAuthentication "" with
    | error e =>
      intro hsent
      unfold Client.GetDnsRecordById at hsent
      rw [ha] at hsent
      cases hsent
    | ok body =>
      obtain ⟨hs1, hok1, herr1, _⟩ := GetDnsRecordById_decoded rt _ domain id body ha
      obtain ⟨hs2, hok2, herr2, _⟩ := GetDnsRecordById_decoded rt _ domain id body (hauth ▸ ha)
      exact statusIgnored_of_decoded rt (Client.mk apiKey secretKey baseUrl t1)
        (Client.mk apiKey secretKey baseUrl t2) rfl _ body _ _ _ req res1 res2 h1 h2 hbody
        decodeDnsRecordsResponse_error hs1 hok1 herr1 hs2 hok2 herr2
  · intro c code text
    refine ⟨?_, ?_, ?_⟩
    · cases ha : c.withAuthentication "" with
      | error e =>
        unfold Client.Ping
        rw [ha]
        intro h
        cases h
      | ok body => exact (Ping_decoded rt c body ha).2.2.2 code text
    · cases ha : c.withAuthentication "" with
      | error e =>
        unfold Client.ListDnsRecords
        rw [ha]
        intro h
        cases h
      | ok body =>
        exact (ListDnsRecords_decoded rt c domain subdomain recordType body ha).2.2.2 code text
    · cases ha : c.withAuthentication "" with
      | error e =>
        unfold Client.GetDnsRecordById
        rw [ha]
        intro h
        cases h
      | ok body => exact (GetDnsRecordById_decoded rt c domain id body ha).2.2.2 code text
  · intro hk hs
    obtain ⟨body, ha⟩ :=
      withAuthentication_nil (Client.mk apiKey secretKey baseUrl t1) hk hs
    refine ⟨body, ha, ?_, ?_, ?_⟩
    · intro hu
      rw [(Ping_decoded rt _ body ha).1]
      exact (do_accepted rt (Client.mk apiKey secretKey baseUrl t1) _ body hu).1
    · intro hu
      rw [(ListDnsRecords_decoded rt _ domain subdomain recordType body ha).1]
      exact (do_accepted rt (Client.mk apiKey secretKey baseUrl t1) _ body hu).1
    · intro hu
      rw [(GetDnsRecordById_decoded rt _ domain id body ha).1]
      exact (do_accepted rt (Client.mk apiKey secretKey baseUrl t1) _ body hu).1
  · intro c err x h hx
    cases ha : c.withAuthentication "" with
    | error e =>
      exfalso
      rcases h with h | h | h
      · unfold Client.Ping at h
        rw [ha] at h
        exact authentication_error_chain c e err x ha (Except.error.inj h).symm hx
      · unfold Client.ListDnsRecords at h
        rw [ha] at h
        exact authentication_error_chain c e err x ha (Except.error.inj h).symm hx
      · unfold Client.GetDnsRecordById at h
        rw [ha] at h
        exact authentication_error_chain c e err x ha (Except.error.inj h).symm hx
    | ok body =>
      rcases h with h | h | h
      · obtain ⟨_, hok, herr, _⟩ := Ping_decoded rt c body ha
        exact error_chain_of_decoded rt c _ body _ _
          (fun v e hv => json.storeStruct_error _ PingResponse_store_error v _ e hv)
          hok herr (Ping_do_error rt c body ha) err x h hx
      · obtain ⟨_, hok, herr, _⟩ :=
          ListDnsRecords_decoded rt c domain subdomain recordType body ha
        exact error_chain_of_decoded rt c _ body _ _ decodeDnsRecordsResponse_error
          hok herr (ListDnsRecords_do_error rt c domain subdomain recordType body ha) err x h hx
      · obtain ⟨_, hok, herr, _⟩ := GetDnsRecordById_decoded rt c domain id body ha
        exact error_chain_of_decoded rt c _ body _ _ decodeDnsRecordsResponse_error
          hok herr (GetDnsRecordById_do_error rt c domain id body ha) err x h hx

set_option maxRecDepth 8000 in
/-- C14: two stub servers that answer 200 and 401 with the same body, at which the hypotheses
of the theorem hold: against both, each of `Ping`, `ListDnsRecords` and `GetDnsRecordById`
sends its one request and returns the response decoded from the body, for the record
operations a list of one record. -/
theorem read_operations_ignore_status_witness :
    (((testClient "apikey" "secretkey" 200
          "\x7b\"status\":\"SUCCESS\",\"yourIp\":\"127.0.0.1\"\x7d").Ping
            testRuntime).sent
          = [⟨"POST", "http://127.0.0.1:8080//api/json/v3/ping",
              "\x7b\"apikey\":\"apikey\",\"secretapikey\":\"secretkey\"\x7d"⟩]
        ∧ ((testClient "apikey" "secretkey" 401
          "\x7b\"status\":\"SUCCESS\",\"yourIp\":\"127.0.0.1\"\x7d").Ping
            testRuntime).sent
          = [⟨"POST", "http://127.0.0.1:8080//api/json/v3/ping",
              "\x7b\"apikey\":\"apikey\",\"secretapikey\":\"secretkey\"\x7d"⟩]
        ∧ ((testClient "apikey" "secretkey" 401
          "\x7b\"status\":\"SUCCESS\",\"yourIp\":\"127.0.0.1\"\x7d").Ping
            testRuntime).result
          = ((testClient "apikey" "secretkey" 200
          "\x7b\"status\":\"SUCCESS\",\"yourIp\":\"127.0.0.1\"\x7d").Ping
            testRuntime).result
        ∧ ((testClient "apikey" "secretkey" 200
          "\x7b\"status\":\"SUCCESS\",\"yourIp\":\"127.0.0.1\"\x7d").Ping
            testRuntime).result
          = .ok ⟨"SUCCESS", "127.0.0.1"⟩)
      ∧ (((testClient "apikey" "secretkey" 200
          "\x7b\"status\":\"SUCCESS\",\"records\":[\x7b\"id\":\"1\",\"name\":\"www.example.com\",\"type\":\"A\",\"content\":\"10.0.0.1\",\"ttl\":\"600\",\"prio\":\"0\",\"notes\":\"\"\x7d]\x7d").ListDnsRecords
            testRuntime "example.com" "" "").sent
          = [⟨"POST", "http://127.0.0.1:8080//api/json/v3/dns/retrieve/example.com",
              "\x7b\"apikey\":\"apikey\",\"secretapikey\":\"secretkey\"\x7d"⟩]
        ∧ ((testClient "apikey" "secretkey" 401
          "\x7b\"status\":\"SUCCESS\",\"records\":[\x7b\"id\":\"1\",\"name\":\"www.example.com\",\"type\":\"A\",\"content\":\"10.0.0.1\",\"ttl\":\"600\",\"prio\":\"0\",\"notes\":\"\"\x7d]\x7d").ListDnsRecords
            testRuntime "example.com" "" "").sent
          = [⟨"POST", "http://127.0.0.1:8080//api/json/v3/dns/retrieve/example.com",
              "\x7b\"apikey\":\"apikey\",\"secretapikey\":\"secretkey\"\x7d"⟩]
        ∧ ((testClient "apikey" "secretkey" 401
          "\x7b\"status\":\"SUCCESS\",\"records\":[\x7b\"id\":\"1\",\"name\":\"www.example.com\",\"type\":\"A\",\"content\":\"10.0.0.1\",\"ttl\":\"600\",\"prio\":\"0\",\"notes\":\"\"\x7d]\x7d").ListDnsRecords
            testRuntime "example.com" "" "").result
          = ((testClient "apikey" "secretkey" 200
          "\x7b\"status\":\"SUCCESS\",\"records\":[\x7b\"id\":\"1\",\"name\":\"www.example.com\",\"type\":\"A\",\"content\":\"10.0.0.1\",\"ttl\":\"600\",\"prio\":\"0\",\"notes\":\"\"\x7d]\x7d").ListDnsRecords
            testRuntime "example.com" "" "").result
        ∧ ((testClient "apikey" "secretkey" 200
          "\x7b\"status\":\"SUCCESS\",\"records\":[\x7b\"id\":\"1\",\"name\":\"www.example.com\",\"type\":\"A\",\"content\":\"10.0.0.1\",\"ttl\":\"600\",\"prio\":\"0\",\"notes\":\"\"\x7d]\x7d").ListDnsRecords
            testRuntime "example.com" "" "").result
          = .ok ⟨"SUCCESS", [⟨"1", "", "www.example.com", "A", "10.0.0.1", "600", "0"⟩]⟩)
      ∧ (((testClient "apikey" "secretkey" 200
          "\x7b\"status\":\"SUCCESS\",\"records\":[\x7b\"id\":\"1\",\"name\":\"www.example.com\",\"type\":\"A\",\"content\":\"10.0.0.1\",\"ttl\":\"600\",\"prio\":\"0\",\"notes\":\"\"\x7d]\x7d").GetDnsRecordById
            testRuntime "example.com" 1234).sent
          = [⟨"POST", "http://127.0.0.1:8080//api/json/v3/dns/retrieve/example.com/1234",
              "\x7b\"apikey\":\"apikey\",\"secretapikey\":\"secretkey\"\x7d"⟩]
        ∧ ((testClient "apikey" "secretkey" 401
          "\x7b\"status\":\"SUCCESS\",\"records\":[\x7b\"id\":\"1\",\"name\":\"www.example.com\",\"type\":\"A\",\"content\":\"10.0.0.1\",\"ttl\":\"600\",\"prio\":\"0\",\"notes\":\"\"\x7d]\x7d").GetDnsRecordById
            testRuntime "example.com" 1234).sent
          = [⟨"POST", "http://127.0.0.1:8080//api/json/v3/dns/retrieve/example.com/1234",
              "\x7b\"apikey\":\"apikey\",\"secretapikey\":\"secretkey\"\x7d"⟩]
        ∧ ((testClient "apikey" "secretkey" 401
          "\x7b\"status\":\"SUCCESS\",\"records\":[\x7b\"id\":\"1\",\"name\":\"www.example.com\",\"type\":\"A\",\"content\":\"10.0.0.1\",\"ttl\":\"600\",\"prio\":\"0\",\"notes\":\"\"\x7d]\x7d").GetDnsRecordById
            testRuntime "example.com" 1234).result
          = ((testClient "apikey" "secretkey" 200
          "\x7b\"status\":\"SUCCESS\",\"records\":[\x7b\"id\":\"1\",\"name\":\"www.example.com\",\"type\":\"A\",\"content\":\"10.0.0.1\",\"ttl\":\"600\",\"prio\":\"0\",\"notes\":\"\"\x7d]\x7d").GetDnsRecordById
            testRuntime "example.com" 1234).result
        ∧ ((testClient "apikey" "secretkey" 200
          "\x7b\"status\":\"SUCCESS\",\"records\":[\x7b\"id\":\"1\",\"name\":\"www.example.com\",\"type\":\"A\",\"content\":\"10.0.0.1\",\"ttl\":\"600\",\"prio\":\"0\",\"notes\":\"\"\x7d]\x7d").GetDnsRecordById
            testRuntime "example.com" 1234).result
          = .ok ⟨"SUCCESS", [⟨"1", "", "www.example.com", "A", "10.0.0.1", "600", "0"⟩]⟩) := by
  refine ⟨?_, ?_, ?_⟩
  · have T := read_operations_ignore_status testRuntime "apikey" "secretkey"
      "http://127.0.0.1:8080"
      (stubServer 200 "\x7b\"status\":\"SUCCESS\",\"yourIp\":\"127.0.0.1\"\x7d")
      (stubServer 401 "\x7b\"status\":\"SUCCESS\",\"yourIp\":\"127.0.0.1\"\x7d")
      "example.com" "" "" 1234
      ⟨"POST", "http://127.0.0.1:8080//api/json/v3/ping",
        "\x7b\"apikey\":\"apikey\",\"secretapikey\":\"secretkey\"\x7d"⟩
      ⟨200, "\x7b\"status\":\"SUCCESS\",\"yourIp\":\"127.0.0.1\"\x7d"⟩
      ⟨401, "\x7b\"status\":\"SUCCESS\",\"yourIp\":\"127.0.0.1\"\x7d"⟩ rfl rfl rfl
    obtain ⟨body, ha, hp, hl, hg⟩ := T.2.2.2.2.1 (by decide) (by decide)
    cases ha
    have hsent := hp rfl
    obtain ⟨hsent2, hsame, hok, _, _⟩ := T.1 hsent
    exact ⟨hsent, hsent2, hsame, hok _ rfl⟩
  · have T := read_operations_ignore_status testRuntime "apikey" "secretkey"
      "http://127.0.0.1:8080"
      (stubServer 200 "\x7b\"status\":\"SUCCESS\",\"records\":[\x7b\"id\":\"1\",\"name\":\"www.example.com\",\"type\":\"A\",\"content\":\"10.0.0.1\",\"ttl\":\"600\",\"prio\":\"0\",\"notes\":\"\"\x7d]\x7d")
      (stubServer 401 "\x7b\"status\":\"SUCCESS\",\"records\":[\x7b\"id\":\"1\",\"name\":\"www.example.com\",\"type\":\"A\",\"content\":\"10.0.0.1\",\"ttl\":\"600\",\"prio\":\"0\",\"notes\":\"\"\x7d]\x7d")
      "example.com" "" "" 1234
      ⟨"POST", "http://127.0.0.1:8080//api/json/v3/dns/retrieve/example.com",
        "\x7b\"apikey\":\"apikey\",\"secretapikey\":\"secretkey\"\x7d"⟩
      ⟨200, "\x7b\"status\":\"SUCCESS\",\"records\":[\x7b\"id\":\"1\",\"name\":\"www.example.com\",\"type\":\"A\",\"content\":\"10.0.0.1\",\"ttl\":\"600\",\"prio\":\"0\",\"notes\":\"\"\x7d]\x7d"⟩
      ⟨401, "\x7b\"status\":\"SUCCESS\",\"records\":[\x7b\"id\":\"1\",\"name\":\"www.example.com\",\"type\":\"A\",\"content\":\"10.0.0.1\",\"ttl\":\"600\",\"prio\":\"0\",\"notes\":\"\"\x7d]\x7d"⟩ rfl rfl rfl
    obtain ⟨body, ha, hp, hl, hg⟩ := T.2.2.2.2.1 (by decide) (by decide)
    cases ha
    have hsent := hl rfl
    obtain ⟨hsent2, hsame, hok, _, _⟩ := T.2.1 hsent
    exact ⟨hsent, hsent2, hsame, hok _ rfl⟩
  · have T := read_operations_ignore_status testRuntime "apikey" "secretkey"
      "http://127.0.0.1:8080"
      (stubServer 200 "\x7b\"status\":\"SUCCESS\",\"records\":[\x7b\"id\":\"1\",\"name\":\"www.example.com\",\"type\":\"A\",\"content\":\"10.0.0.1\",\"ttl\":\"600\",\"prio\":\"0\",\"notes\":\"\"\x7d]\x7d")
      (stubServer 401 "\x7b\"status\":\"SUCCESS\",\"records\":[\x7b\"id\":\"1\",\"name\":\"www.example.com\",\"type\":\"A\",\"content\":\"10.0.0.1\",\"ttl\":\"600\",\"prio\":\"0\",\"notes\":\"\"\x7d]\x7d")
      "example.com" "" "" 1234
      ⟨"POST", "http://127.0.0.1:8080//api/json/v3/dns/retrieve/example.com/1234",
        "\x7b\"apikey\":\"apikey\",\"secretapikey\":\"secretkey\"\x7d"⟩
      ⟨200, "\x7b\"status\":\"SUCCESS\",\"records\":[\x7b\"id\":\"1\",\"name\":\"www.example.com\",\"type\":\"A\",\"content\":\"10.0.0.1\",\"ttl\":\"600\",\"prio\":\"0\",\"notes\":\"\"\x7d]\x7d"⟩
      ⟨401, "\x7b\"status\":\"SUCCESS\",\"records\":[\x7b\"id\":\"1\",\"name\":\"www.example.com\",\"type\":\"A\",\"content\":\"10.0.0.1\",\"ttl\":\"600\",\"prio\":\"0\",\"notes\":\"\"\x7d]\x7d"⟩ rfl rfl rfl
    obtain ⟨body, ha, hp, hl, hg⟩ := T.2.2.2.2.1 (by decide) (by decide)
    cases ha
    have hsent := hg rfl
    obtain ⟨hsent2, hsame, hok, _, _⟩ := T.2.2.1 hsent
    exact ⟨hsent, hsent2, hsame, hok _ rfl⟩

/-- The three operations against a stub server that answers 401 with the body of a successful
answer: each returns the decoded response, as against one that answers 200. -/
theorem read_operations_unauthorized :
    ((testClient "apikey" "secretkey" 401
          "\x7b\"status\":\"SUCCESS\",\"yourIp\":\"127.0.0.1\"\x7d").Ping testRuntime).result
        = .ok ⟨"SUCCESS", "127.0.0.1"⟩
      ∧ ((testClient "apikey" "secretkey" 401
          "\x7b\"status\":\"SUCCESS\",\"records\":[\x7b\"id\":\"1\",\"type\":\"A\"\x7d]\x7d").ListDnsRecords
            testRuntime "example.com" "" "").result
        = .ok ⟨"SUCCESS", [⟨"1", "", "", "A", "", "", ""⟩]⟩
      ∧ ((testClient "apikey" "secretkey" 401
          "\x7b\"status\":\"SUCCESS\",\"records\":[]\x7d").GetDnsRecordById
            testRuntime "example.com" 1234).result
        = .ok ⟨"SUCCESS", []⟩ :=
  ⟨rfl, rfl, rfl⟩

end porkbun
